import Mathlib

/-!
# Socket runtime core: queued responses, dispatcher, lifecycle

A shallow embedding of `src/core/core.cc` (the `Core` class: queued-response
store, event-loop dispatcher, lifecycle transitions) and of the older
`src/core.hh` snapshot of the same class.  Mutable members of `Core` become
fields of a record that every operation takes and returns; calls into
collaborators (libuv, UDP, conduit, ...) are appended to a `trace`.  The
arrays of `src/core/json.hh`, the platform service of
`src/runtime/core/services/platform.cc` and the configuration of
`src/core/config.cc` follow, each as pure functions over the answers of the
code they call.
-/

namespace SSC

/-! ## `std::map<uint64_t, V>` -/

/-- A `std::map<uint64_t, V>`, as the list of its entries in iteration order. -/
abbrev StdMap (V : Type) := List (Nat × V)

namespace StdMap

/-- The entry found by `m.find(id)`: `none` stands for `m.end()`. -/
def find {V : Type} : StdMap V → Nat → Option V
  | [], _ => none
  | (k, v) :: rest, id => if k = id then some v else find rest id

/-- The map after `m.insert_or_assign(id, v)`; keys stay in ascending order. -/
def insertOrAssign {V : Type} : StdMap V → Nat → V → StdMap V
  | [], id, v => [(id, v)]
  | (k, w) :: rest, id, v =>
    if id < k then (id, v) :: (k, w) :: rest
    else if id = k then (id, v) :: rest
    else (k, w) :: insertOrAssign rest id v

/-- The map after `m.erase(id)`. -/
def erase {V : Type} (m : StdMap V) (id : Nat) : StdMap V :=
  m.filter (fun e => e.1 != id)

end StdMap

/-! ## Compile-time platform -/

/-- The preprocessor switches `core.cc` branches on, and the tick length of
`std::chrono::system_clock`, whose `duration` the standard leaves to the
implementation (nanoseconds in libstdc++, microseconds in libc++, 100 ns in
the MSVC library).  The macros are defined outside the sources at hand. -/
structure Platform where
  linux : Bool
  apple : Bool
  ios : Bool
  android : Bool
  systemClockTicksPerMillisecond : Nat
  deriving DecidableEq, Repr

/-- A desktop Linux build against libstdc++ (nanosecond system clock). -/
def Platform.linuxDesktop : Platform :=
  { linux := true, apple := false, ios := false, android := false,
    systemClockTicksPerMillisecond := 1000000 }

/-- A macOS build against libc++ (microsecond system clock). -/
def Platform.macOS : Platform :=
  { linux := false, apple := true, ios := false, android := false,
    systemClockTicksPerMillisecond := 1000 }

/-- An Android build. -/
def Platform.androidDevice : Platform :=
  { linux := false, apple := false, ios := false, android := true,
    systemClockTicksPerMillisecond := 1000000 }

/-! ## Data model of `core.cc` -/

/-- Modelled from the spec: the declaration of `Post` that `core.cc` compiles
against is not among the sources (only the older four-field one of `core.hh`
is).  The record follows the spec's QueuedResponse
`{id, workerId?, headers, body, length, ttl}` and the members `core.cc` reads
(`id`, `ttl`, `body`, `headers`, `workerId`); the defaults are those of
`Post{}`.  A null `body` is `none`. -/
structure Post where
  id : Nat := 0
  ttl : Nat := 0
  body : Option (List Nat) := none
  length : Nat := 0
  headers : String := ""
  workerId : String := ""
  deriving DecidableEq, Repr

/-- A callable that can sit in the dispatch queue: the lambda `runEventLoop`
queues (`initTimers(); startTimers();`) or an application callable, known by
a tag. -/
inductive Callable where
  | timers
  | user (tag : Nat)
  deriving DecidableEq, Repr

/-- `EventLoopDispatchCallback`, a `Function<void()>`: `none` is the empty
function, which compares equal to `nullptr`. -/
abbrev EventLoopDispatchCallback := Option Callable

/-- What an application callable does when invoked, as far as the dispatcher
is concerned: the callbacks it passes to `dispatchEventLoop`, in order. -/
abbrev Application := Nat → List EventLoopDispatchCallback

/-- Calls that leave `Core`: collaborators, libuv, threads. -/
inductive Event where
  | udpPauseAllSockets
  | networkStatusStop
  | conduitStop
  | notificationsStop
  | udpResumeAllSockets
  | networkStatusStart
  | conduitStart
  | notificationsStart
  | childProcessShutdown
  | uvLoopInit
  | uvAsyncInit
  | uvAsyncSend
  | uvStop
  | uvLoopClose
  | gsourceRemove
  | gsourceAttach
  | threadJoin
  | threadDelete
  | threadNew
  | dispatchAsyncPoll
  | uvTimerInit
  | uvTimerStart
  | uvTimerAgain
  | invoke (callable : Callable)
  | uvTimerStop
  | uvUpdateTime
  | msleep (ms : Int)
  | fsClose (id : Nat)
  | fsClosedir (id : Nat)
  deriving DecidableEq, Repr

/-- Modelled from the spec: `CoreFS::Descriptor` is declared in
`modules/fs.hh`, which is not among the sources.  The spec's resource carries
a retain flag and a last-used time and is a file or a directory; the record
holds what the cleanup sweep asks of a descriptor: the answers of
`isRetained()`, `isStale()`, `isDirectory()` and `isFile()`. -/
structure Descriptor where
  retained : Bool
  stale : Bool
  directory : Bool
  file : Bool
  deriving DecidableEq, Repr

/-- Modelled from the spec: the declaration of `SharedPointerBuffer` is not
among the sources.  An entry of the spec's Shared-Buffer Ledger
`{buffer, ttlMs}`, built in `retainSharedPointerBuffer` from a pointer and an
`unsigned int` ttl; the buffer is known by a number and a null pointer is
`none`. -/
structure SharedPointerBuffer where
  pointer : Option Nat
  ttl : Nat
  deriving DecidableEq, Repr

/-- `Core::Options::Features`, the feature switches `pause` and `resume` read. -/
structure Features where
  useUDP : Bool
  useNetworkStatus : Bool
  useConduit : Bool
  useNotifications : Bool
  deriving DecidableEq, Repr

/-- `Core::Options`. -/
structure Options where
  features : Features
  dedicatedLoopThread : Bool
  deriving DecidableEq, Repr

/-- The members of `Core` that `core.cc` reads and writes, the `started` flags
of its two static housekeeping timers, and the trace of outside calls.
`eventLoopThread` and `gsource` record whether the pointer is non-null;
`fsDescriptors` is the table `fs.descriptors` of the filesystem module, a null
descriptor pointer being `none`. -/
structure Core where
  options : Options
  posts : StdMap Post
  isShuttingDown : Bool
  isPaused : Bool
  isLoopRunning : Bool
  isPollingEventLoop : Bool
  didLoopInit : Bool
  didInitGSource : Bool
  didTimersInit : Bool
  didTimersStart : Bool
  gsource : Bool
  eventLoopThread : Bool
  descriptorsTimerStarted : Bool
  buffersTimerStarted : Bool
  eventLoopDispatchQueue : List EventLoopDispatchCallback
  trace : List Event
  sharedPointerBuffers : List SharedPointerBuffer
  fsDescriptors : StdMap (Option Descriptor)
  deriving DecidableEq, Repr

namespace Core

/-- Record one outside call. -/
def emit (s : Core) (e : Event) : Core :=
  { s with trace := s.trace ++ [e] }

/-- Record an outside call that is made under a condition: `if (b) e();`. -/
def emitIf (s : Core) (b : Bool) (e : Event) : Core :=
  if b then s.emit e else s

/-- A freshly constructed `Core` with every feature enabled. -/
def fresh : Core :=
  { options :=
      { features :=
          { useUDP := true, useNetworkStatus := true, useConduit := true,
            useNotifications := true },
        dedicatedLoopThread := false },
    posts := [], isShuttingDown := false, isPaused := false,
    isLoopRunning := false, isPollingEventLoop := false, didLoopInit := false,
    didInitGSource := false, didTimersInit := false, didTimersStart := false,
    gsource := false, eventLoopThread := false,
    descriptorsTimerStarted := false, buffersTimerStarted := false,
    eventLoopDispatchQueue := [], trace := [], sharedPointerBuffers := [],
    fsDescriptors := [] }

/-! ### Queued-response store -/

/-- `Core::getPost`: the stored post, or `Post{}`; the lookup goes through
`find` and `at`, never `operator[]`. -/
def getPost (s : Core) (id : Nat) : Post × Core :=
  match StdMap.find s.posts id with
  | none => ({}, s)
  | some p => (p, s)

/-- `Core::hasPost`. -/
def hasPost (s : Core) (id : Nat) : Bool :=
  (StdMap.find s.posts id).isSome

/-- `Core::removePost`. -/
def removePost (s : Core) (id : Nat) : Core :=
  if (StdMap.find s.posts id).isSome then
    { s with posts := StdMap.erase s.posts id }
  else s

/-- `Core::expirePosts`; `now` is `system_clock::now().time_since_epoch().count()`,
the reading in ticks of the system clock, not converted. -/
def expirePosts (now : Nat) (s : Core) : Core :=
  let ids := (s.posts.filter (fun e => decide (e.2.ttl < now))).map Prod.fst
  ids.foldl removePost s

/-- `Core::putPost`; `now` is the reading of the system clock in its own ticks.
`32 * 1024` milliseconds are added in the clock's unit and the sum is cast to
whole milliseconds. -/
def putPost (pf : Platform) (now : Nat) (s : Core) (id : Nat) (p : Post) : Core :=
  let p := { p with
    ttl := (now + 32 * 1024 * pf.systemClockTicksPerMillisecond)
      / pf.systemClockTicksPerMillisecond }
  { s with posts := StdMap.insertOrAssign s.posts id p }

/-- The text `createPost` hands to `createJavaScript`, given the decimal id,
the sequence, the worker id, the trimmed headers and the parameters. -/
def postDataSource (sid seq workerId headers params : String) : String :=
  "const globals = await import('socket:internal/globals');              \n"
  ++ "const id = `" ++ sid ++ "`;                                             \n"
  ++ "const seq = `" ++ seq ++ "`;                                            \n"
  ++ "const workerId = `" ++ workerId ++ "`.trim() || null;              \n"
  ++ "const headers = `" ++ headers ++ "`                          \n"
  ++ "  .trim()                                                             \n"
  ++ "  .split(/[\\r\\n]+/)                                                 \n"
  ++ "  .filter(Boolean)                                                    \n"
  ++ "  .map((header) => header.trim());                                    \n"
  ++ "                                                                      \n"
  ++ "let params = `" ++ params ++ "`;                                        \n"
  ++ "                                                                      \n"
  ++ "try \x7b                                                                 \n"
  ++ "  params = JSON.parse(params);                                        \n"
  ++ "\x7d catch (err) \x7b                                                       \n"
  ++ "  console.error(err.stack || err, params);                            \n"
  ++ "\x7d                                                                     \n"
  ++ "                                                                      \n"
  ++ "globals.get('RuntimeXHRPostQueue').dispatch(                          \n"
  ++ "  id,                                                                 \n"
  ++ "  seq,                                                                \n"
  ++ "  params,                                                             \n"
  ++ "  headers,                                                            \n"
  ++ "  \x7b workerId \x7d                                                        \n"
  ++ ");                                                                    \n"

/-- `Core::createPost`.  `createJavaScript` and `trim` are helpers defined
outside the sources at hand and are taken as given; `rand64` is the value the
call to `rand64()` yields when it is made. -/
def createPost (pf : Platform) (createJavaScript : String → String → String)
    (trim : String → String) (rand64 : Nat) (now : Nat) (s : Core)
    (seq params : String) (post : Post) : String × Core :=
  let post := if post.id = 0 then { post with id := rand64 } else post
  let sid := toString post.id
  let js := createJavaScript "post-data.js"
    (postDataSource sid seq post.workerId (trim post.headers) params)
  (js, putPost pf now s post.id post)

/-! ### Reactor and dispatcher -/

/-- `Core::initEventLoop`.  The id of an attached `GSource` is positive, so
the stale source is removed whenever one is present. -/
def initEventLoop (pf : Platform) (s : Core) : Core :=
  if s.didLoopInit then s
  else
    let s := { s with didLoopInit := true }
    let s := (s.emit .uvLoopInit).emit .uvAsyncInit
    if pf.linux && !s.options.dedicatedLoopThread && !s.didInitGSource then
      let s := if s.gsource then { s.emit .gsourceRemove with gsource := false } else s
      let s := { s with gsource := true }
      let s := s.emit .gsourceAttach
      { s with didInitGSource := true }
    else s

/-- `Core::initTimers`: both housekeeping timers are initialised on the loop. -/
def initTimers (pf : Platform) (s : Core) : Core :=
  if s.didTimersInit then s
  else
    let s := initEventLoop pf s
    let s := (s.emit .uvTimerInit).emit .uvTimerInit
    { s with didTimersInit := true }

/-- `Core::startTimers`: a started timer is restarted with `uv_timer_again`,
another one is started; `uv_timer_start` is taken to return 0, as it does for
a non-null callback on a handle that is not closing. -/
def startTimers (s : Core) : Core :=
  let s :=
    if s.descriptorsTimerStarted then s.emit .uvTimerAgain
    else { s.emit .uvTimerStart with descriptorsTimerStarted := true }
  let s :=
    if s.buffersTimerStarted then s.emit .uvTimerAgain
    else { s.emit .uvTimerStart with buffersTimerStarted := true }
  { s with didTimersStart := true }

/-- The block shared by `pauseEventLoop` and `stopEventLoop`: join the poll
thread if it is polling, then delete it.  A thread object is joinable from its
construction until it is joined, and every join in `core.cc` is followed by
the deletion, so a non-null `eventLoopThread` is joinable. -/
def joinEventLoopThread (s : Core) : Core :=
  if s.eventLoopThread then
    let s := if s.isPollingEventLoop then s.emit .threadJoin else s
    { s.emit .threadDelete with eventLoopThread := false }
  else s

/-- Whether the thread block of `pauseEventLoop` and `stopEventLoop` is
compiled in and entered: never on Apple, on Linux only with a dedicated loop
thread. -/
def ownsEventLoopThread (pf : Platform) (s : Core) : Bool :=
  !pf.apple && (!pf.linux || s.options.dedicatedLoopThread)

/-- `Core::pauseEventLoop`.  Off Linux it first spins until the dispatch queue
is empty; nothing in this sequential embedding empties the queue meanwhile, so
with a non-empty queue the call is still waiting, which is `none`. -/
def pauseEventLoop (pf : Platform) (s : Core) : Option Core :=
  if !pf.linux && s.eventLoopDispatchQueue.length != 0 then none
  else
    let s := { s with isLoopRunning := false }
    let s := s.emit .uvStop
    some (if ownsEventLoopThread pf s then joinEventLoopThread s else s)

/-- `Core::stopEventLoop`. -/
def stopEventLoop (pf : Platform) (s : Core) : Core :=
  if s.isLoopRunning then s
  else
    let s := { s with isLoopRunning := false }
    let s := s.emit .uvStop
    let s := if ownsEventLoopThread pf s then joinEventLoopThread s else s
    s.emit .uvLoopClose

/-- `Core::stop`. -/
def stop (pf : Platform) (s : Core) : Core :=
  let s := stopEventLoop pf s
  if pf.linux && s.gsource then
    let s := s.emit .gsourceRemove
    { s with gsource := false, didInitGSource := false }
  else s

/-- The tail of `Core::runEventLoop` that starts the poll routine: a block on
the serial queue on Apple, a new thread elsewhere (on Linux only with a
dedicated loop thread), after the old thread object is disposed of. -/
def startPollRoutine (pf : Platform) (s : Core) : Core :=
  if pf.apple then s.emit .dispatchAsyncPoll
  else if !pf.linux || s.options.dedicatedLoopThread then
    let s :=
      if s.eventLoopThread then
        let s := if !s.isPollingEventLoop then s.emit .threadJoin else s
        { s.emit .threadDelete with eventLoopThread := false }
      else s
    { s.emit .threadNew with eventLoopThread := true }
  else s

mutual

/-- `Core::runEventLoop`, with a bound on the depth of the calls it makes
through `dispatchEventLoop`; `none` when the bound is reached. -/
def runEventLoopFuel (pf : Platform) : Nat → Core → Option Core
  | 0, _ => none
  | n + 1, s =>
    if s.isShuttingDown || s.isLoopRunning || s.isPaused then some s
    else
      let s := { s with isLoopRunning := true, isPaused := false }
      let s := initEventLoop pf s
      match dispatchEventLoopFuel pf n (some .timers) s with
      | none => none
      | some s => some (startPollRoutine pf s)

/-- `Core::signalDispatchEventLoop`, with the same bound. -/
def signalDispatchEventLoopFuel (pf : Platform) : Nat → Core → Option Core
  | 0, _ => none
  | n + 1, s =>
    let s := initEventLoop pf s
    match runEventLoopFuel pf n s with
    | none => none
    | some s => some (s.emit .uvAsyncSend)

/-- `Core::dispatchEventLoop`, with the same bound. -/
def dispatchEventLoopFuel (pf : Platform) :
    Nat → EventLoopDispatchCallback → Core → Option Core
  | 0, _, _ => none
  | n + 1, callback, s =>
    let s := { s with eventLoopDispatchQueue := s.eventLoopDispatchQueue ++ [callback] }
    signalDispatchEventLoopFuel pf n s

end

/-- `Core::runEventLoop`.  The call chain through `dispatchEventLoop` and
`signalDispatchEventLoop` comes back to `runEventLoop` once, where the guard
returns; a bound of four calls is never reached (`runEventLoopFuel_enough`). -/
def runEventLoop (pf : Platform) (s : Core) : Core :=
  (runEventLoopFuel pf 4 s).getD s

/-- `Core::signalDispatchEventLoop` (see `signalDispatchEventLoopFuel_enough`). -/
def signalDispatchEventLoop (pf : Platform) (s : Core) : Core :=
  (signalDispatchEventLoopFuel pf 5 s).getD s

/-- `Core::dispatchEventLoop` (see `dispatchEventLoopFuel_enough`). -/
def dispatchEventLoop (pf : Platform) (callback : EventLoopDispatchCallback)
    (s : Core) : Core :=
  (dispatchEventLoopFuel pf 6 callback s).getD s

/-- The call `dispatch()` of the wake callback: the lambda of `runEventLoop`
runs `initTimers(); startTimers();`, an application callable passes its
callbacks to `dispatchEventLoop`. -/
def invokeCallable (pf : Platform) (app : Application) (c : Callable) (s : Core) : Core :=
  let s := s.emit (.invoke c)
  match c with
  | .timers => startTimers (initTimers pf s)
  | .user tag => (app tag).foldl (fun s callback => dispatchEventLoop pf callback s) s

/-- The wake callback given to `uv_async_init` in `Core::initEventLoop`; the
first argument bounds the number of turns of its `while (true)` loop, `none`
when the bound is reached before the loop breaks. -/
def asyncWake (pf : Platform) (app : Application) : Nat → Core → Option Core
  | 0, _ => none
  | fuel + 1, s =>
    match s.eventLoopDispatchQueue with
    | [] => some s
    | none :: rest => some { s with eventLoopDispatchQueue := rest }
    | some c :: rest =>
      asyncWake pf app fuel
        (invokeCallable pf app c { s with eventLoopDispatchQueue := rest })

/-! ### Lifecycle -/

/-- `Core::pause`; `none` when `pauseEventLoop` is still waiting. -/
def pause (pf : Platform) (s : Core) : Option Core :=
  if s.isPaused then some s
  else
    let s := { s with isPaused := true }
    let s := s.emitIf s.options.features.useUDP .udpPauseAllSockets
    let s := s.emitIf s.options.features.useNetworkStatus .networkStatusStop
    let s := s.emitIf s.options.features.useConduit .conduitStop
    let s := s.emitIf s.options.features.useNotifications .notificationsStop
    if !pf.android then pauseEventLoop pf s else some s

/-- `Core::resume`. -/
def resume (pf : Platform) (s : Core) : Core :=
  if !s.isPaused then s
  else
    let s := { s with isPaused := false }
    let s := runEventLoop pf s
    let s := s.emitIf s.options.features.useUDP .udpResumeAllSockets
    let s := s.emitIf s.options.features.useNetworkStatus .networkStatusStart
    let s := s.emitIf s.options.features.useConduit .conduitStart
    s.emitIf s.options.features.useNotifications .notificationsStart

/-- `Core::shutdown`; `none` when the `pause` it calls is still waiting. -/
def shutdown (pf : Platform) (s : Core) : Option Core :=
  if s.isShuttingDown || s.isPaused then some s
  else
    let s := { s with isShuttingDown := true }
    match pause pf s with
    | none => none
    | some s =>
      let s := s.emitIf (!pf.ios) .childProcessShutdown
      let s := stopEventLoop pf s
      some { s with isShuttingDown := false }

/-- The callables whose invocation a trace records, in order. -/
def invoked (trace : List Event) : List Callable :=
  trace.filterMap (fun e => match e with | .invoke c => some c | _ => none)

/-- Whether a call goes to one of the four subsystems `pause` and `resume`
stop and start. -/
def isSubsystemCall : Event → Bool
  | .udpPauseAllSockets => true
  | .networkStatusStop => true
  | .conduitStop => true
  | .notificationsStop => true
  | .udpResumeAllSockets => true
  | .networkStatusStart => true
  | .conduitStart => true
  | .notificationsStart => true
  | _ => false

/-- The calls to the four subsystems that a trace records, in order. -/
def subsystemCalls (trace : List Event) : List Event :=
  trace.filter isSubsystemCall

/-- The `Core` after `callbacks` were passed to `dispatchEventLoop` one after
the other. -/
def dispatchAll (pf : Platform) (callbacks : List EventLoopDispatchCallback)
    (s : Core) : Core :=
  callbacks.foldl (fun s callback => dispatchEventLoop pf callback s) s

/-! ### Sleeping between poll turns -/

/-- `Core::getEventLoopTimeout`: the state after the loop was fetched (and
initialised if need be) and its clock updated; the value returned is what
`uv_backend_timeout` reports, which the callers below take as an argument. -/
def getEventLoopTimeout (pf : Platform) (s : Core) : Core :=
  (initEventLoop pf s).emit .uvUpdateTime

/-- `Core::sleepEventLoop (int64_t ms)`; `backendTimeout` is the value of
`getEventLoopTimeout()`. -/
def sleepEventLoop (pf : Platform) (backendTimeout : Int) (ms : Int) (s : Core) : Core :=
  if ms > 0 then
    let s := getEventLoopTimeout pf s
    let timeout := backendTimeout
    let ms := if timeout > ms then timeout else ms
    s.emit (.msleep ms)
  else s

/-! ### Housekeeping timers -/

/-- The `for` loop of the shared-buffer sweeper: an entry with `ttl` at most
the resolution of 8 is released in place, or popped when it is the last one
(which ends the loop); another entry has 8 taken off its `ttl`. -/
def sweepSharedPointerBuffers : List SharedPointerBuffer → List SharedPointerBuffer
  | [] => []
  | entry :: rest =>
    if entry.ttl ≤ 8 then
      match rest with
      | [] => []
      | _ :: _ => { pointer := none, ttl := 0 } :: sweepSharedPointerBuffers rest
    else { entry with ttl := entry.ttl - 8 } :: sweepSharedPointerBuffers rest

/-- The `while` loop of the shared-buffer sweeper: `pop_back()` as long as the
last entry has a null pointer. -/
def popReleasedBack (buffers : List SharedPointerBuffer) : List SharedPointerBuffer :=
  (buffers.reverse.dropWhile (fun entry => entry.pointer.isNone)).reverse

/-- The `invoke` function of the timer
`releaseStrongReferenceSharedPointerBuffers`. -/
def releaseStrongReferenceSharedPointerBuffers (s : Core) : Core :=
  let buffers := popReleasedBack (sweepSharedPointerBuffers s.sharedPointerBuffers)
  let s := { s with sharedPointerBuffers := buffers }
  if buffers.length = 0 then s.emit .uvTimerStop else s

/-- One turn of the second loop of the descriptor sweep, for the id `id`.
`fs.closedir` and `fs.close` belong to the filesystem module, which is not
among the sources; they are asynchronous requests and are recorded as outside
calls. -/
def releaseStrongReferenceDescriptor (s : Core) (id : Nat) : Core :=
  match StdMap.find s.fsDescriptors id with
  | none => s
  | some none => { s with fsDescriptors := StdMap.erase s.fsDescriptors id }
  | some (some desc) =>
    if desc.retained || !desc.stale then s
    else if desc.directory then s.emit (.fsClosedir id)
    else if desc.file then s.emit (.fsClose id)
    else { s with fsDescriptors := StdMap.erase s.fsDescriptors id }

/-- The `invoke` function of the timer `releaseStrongReferenceDescriptors`:
the ids are collected first, then visited in that order. -/
def releaseStrongReferenceDescriptors (s : Core) : Core :=
  let ids := s.fsDescriptors.map Prod.fst
  ids.foldl releaseStrongReferenceDescriptor s

/-- What the descriptor sweep asks for one table entry: `closedir` for a
directory, `close` for a file, when the descriptor is there, not retained and
stale. -/
def descriptorCloseRequest (entry : Nat × Option Descriptor) : Option Event :=
  match entry.2 with
  | none => none
  | some desc =>
    if desc.retained || !desc.stale then none
    else if desc.directory then some (.fsClosedir entry.1)
    else if desc.file then some (.fsClose entry.1)
    else none

/-- `Core::retainSharedPointerBuffer`: a null pointer is refused, any other is
appended to the ledger with its ttl and the sweeper timer is restarted. -/
def retainSharedPointerBuffer (s : Core) (pointer : Option Nat) (ttl : Nat) : Core :=
  match pointer with
  | none => s
  | some buffer =>
    let entry : SharedPointerBuffer := { pointer := some buffer, ttl := ttl }
    let s := { s with sharedPointerBuffers := s.sharedPointerBuffers ++ [entry] }
    s.emit .uvTimerAgain

/-- Whether the descriptor sweep keeps a table entry: a null entry goes, and so
does a stale descriptor that is not retained and is neither a directory nor a
file. -/
def descriptorKept (entry : Option Descriptor) : Bool :=
  match entry with
  | none => false
  | some desc => desc.retained || !desc.stale || desc.directory || desc.file

end Core

/-! ## `std::map` with other keys -/

/-- A `std::map<K, V>` as the list of its entries; an entry that is inserted
under a new key goes to the end.  A loop over a map visits the entries in the
order of the list, so a map that is iterated is given with its entries in
key order; the statements proved below hold for every order. -/
abbrev KeyMap (K V : Type) := List (K × V)

namespace KeyMap

/-- The entry found by `m.find(key)`: `none` stands for `m.end()`. -/
def find {K V : Type} [DecidableEq K] : KeyMap K V → K → Option V
  | [], _ => none
  | (k, v) :: rest, key => if k = key then some v else find rest key

/-- The map after `m.insert_or_assign(key, v)` or `m[key] = v`. -/
def insertOrAssign {K V : Type} [DecidableEq K] : KeyMap K V → K → V → KeyMap K V
  | [], key, v => [(key, v)]
  | (k, w) :: rest, key, v =>
    if k = key then (key, v) :: rest else (k, w) :: insertOrAssign rest key v

/-- The map after `m.erase(key)`. -/
def erase {K V : Type} [DecidableEq K] (m : KeyMap K V) (key : K) : KeyMap K V :=
  m.filter (fun e => decide (e.1 ≠ key))

end KeyMap

/-! ## The older `Core` of `core.hh` -/

namespace Legacy

/-- `struct Post` of `core.hh`. -/
structure Post where
  body : Option (List Nat) := none
  length : Int := 0
  headers : String := ""
  bodyNeedsFree : Bool := false
  deriving DecidableEq, Repr

/-- A `Task`, known by a number; `Task{}` is 0. -/
abbrev Task := Nat

/-- The members of the `Core` class of `core.hh`: the queued responses and the
tasks. -/
structure Core where
  posts : StdMap Post
  tasks : KeyMap String Task := []
  deriving DecidableEq, Repr

/-- `Core::hasTask`. -/
def Core.hasTask (s : Core) (id : String) : Bool :=
  if id.length = 0 then false
  else (KeyMap.find s.tasks id).isNone

/-- `Core::getTask`. -/
def Core.getTask (s : Core) (id : String) : Task :=
  match KeyMap.find s.tasks id with
  | none => 0
  | some t => t

/-- `Core::removeTask`. -/
def Core.removeTask (s : Core) (id : String) : Core :=
  if (KeyMap.find s.tasks id).isNone then s
  else { s with tasks := KeyMap.erase s.tasks id }

/-- `Core::putTask`. -/
def Core.putTask (s : Core) (id : String) (t : Task) : Core :=
  { s with tasks := KeyMap.insertOrAssign s.tasks id t }

/-- `Core::getPost` of `core.hh`. -/
def Core.getPost (s : Core) (id : Nat) : Post × Core :=
  match StdMap.find s.posts id with
  | none => ({}, s)
  | some p => (p, s)

/-- The snippet `createPost` of `core.hh` assembles around the parameters and
the decimal id. -/
def postRequestScript (params sid : String) : String :=
  ";(() => \x7b"
  ++ "const xhr = new XMLHttpRequest();"
  ++ "xhr.responseType = 'arraybuffer';"
  ++ "xhr.onload = e => \x7b"
  ++ "  let o = `" ++ params ++ "`;"
  ++ "  try \x7b o = JSON.parse(o) \x7d catch (err) \x7b"
  ++ "    console.error(err, `string<$\x7bo\x7d>`)"
  ++ "  \x7d;"
  ++ "  const detail = \x7b"
  ++ "    data: xhr.response,"
  ++ "    sid: '" ++ sid ++ "',"
  ++ "    params: o"
  ++ "  \x7d;"
  ++ "  window._ipc.emit('data', detail);"
  ++ "\x7d;"
  ++ "xhr.open('GET', 'ipc://post?id=" ++ sid ++ "');"
  ++ "xhr.send();"
  ++ "\x7d)();"

/-- `Core::createPost` of `core.hh`: the id is always drawn from `rand64()`. -/
def Core.createPost (rand64 : Nat) (s : Core) (params : String) (post : Post) :
    String × Core :=
  let id := rand64
  let sid := toString id
  let js := postRequestScript params sid
  (js, { s with posts := StdMap.insertOrAssign s.posts id post })

/-! ### File and socket operations of `core.hh` -/

/-- An argument of `SSC::format`: a string for `$S`, an integer for `$i`. -/
inductive Arg where
  | str (s : String)
  | int (i : Int)
  deriving DecidableEq, Repr

/-- What `core.hh` uses and the sources at hand do not define: `SSC::format`
(from `common.hh`), and from libuv `uv_strerror`, the constant `UV_EOF` and
`uv_err_name`. -/
structure Library where
  format : String → List Arg → String
  strerror : Int → String
  uvEOF : Int
  errName : Int → String := fun _ => ""

/-- A callback object `Cb`, known by a number. -/
abbrev Cb := Nat

/-- One invocation `cb(seq, msg, post)` of a callback. -/
structure CbCall where
  cb : Cb
  seq : String
  msg : String
  post : Post
  deriving DecidableEq, Repr

/-- A request handed to libuv; socket requests name the client and whether the
TCP handle (rather than the UDP one) is used. -/
inductive Request where
  | fsOpen (path : String) (flags mode : Int)
  | fsClose (fd : Int)
  | fsRead (fd : Int) (len offset : Int)
  | fsWrite (fd : Int) (data : String) (offset : Int)
  | sendBufferSize (clientId : Nat) (tcp : Bool) (size : Int)
  | recvBufferSize (clientId : Nat) (tcp : Bool) (size : Int)
  | write (clientId : Nat) (message : String)
  | tcpKeepAlive (clientId : Nat) (timeout : Int)
  | readStart (clientId : Nat)
  | readStop (clientId : Nat) (tcp : Bool)
  | close (clientId : Nat) (tcp : Bool)
  | shutdown (clientId : Nat) (tcp : Bool)
  | getaddrinfo (hostname : String)
  deriving DecidableEq, Repr

/-- What an operation does towards the outside, in order. -/
inductive Effect where
  | request (r : Request)
  | callback (call : CbCall)
  deriving DecidableEq, Repr

/-- `struct DescriptorContext`; `data` is the read buffer, when one is set. -/
structure DescriptorContext where
  fd : Int
  seq : String
  cb : Cb
  id : Nat
  data : Option (List Nat)
  deriving DecidableEq, Repr

/-- `struct GenericContext`. -/
structure GenericContext where
  cb : Cb
  id : Nat
  seq : String
  deriving DecidableEq, Repr

/-- `struct Server`, a `Peer` with a `serverId`; an empty `cb` is `none`, the
handle pointers are recorded as non-null or null. -/
structure Server where
  cb : Option Cb := none
  seq : String := ""
  tcp : Bool := false
  udp : Bool := false
  stream : Bool := false
  serverId : Nat := 0
  deriving DecidableEq, Repr

/-- `struct Client`, a `Peer` with a `clientId` and the server it points to
(`none` for a null pointer); the values given are those of `new Client()`. -/
structure Client where
  cb : Option Cb := none
  seq : String := ""
  tcp : Bool := false
  udp : Bool := false
  stream : Bool := false
  server : Option Server := none
  clientId : Nat := 0
  deriving DecidableEq, Repr

/-- The file-scope tables of `core.hh`; a null pointer stored under an id is
`none`. -/
structure Globals where
  clients : StdMap (Option Client)
  servers : StdMap (Option Server)
  contexts : StdMap (Option GenericContext)
  descriptors : StdMap (Option DescriptorContext)
  deriving DecidableEq, Repr

/-- The tables at program start. -/
def Globals.empty : Globals :=
  { clients := [], servers := [], contexts := [], descriptors := [] }

/-- The pointer read by `table[id]` and the table afterwards: `operator[]`
inserts a null pointer under an id that has no entry. -/
def index {V : Type} (table : StdMap (Option V)) (id : Nat) :
    Option V × StdMap (Option V) :=
  match StdMap.find table id with
  | some pointer => (pointer, table)
  | none => (none, StdMap.insertOrAssign table id none)

/-- A cast to `int` of a wider integer: the value modulo `2 ^ 32`, read as a
signed 32-bit number. -/
def toInt32 (i : Int) : Int :=
  (i + 2 ^ 31) % 2 ^ 32 - 2 ^ 31

/-- A `uv_buf_t`: the bytes at `base` and the length `len` of the buffer. -/
structure Buf where
  base : List Nat
  len : Nat
  deriving DecidableEq, Repr

/-- The `allocate` lambdas of `tcpConnect`, `tcpReadStart` and `udpReadStart`:
a zeroed buffer of the size libuv suggests. -/
def allocate (suggestedSize : Nat) : Buf :=
  { base := List.replicate suggestedSize 0, len := suggestedSize }

/-- The error reply of the completion callbacks of `fsOpen`, `fsClose`, `fsRead` and `fsWrite`. -/
def completionErrTemplate : String :=
    "\x7b\n"
    ++ "          \"err\": \x7b\n"
    ++ "            \"id\": \"$S\",\n"
    ++ "            \"message\": \"$S\"\n"
    ++ "          \x7d\n"
    ++ "        \x7d"

/-- The error reply of `fsOpen`, `fsClose`, `fsRead` and `fsWrite` when libuv refuses the request. -/
def submitErrTemplate : String :=
    "\x7b\n"
    ++ "        \"err\": \x7b\n"
    ++ "          \"id\": \"$S\",\n"
    ++ "          \"message\": \"$S\"\n"
    ++ "        \x7d\n"
    ++ "      \x7d"

/-- The success reply of the completion callbacks of `fsOpen` and `fsClose`. -/
def descriptorDataTemplate : String :=
    "\x7b\n"
    ++ "          \"data\": \x7b\n"
    ++ "            \"id\": \"$S\",\n"
    ++ "            \"fd\": $S\n"
    ++ "          \x7d\n"
    ++ "        \x7d"

/-- The reply of `fsClose` for an id without descriptor. -/
def fsCloseNotOpenTemplate : String :=
    "\x7b\n"
    ++ "        \"err\": \x7b\n"
    ++ "          \"id\": \"$S\",\n"
    ++ "          \"code\": \"ENOTOPEN\",\n"
    ++ "          \"message\": \"No file descriptor found with that id\"\n"
    ++ "        \x7d\n"
    ++ "      \x7d"

/-- The reply of `fsRead` and `fsWrite` for an id without descriptor. -/
def notOpenTemplate : String :=
    "\x7b\n"
    ++ "        \"err\": \x7b\n"
    ++ "          \"code\": \"ENOTOPEN\",\n"
    ++ "          \"message\": \"No file descriptor found with that id\"\n"
    ++ "        \x7d\n"
    ++ "      \x7d"

/-- The headers of the post `fsRead` delivers. -/
def fsReadHeadersTemplate : String :=
    "\n"
    ++ "          Content-Type: \"application/octet-stream\"\n"
    ++ "          Content-Size: \"$i\"\n"
    ++ "          X-Method: \"fsRead\"\n"
    ++ "          X-Id: \"$S\"\n"
    ++ "        "

/-- The success reply of the completion callback of `fsWrite`. -/
def fsWriteDataTemplate : String :=
    "\x7b\n"
    ++ "          \"data\": \x7b\n"
    ++ "            \"id\": \"$S\",\n"
    ++ "            \"result\": \"$i\"\n"
    ++ "          \x7d\n"
    ++ "        \x7d"

/-- The reply of `sendBufferSize` for an unknown client. -/
def sendBufferSizeErrTemplate : String :=
    "\x7b\n"
    ++ "        \"err\": \x7b\n"
    ++ "          \"clientId\": \"$S\",\n"
    ++ "          \"method\": \"Cb\",\n"
    ++ "          \"message\": \"Not connected\"\n"
    ++ "        \x7d\n"
    ++ "      \x7d"

/-- The success reply of `sendBufferSize` and `recvBufferSize`. -/
def bufferSizeDataTemplate : String :=
    "\x7b\n"
    ++ "      \"data\": \x7b\n"
    ++ "        \"clientId\": \"$S\",\n"
    ++ "        \"method\": \"Cb\",\n"
    ++ "        \"size\": $i\n"
    ++ "      \x7d\n"
    ++ "    \x7d"

/-- The reply of `recvBufferSize` for an unknown client. -/
def recvBufferSizeErrTemplate : String :=
    "\x7b\n"
    ++ "        \"err\": \x7b\n"
    ++ "          \"client\": \"$S\",\n"
    ++ "          \"method\": \"Cb\",\n"
    ++ "          \"message\": \"Not connected\"\n"
    ++ "        \x7d\n"
    ++ "      \x7d"

/-- The reply of `tcpSend` for an unknown client. -/
def tcpSendErrTemplate : String :=
    "\x7b\n"
    ++ "        \"err\": \x7b\n"
    ++ "          \"clientId\": \"$S\",\n"
    ++ "          \"method\": \"emit\",\n"
    ++ "          \"message\": \"Not connected\"\n"
    ++ "        \x7d\n"
    ++ "      \x7d"

/-- The reply of the write callback of `tcpSend` on a failed write. -/
def tcpSendWriteErrTemplate : String :=
    "\x7b\n"
    ++ "          \"err\": \x7b\n"
    ++ "            \"clientId\": \"$S\",\n"
    ++ "            \"method\": \"emit\",\n"
    ++ "            \"message\": \"Write error $S\"\n"
    ++ "          \x7d\n"
    ++ "        \x7d"

/-- The headers of the posts the read callback of `tcpConnect` delivers. -/
def tcpConnectHeadersTemplate : String :=
    "\n"
    ++ "          Content-Type: \"application/octet-stream\"\n"
    ++ "          X-ClientId: \"$S\"\n"
    ++ "          X-Method: \"tcpConnect\"\n"
    ++ "        "

/-- The reply of `tcpSetKeepAlive` and `tcpReadStart` for an unknown client. -/
def noConnectionFoundTemplate : String :=
    "\x7b\n"
    ++ "        \"err\": \x7b\n"
    ++ "          \"clientId\": \"$S\",\n"
    ++ "          \"message\": \"No connection found with the specified id\"\n"
    ++ "        \x7d\n"
    ++ "      \x7d"

/-- The success reply of `tcpSetKeepAlive`. -/
def tcpSetKeepAliveDataTemplate : String :=
    "\x7b\n"
    ++ "      \"data\": \x7b\x7d\n"
    ++ "    \x7d"

/-- The headers of the posts the read callback of `tcpReadStart` delivers. -/
def tcpReadStartHeadersTemplate : String :=
    "\n"
    ++ "          Content-Type: application/octet-stream\n"
    ++ "          ServerId: $S\n"
    ++ "          ClientId: $S\n"
    ++ "          BytesRead: $i\n"
    ++ "          Method: tcpReadStart\n"
    ++ "        "

/-- The error reply of the read callback of `tcpReadStart`. -/
def tcpReadStartEofErrTemplate : String :=
    "\x7b\n"
    ++ "            \"err\": \x7b\n"
    ++ "              \"serverId\": \"$S\",\n"
    ++ "              \"message\": \"zero bytes read before UV_EOF\"\n"
    ++ "            \x7d\n"
    ++ "          \x7d"

/-- The error reply of `tcpReadStart` and `udpReadStart` when libuv refuses to start reading. -/
def serverErrTemplate : String :=
    "\x7b\n"
    ++ "        \"err\": \x7b\n"
    ++ "          \"serverId\": \"$S\",\n"
    ++ "          \"message\": \"$S\"\n"
    ++ "        \x7d\n"
    ++ "      \x7d"

/-- The success reply of `tcpReadStart`, `close` and `udpReadStart`. -/
def emptyDataTemplate : String :=
    "\x7b \"data\": \x7b\x7d \x7d"

/-- The reply of `readStop` and `close` for an unknown client. -/
def noConnectionTemplate : String :=
    "\x7b\n"
    ++ "        \"err\": \x7b\n"
    ++ "          \"clientId\": \"$S\",\n"
    ++ "          \"message\": \"No connection with specified id\"\n"
    ++ "        \x7d\n"
    ++ "      \x7d"

/-- The success reply of `readStop`. -/
def readStopDataTemplate : String :=
    "\x7b \"data\": $i \x7d"

/-- The reply of `shutdown` for an unknown client. -/
def shutdownErrTemplate : String :=
    "\x7b\n"
    ++ "          \"err\": \x7b\n"
    ++ "            \"clientId\": \"$S\",\n"
    ++ "            \"message\": \"No connection with specified id\"\n"
    ++ "          \x7d\n"
    ++ "        \x7d"

/-- The reply of the completion callback of `shutdown`. -/
def shutdownDataTemplate : String :=
    "\x7b\n"
    ++ "        \"data\": \x7b\n"
    ++ "          \"status\": \"$i\"\n"
    ++ "        \x7d\n"
    ++ "      \x7d"

/-- The headers of the posts the receive callback of `udpReadStart` delivers. -/
def udpReadStartHeadersTemplate : String :=
    "\n"
    ++ "          Content-Type: \"application/octet-stream\"\n"
    ++ "          X-ServerId: \"$S\"\n"
    ++ "          X-Method: \"udpReadStart\"\n"
    ++ "          X-Port: \"$i\"\n"
    ++ "          X-Ip: \"$S\"\n"
    ++ "        "

/-- `Core::fsOpen`.  `submit` is what `uv_fs_open` returns, `result` is
`req->result` when the request completes, which it does inside
`runDefaultLoop()`; `indeterminate` is the value of the `fd` member of the
fresh `DescriptorContext`, which `new` leaves uninitialised. -/
def Core.fsOpen (lib : Library) (indeterminate submit result : Int) (g : Globals)
    (seq : String) (id : Nat) (path : String) (flags mode : Int) (cb : Cb) :
    Globals × List Effect :=
  let desc : DescriptorContext :=
    { fd := indeterminate, seq := seq, cb := cb, id := id, data := none }
  let g := { g with descriptors := StdMap.insertOrAssign g.descriptors id (some desc) }
  if submit < 0 then
    (g, [.request (.fsOpen path flags mode),
      .callback ⟨cb, seq,
        lib.format submitErrTemplate [.str (toString id), .str (lib.strerror submit)], {}⟩])
  else if result < 0 then
    (g, [.request (.fsOpen path flags mode),
      .callback ⟨desc.cb, desc.seq,
        lib.format completionErrTemplate
          [.str (toString desc.id), .str (lib.strerror result)], {}⟩])
  else
    let desc := { desc with fd := result }
    ({ g with descriptors := StdMap.insertOrAssign g.descriptors id (some desc) },
      [.request (.fsOpen path flags mode),
        .callback ⟨desc.cb, desc.seq,
          lib.format descriptorDataTemplate
            [.str (toString desc.id), .str (toString desc.fd)], {}⟩])

/-- `Core::fsClose`; `submit` is what `uv_fs_close` returns, `result` is
`req->result` at completion. -/
def Core.fsClose (lib : Library) (submit result : Int) (g : Globals) (seq : String)
    (id : Nat) (cb : Cb) : Globals × List Effect :=
  let desc := (index g.descriptors id).1
  let g := { g with descriptors := (index g.descriptors id).2 }
  match desc with
  | none =>
    (g, [.callback ⟨cb, seq, lib.format fsCloseNotOpenTemplate [.str (toString id)], {}⟩])
  | some desc =>
    let desc := { desc with seq := seq, cb := cb }
    let g := { g with descriptors := StdMap.insertOrAssign g.descriptors id (some desc) }
    if submit < 0 then
      (g, [.request (.fsClose desc.fd),
        .callback ⟨cb, seq,
          lib.format submitErrTemplate [.str (toString id), .str (lib.strerror submit)], {}⟩])
    else if result < 0 then
      (g, [.request (.fsClose desc.fd),
        .callback ⟨desc.cb, desc.seq,
          lib.format completionErrTemplate
            [.str (toString desc.id), .str (lib.strerror result)], {}⟩])
    else
      (g, [.request (.fsClose desc.fd),
        .callback ⟨desc.cb, desc.seq,
          lib.format descriptorDataTemplate
            [.str (toString desc.id), .str (toString desc.fd)], {}⟩])

/-- `Core::fsRead`; `submit` is what `uv_fs_read` returns, `result` is
`req->result` at completion and `contents` the bytes then found in the
buffer. -/
def Core.fsRead (lib : Library) (submit result : Int) (contents : List Nat) (g : Globals)
    (seq : String) (id : Nat) (len offset : Int) (cb : Cb) : Globals × List Effect :=
  let desc := (index g.descriptors id).1
  let g := { g with descriptors := (index g.descriptors id).2 }
  match desc with
  | none => (g, [.callback ⟨cb, seq, lib.format notOpenTemplate [], {}⟩])
  | some desc =>
    let desc := { desc with seq := seq, cb := cb, data := some contents }
    let g := { g with descriptors := StdMap.insertOrAssign g.descriptors id (some desc) }
    if submit < 0 then
      (g, [.request (.fsRead desc.fd len offset),
        .callback ⟨cb, seq,
          lib.format submitErrTemplate [.str (toString id), .str (lib.strerror submit)], {}⟩])
    else if result < 0 then
      (g, [.request (.fsRead desc.fd len offset),
        .callback ⟨desc.cb, desc.seq, "\x7b\x7d", {}⟩])
    else
      let headers := lib.format fsReadHeadersTemplate
        [.int (toInt32 result), .str (toString desc.id)]
      let post : Post :=
        { body := desc.data, length := toInt32 result, headers := headers,
          bodyNeedsFree := true }
      (g, [.request (.fsRead desc.fd len offset),
        .callback ⟨desc.cb, desc.seq, "\x7b\x7d", post⟩])

/-- `Core::fsWrite`; `submit` is what `uv_fs_write` returns, `result` is
`req->result` at completion. -/
def Core.fsWrite (lib : Library) (submit result : Int) (g : Globals) (seq : String)
    (id : Nat) (data : String) (offset : Int) (cb : Cb) : Globals × List Effect :=
  let desc := (index g.descriptors id).1
  let g := { g with descriptors := (index g.descriptors id).2 }
  match desc with
  | none => (g, [.callback ⟨cb, seq, lib.format notOpenTemplate [], {}⟩])
  | some desc =>
    let desc := { desc with seq := seq, cb := cb }
    let g := { g with descriptors := StdMap.insertOrAssign g.descriptors id (some desc) }
    if submit < 0 then
      (g, [.request (.fsWrite desc.fd data offset),
        .callback ⟨cb, seq,
          lib.format submitErrTemplate [.str (toString id), .str (lib.strerror submit)], {}⟩])
    else if result < 0 then
      let msg := lib.format completionErrTemplate
        [.str (toString desc.id), .str (lib.strerror result)]
      (g, [.request (.fsWrite desc.fd data offset),
        .callback ⟨desc.cb, desc.seq, msg, {}⟩,
        .callback ⟨desc.cb, desc.seq, msg, {}⟩])
    else
      let msg := lib.format fsWriteDataTemplate
        [.str (toString desc.id), .int (toInt32 result)]
      (g, [.request (.fsWrite desc.fd data offset),
        .callback ⟨desc.cb, desc.seq, msg, {}⟩])

/-- `Core::sendBufferSize`; `rSize` is what `uv_send_buffer_size` returns. -/
def Core.sendBufferSize (lib : Library) (rSize : Int) (g : Globals) (seq : String)
    (clientId : Nat) (size : Int) (cb : Cb) : Globals × List Effect :=
  let client := (index g.clients clientId).1
  let g := { g with clients := (index g.clients clientId).2 }
  match client with
  | none =>
    (g, [.callback ⟨cb, seq,
      lib.format sendBufferSizeErrTemplate [.str (toString clientId)], {}⟩])
  | some client =>
    (g, [.request (.sendBufferSize clientId client.tcp size),
      .callback ⟨cb, seq,
        lib.format bufferSizeDataTemplate [.str (toString clientId), .int rSize], {}⟩])

/-- `Core::recvBufferSize`; `rSize` is what `uv_recv_buffer_size` returns. -/
def Core.recvBufferSize (lib : Library) (rSize : Int) (g : Globals) (seq : String)
    (clientId : Nat) (size : Int) (cb : Cb) : Globals × List Effect :=
  let client := (index g.clients clientId).1
  let g := { g with clients := (index g.clients clientId).2 }
  match client with
  | none =>
    (g, [.callback ⟨cb, seq,
      lib.format recvBufferSizeErrTemplate [.str (toString clientId)], {}⟩])
  | some client =>
    (g, [.request (.recvBufferSize clientId client.tcp size),
      .callback ⟨cb, seq,
        lib.format bufferSizeDataTemplate [.str (toString clientId), .int rSize], {}⟩])

/-- `Core::tcpSend`; `status` is the status libuv hands to the write
callback. -/
def Core.tcpSend (lib : Library) (status : Int) (g : Globals) (clientId : Nat)
    (message : String) (cb : Cb) : Globals × List Effect :=
  let client := (index g.clients clientId).1
  let g := { g with clients := (index g.clients clientId).2 }
  match client with
  | none =>
    (g, [.callback ⟨cb, "-1", lib.format tcpSendErrTemplate [.str (toString clientId)], {}⟩])
  | some _ =>
    let ctx : GenericContext := { cb := cb, id := clientId, seq := "" }
    let g := { g with contexts := StdMap.insertOrAssign g.contexts clientId (some ctx) }
    if status ≠ 0 then
      (g, [.request (.write clientId message),
        .callback ⟨ctx.cb, "-1",
          lib.format tcpSendWriteErrTemplate
            [.str (toString ctx.id), .str (lib.strerror status)], {}⟩])
    else (g, [.request (.write clientId message)])

/-- `Core::tcpSetKeepAlive`. -/
def Core.tcpSetKeepAlive (lib : Library) (g : Globals) (seq : String) (clientId : Nat)
    (timeout : Int) (cb : Cb) : Globals × List Effect :=
  let client := (index g.clients clientId).1
  let g := { g with clients := (index g.clients clientId).2 }
  match client with
  | none =>
    (g, [.callback ⟨cb, seq,
      lib.format noConnectionFoundTemplate [.str (toString clientId)], {}⟩])
  | some client =>
    let client := { client with seq := seq, cb := some cb, clientId := clientId }
    let g := { g with clients := StdMap.insertOrAssign g.clients clientId (some client) }
    (g, [.request (.tcpKeepAlive clientId timeout),
      .callback ⟨cb, seq, lib.format tcpSetKeepAliveDataTemplate [], {}⟩])

/-- The `onRead` lambda of `Core::tcpReadStart`, for a client whose server
pointer leads to `server` with callback `serverCb`.  `indeterminate` is the
value of the `bodyNeedsFree` member of the local `Post post;`, which is never
assigned. -/
def Core.tcpReadStartOnRead (lib : Library) (indeterminate : Bool) (client : Client)
    (server : Server) (serverCb : Cb) (nread : Int) (buf : Buf) : List Effect :=
  if nread > 0 then
    let headers := lib.format tcpReadStartHeadersTemplate
      [.str (toString server.serverId), .str (toString client.clientId),
        .int (toInt32 nread)]
    let post : Post :=
      { body := some buf.base, length := toInt32 buf.len, headers := headers,
        bodyNeedsFree := indeterminate }
    [.callback ⟨serverCb, "-1", "\x7b\x7d", post⟩]
  else if nread < 0 then
    (if nread ≠ lib.uvEOF then
      [.callback ⟨serverCb, "-1",
        lib.format tcpReadStartEofErrTemplate [.str (toString server.serverId)], {}⟩]
    else [])
    ++ [.request (.close client.clientId true)]
  else []

/-- `Core::tcpReadStart`; `err` is what `uv_read_start` returns and `reads`
are the reads libuv reports while `runDefaultLoop()` runs.  The function
reads through `client->server` and calls the server's callback; with a null
server pointer or an empty callback that has no defined outcome, which is
`none`. -/
def Core.tcpReadStart (lib : Library) (indeterminate : Bool) (err : Int)
    (reads : List (Int × Buf)) (g : Globals) (seq : String) (clientId : Nat) (cb : Cb) :
    Option (Globals × List Effect) :=
  let client := (index g.clients clientId).1
  let g := { g with clients := (index g.clients clientId).2 }
  match client with
  | none =>
    some (g, [.callback ⟨cb, seq,
      lib.format noConnectionFoundTemplate [.str (toString clientId)], {}⟩])
  | some client =>
    let client := { client with seq := seq, cb := some cb }
    let g := { g with clients := StdMap.insertOrAssign g.clients clientId (some client) }
    match client.server with
    | none => none
    | some server =>
      if err < 0 then
        some (g, [.request (.readStart clientId),
          .callback ⟨cb, seq,
            lib.format serverErrTemplate
              [.str (toString server.serverId), .str (lib.strerror err)], {}⟩])
      else
        match server.cb with
        | none => none
        | some serverCb =>
          some (g, [.request (.readStart clientId),
            .callback ⟨serverCb, server.seq, lib.format emptyDataTemplate [], {}⟩]
            ++ (reads.map (fun read =>
              Core.tcpReadStartOnRead lib indeterminate client server serverCb
                read.1 read.2)).flatten)

/-- `Core::readStop`; `r` is what `uv_read_stop` returns. -/
def Core.readStop (lib : Library) (r : Int) (g : Globals) (seq : String) (clientId : Nat)
    (cb : Cb) : Globals × List Effect :=
  let client := (index g.clients clientId).1
  let g := { g with clients := (index g.clients clientId).2 }
  match client with
  | none =>
    (g, [.callback ⟨cb, seq, lib.format noConnectionTemplate [.str (toString clientId)], {}⟩])
  | some client =>
    (g, [.request (.readStop clientId client.tcp),
      .callback ⟨cb, seq, lib.format readStopDataTemplate [.int r], {}⟩])

/-- `Core::close`; the close callback runs inside `runDefaultLoop()`. -/
def Core.close (lib : Library) (g : Globals) (seq : String) (clientId : Nat) (cb : Cb) :
    Globals × List Effect :=
  let client := (index g.clients clientId).1
  let g := { g with clients := (index g.clients clientId).2 }
  match client with
  | none =>
    (g, [.callback ⟨cb, seq, lib.format noConnectionTemplate [.str (toString clientId)], {}⟩])
  | some client =>
    let client := { client with seq := seq, cb := some cb, clientId := clientId }
    let g := { g with clients := StdMap.insertOrAssign g.clients clientId (some client) }
    (g, [.request (.close clientId client.tcp),
      .callback ⟨cb, seq, lib.format emptyDataTemplate [], {}⟩])

/-- `Core::shutdown` of `core.hh`; `status` is the status libuv hands to the
shutdown callback. -/
def Core.shutdown (lib : Library) (status : Int) (g : Globals) (seq : String)
    (clientId : Nat) (cb : Cb) : Globals × List Effect :=
  let client := (index g.clients clientId).1
  let g := { g with clients := (index g.clients clientId).2 }
  match client with
  | none =>
    (g, [.callback ⟨cb, seq, lib.format shutdownErrTemplate [.str (toString clientId)], {}⟩])
  | some client =>
    let client := { client with seq := seq, cb := some cb, clientId := clientId }
    let g := { g with clients := StdMap.insertOrAssign g.clients clientId (some client) }
    (g, [.request (.shutdown clientId client.tcp),
      .callback ⟨cb, seq, lib.format shutdownDataTemplate [.int status], {}⟩])

/-- The `onRead` lambda of `Core::tcpConnect`, for a client with callback
`clientCb`; it does not look at `nread`. -/
def Core.tcpConnectOnRead (lib : Library) (indeterminate : Bool) (client : Client)
    (clientCb : Cb) (_nread : Int) (buf : Buf) : List Effect :=
  let headers := lib.format tcpConnectHeadersTemplate [.str (toString client.clientId)]
  let post : Post :=
    { body := some buf.base, length := toInt32 buf.len, headers := headers,
      bodyNeedsFree := indeterminate }
  [.callback ⟨clientCb, "-1", "\x7b\x7d", post⟩]

/-- The receive lambda of `Core::udpReadStart`, for a server with callback
`serverCb`; `port` and `ip` are what `parseAddress` reads from the sender's
address. -/
def Core.udpReadStartOnRecv (lib : Library) (indeterminate : Bool) (server : Server)
    (serverCb : Cb) (nread : Int) (buf : Buf) (port : Int) (ip : String) : List Effect :=
  if nread > 0 then
    let headers := lib.format udpReadStartHeadersTemplate
      [.str (toString server.serverId), .int port, .str ip]
    let post : Post :=
      { body := some buf.base, length := toInt32 buf.len, headers := headers,
        bodyNeedsFree := indeterminate }
    [.callback ⟨serverCb, "-1", "\x7b\x7d", post⟩]
  else []

/-- The error reply of the resolver callback of `dnsLookup`. -/
def dnsErrTemplate : String :=
    "\x7b\n"
    ++ "          \"err\": \x7b\n"
    ++ "            \"code\": \"$S\",\n"
    ++ "            \"message\": \"$S\"\n"
    ++ "          \x7d\n"
    ++ "        \x7d"

/-- The success reply of the resolver callback of `dnsLookup`. -/
def dnsDataTemplate : String :=
    "\x7b \"data\": \"$S\" \x7d"

/-- `Core::dnsLookup`.  `ctxId` is the value drawn from `rand64()`, `status` is
the status libuv hands to the resolver callback, which runs inside
`runDefaultLoop()`, and `text` is the text that `uv_ip4_name` writes for the
resolved address into the zeroed 17-byte array `addr` (at most 15 characters,
as it is given 16 bytes).  The reply carries `String ip(addr, 17)`: the 17
bytes of the array. -/
def Core.dnsLookup (lib : Library) (ctxId : Nat) (status : Int) (text : String)
    (g : Globals) (seq hostname : String) (cb : Cb) : Globals × List Effect :=
  let ctx : GenericContext := { cb := cb, id := ctxId, seq := seq }
  let g := { g with contexts := StdMap.insertOrAssign g.contexts ctxId (some ctx) }
  if status < 0 then
    ({ g with contexts := StdMap.erase g.contexts ctx.id },
      [.request (.getaddrinfo hostname),
        .callback ⟨ctx.cb, ctx.seq,
          lib.format dnsErrTemplate
            [.str (lib.errName (toInt32 status)), .str (lib.strerror status)], {}⟩])
  else
    let ip := String.mk (text.toList ++ List.replicate (17 - text.length) (Char.ofNat 0))
    ({ g with contexts := StdMap.erase g.contexts ctx.id },
      [.request (.getaddrinfo hostname),
        .callback ⟨ctx.cb, ctx.seq, lib.format dnsDataTemplate [.str ip], {}⟩])

/-- The characters of a template with the placeholders `$S` and `$i` replaced,
left to right, by the arguments. -/
def substitute : List Char → List Arg → List Char
  | [], _ => []
  | '$' :: 'S' :: rest, .str s :: args => s.toList ++ substitute rest args
  | '$' :: 'i' :: rest, .int i :: args => (toString i).toList ++ substitute rest args
  | c :: rest, args => c :: substitute rest args

/-- One library to run the operations on: placeholders are replaced left to
right, the text of an error is `errno` and its number, `UV_EOF` is -4095. -/
def Library.sample : Library :=
  { format := fun template args => String.mk (substitute template.toList args),
    strerror := fun code => "errno " ++ toString code,
    uvEOF := -4095,
    errName := fun code => "E" ++ toString code }

end Legacy

/-! ## JSON values of `core/json.hh` -/

namespace JSON

/-- A JSON value: `JSON::Any` with the value it wraps.  A number is a `double`
in the source and is kept here as an integer; no function below computes with
numbers. -/
inductive Any where
  | null
  | object (entries : List (String × Any))
  | array (entries : List Any)
  | boolean (value : Bool)
  | number (value : Int)
  | string (value : String)
  | raw (source : String)

/-- `JSON::ObjectEntries`, a `std::map<String, Any>`. -/
abbrev ObjectEntries := KeyMap String Any

/-- `JSON::ArrayEntries`, a `Vector<Any>`. -/
abbrev ArrayEntries := List Any

/-- `JSON::Array`: the entries are its `data`. -/
structure Array where
  data : ArrayEntries

/-- `Array::has (const unsigned int index)`. -/
def Array.has (self : Array) (index : Nat) : Bool :=
  decide (self.data.length < index)

/-- `Array::size`. -/
def Array.size (self : Array) : Nat :=
  self.data.length

/-- `Array::get (const unsigned int index)`; `nullptr` converts to the null
value. -/
def Array.get (self : Array) (index : Nat) : Any :=
  if h : index < self.data.length then self.data.get ⟨index, h⟩
  else .null

end JSON

/-! ## The platform service of `runtime/core/services/platform.cc` -/

namespace Runtime

/-- The build target: which of the `SOCKET_RUNTIME_PLATFORM_*` macros are set.
The header that defines them is not among the sources, so no relation between
them is assumed. -/
structure Target where
  macos : Bool := false
  ios : Bool := false
  apple : Bool := false
  linux : Bool := false
  windows : Bool := false
  android : Bool := false
  deriving DecidableEq, Repr

/-- What `exec` returns. -/
structure ExecResult where
  exitCode : Int
  output : String
  deriving DecidableEq, Repr

/-- What `gtk_show_uri_on_window` reports: its result and the message of the
`GError` it filled in, if it did. -/
structure ShowResult where
  success : Bool
  err : Option String
  deriving DecidableEq, Repr

/-- The outside world of the platform service: `decodeURIComponent` and `exec`
(other files of the runtime), and the answers of the operating system.
`selectFile` is what `NSWorkspace` answers for a path, `absoluteString` the
text of the `NSURL` made from a value, `openURL` the `success` the iOS
completion handler gets, `workspaceOpenURL` the description of the error the
macOS completion handler gets (`none` without error), `toplevels` the data of
the entries of `gtk_window_list_toplevels()` (`none` for a null window),
`showURI` the outcome of `gtk_show_uri_on_window`, and `hasException` whether
the Android call left an exception. -/
structure Host where
  decodeURIComponent : String → String
  exec : String → ExecResult
  selectFile : String → Bool
  absoluteString : String → String
  openURL : String → Bool
  workspaceOpenURL : String → Option String
  toplevels : List (Option Nat)
  showURI : Nat → String → ShowResult
  hasException : String → Bool

/-- The members of the `Platform` service that its functions write. -/
structure Platform where
  wasFirstDOMContentLoadedEventDispatched : Bool := false
  deriving DecidableEq, Repr

/-- One call `callback(seq, json, QueuedResponse{})`: the third argument is
the empty response at every call site, and `json` is an object at every call
site, given here by its entries. -/
structure Reply where
  seq : String
  json : JSON.ObjectEntries

/-- `Platform::event`. -/
def Platform.event (self : Platform) (seq event _data _frameType _frameSource : String) :
    Platform × Reply :=
  let self :=
    if event = "domcontentloaded" then
      { self with wasFirstDOMContentLoadedEventDispatched := true }
    else self
  let json : JSON.ObjectEntries :=
    [("source", .string "platform.event"), ("data", .object [])]
  (self, { seq := seq, json := json })

/-- `Platform::revealFile`. -/
def Platform.revealFile (target : Target) (host : Host) (seq value : String) : Reply :=
  let errorMessage := "Failed to open external file"
  let pathToFile := host.decodeURIComponent value
  let success := false
  let json : JSON.ObjectEntries := [("source", .string "platform.revealFile")]
  let outcome : Bool × String :=
    if target.macos then (host.selectFile pathToFile, errorMessage)
    else if target.linux then
      let result := host.exec ("xdg-open " ++ pathToFile)
      (result.exitCode == 0, result.output)
    else if target.windows then
      let result := host.exec ("explorer.exe \"" ++ pathToFile ++ "\"")
      (result.exitCode == 0, result.output)
    else (success, errorMessage)
  let success := outcome.1
  let errorMessage := outcome.2
  let json :=
    if !success then
      KeyMap.insertOrAssign json "err" (.object [("message", .string errorMessage)])
    else KeyMap.insertOrAssign json "data" (.object [])
  { seq := seq, json := json }

/-- The loop of the Linux branch of `Platform::openExternal` over the toplevel
windows: the first window that is not null is asked to show the URI, and the
loop ends there. -/
def openExternalWindows (host : Host) (value : String) (json : JSON.ObjectEntries) :
    List (Option Nat) → JSON.ObjectEntries
  | [] => json
  | none :: rest => openExternalWindows host value json rest
  | some window :: _ =>
    let shown := host.showURI window value
    if shown.success then
      [("source", .string "platform.openExternal"), ("data", .object [])]
    else
      match shown.err with
      | some message =>
        [("source", .string "platform.openExternal"),
          ("err", .object [("message", .string message)])]
      | none => json

/-- `Platform::openExternal`: the reply that the branch compiled for the target
passes to the callback (on Apple from the completion handler of the
dispatched block). -/
def Platform.openExternal (target : Target) (host : Host) (seq value : String) : Reply :=
  if target.apple then
    let url := host.absoluteString value
    if target.ios then
      if !host.openURL value then
        { seq := seq,
          json := [("source", .string "platform.openExternal"),
            ("err", .object [("message", .string "Failed to open external URL")])] }
      else
        { seq := seq,
          json := [("source", .string "platform.openExternal"),
            ("data", .object [("url", .string url)])] }
    else
      match host.workspaceOpenURL value with
      | some description =>
        { seq := seq,
          json := [("source", .string "platform.openExternal"),
            ("err", .object [("message", .string description)])] }
      | none =>
        { seq := seq,
          json := [("source", .string "platform.openExternal"),
            ("data", .object [("url", .string url)])] }
  else if target.linux then
    let json : JSON.ObjectEntries :=
      [("source", .string "platform.openExternal"),
        ("err", .object [("message", .string "Failed to open external URL")])]
    { seq := seq, json := openExternalWindows host value json host.toplevels }
  else if target.windows then
    { seq := seq, json := [] }
  else if target.android then
    if host.hasException value then
      { seq := seq,
        json := [("source", .string "platform.openExternal"),
          ("err", .object [("message", .string "Failed to open external URL")])] }
    else
      { seq := seq,
        json := [("source", .string "platform.openExternal"),
          ("data", .object [("url", .string value)])] }
  else
    { seq := seq,
      json := [("source", .string "platform.openExternal"),
        ("err", .object [("type", .string "NotSupportedError"),
          ("message", .string "Operation not supported")])] }

/-- Whether a reply has a `source` string equal to `handler` and exactly one of
`data` and `err` among its top-level keys. -/
def Reply.hasSourceAndOneOf (handler : String) (reply : Reply) : Bool :=
  (match KeyMap.find reply.json "source" with
    | some (.string name) => name == handler
    | _ => false)
  && ((KeyMap.find reply.json "data").isSome != (KeyMap.find reply.json "err").isSome)

/-- A host on which every outside call fails. -/
def Host.failing : Host :=
  { decodeURIComponent := fun value => value,
    exec := fun _ => { exitCode := 1, output := "" },
    selectFile := fun _ => false,
    absoluteString := fun value => value,
    openURL := fun _ => false,
    workspaceOpenURL := fun _ => some "failed",
    toplevels := [],
    showURI := fun _ _ => { success := false, err := none },
    hasException := fun _ => true }

end Runtime

/-! ## The configuration of `core/config.cc` -/

/-- `Map`, a `std::map<String, String>`; the list is taken in the order in
which the map is iterated. -/
abbrev Map := KeyMap String String

/-- `s.starts_with(p)`. -/
def startsWith (s p : String) : Bool :=
  p.toList.isPrefixOf s.toList

/-- `s.ends_with(p)`. -/
def endsWith (s p : String) : Bool :=
  p.toList.isSuffixOf s.toList

/-- `s.find(p) != String::npos`. -/
def containsText (s p : String) : Bool :=
  decide (p.toList <:+: s.toList)

/-- `s.substr(pos, count)` for `pos` within the string. -/
def substr (s : String) (pos count : Nat) : String :=
  String.mk ((s.toList.drop pos).take count)

/-- The helpers of `string.hh` that `config.cc` calls and that are not among
the sources: `trim`, `split`, `join` and `tmpl`. -/
structure Strings where
  trim : String → String
  split : String → String → List String
  join : List String → String → String
  tmpl : String → Map → String

/-- `Config`: the member `prefix` and the map. -/
structure Config where
  pfx : String := ""
  map : Map := []
  deriving DecidableEq, Repr

namespace Config

/-- The local `struct State` of `Config::query`. -/
structure State where
  paths : List String := []
  targets : List String := []
  property : String := ""
  compared : String := ""
  token : String := ""
  parsingSingleQuote : Bool := false
  parsingDoubleQuote : Bool := false
  parsingNamespace : Bool := false
  parsingProperty : Bool := false
  negate : Bool := false
  compare : Bool := false
  deriving DecidableEq, Repr

/-- The last statement of a turn of the character loop of `Config::query`:
the character goes to `compared` or to `token`. -/
def State.append (state : State) (ch : Char) : State :=
  if state.compare then { state with compared := state.compared.push ch }
  else { state with token := state.token.push ch }

/-- The character loop of `Config::query` over the characters that are left;
`none` is the error return `Config \x7b\x7d`.  The character after the current
one, `query[i + 1]`, is the head of the rest (the terminating NUL at the end,
which is not `=`). -/
def parse : List Char → State → Option State
  | [], state => some state
  | ch :: rest, state =>
    if ch = '[' then
      if state.parsingNamespace then none
      else parse rest { state with parsingNamespace := true, token := "" }
    else if ch = ']' then
      if !state.parsingNamespace then none
      else if state.token.length = 0 then
        parse rest { state with parsingNamespace := false, paths := state.paths ++ ["*"] }
      else
        parse rest
          { state with
            parsingNamespace := false, paths := state.paths ++ [state.token], token := "" }
    else if state.parsingNamespace then
      parse rest { state with token := state.token.push ch }
    else if ch = '.' then
      parse rest { state with parsingProperty := true }
    else if state.parsingProperty then
      if ch = ' ' && state.token.length = 0 then parse rest state
      else if ch = Char.ofNat 34 then
        if !state.parsingSingleQuote then
          parse rest { state with parsingDoubleQuote := state.token.length = 0 }
        else parse rest (state.append ch)
      else if ch = Char.ofNat 39 then
        if !state.parsingDoubleQuote then
          parse rest { state with parsingSingleQuote := state.token.length = 0 }
        else parse rest (state.append ch)
      else if ch = '!' && !state.parsingDoubleQuote && !state.parsingSingleQuote then
        if rest.head? = some '=' then parse rest { state with negate := true, compare := true }
        else none
      else if ch = '=' && !state.parsingDoubleQuote && !state.parsingSingleQuote then
        parse rest { state with compare := true }
      else parse rest (state.append ch)
    else parse rest state

/-- The local `prefix` of the second loop of `Config::query`: the parts of a
key without the last one, joined again.  `split` is taken to return at least
one part. -/
def sectionOf (lib : Strings) (target : String) : String :=
  lib.join (lib.split target ".").dropLast "."

/-- The local `match` of the second loop of `Config::query`. -/
def matched (lib : Strings) (path : String) (state : State) (target : String) : Bool :=
  if startsWith path "." then
    if state.compare then endsWith (sectionOf lib target) path
    else containsText (sectionOf lib target) path
  else if path = "*" then true
  else if startsWith (sectionOf lib target) path then true
  else false

/-- One turn of the second loop of `Config::query`, over the entries of the
map. -/
def collectTarget (lib : Strings) (path : String) (state : State) (tuple : String × String) :
    State :=
  if matched lib path state tuple.1 then
    if state.property = "*" then
      { state with targets := state.targets ++ [tuple.1], compare := false }
    else if state.compare || state.property.length > 0 then
      { state with targets := state.targets ++ [sectionOf lib tuple.1] }
    else { state with targets := state.targets ++ [tuple.1] }
  else state

/-- One turn of the third loop of `Config::query`, over the targets. -/
def collectResult (self : Config) (state : State) (results : Map) (target : String) : Map :=
  let key :=
    if state.compare || state.property.length > 0 then target ++ "." ++ state.property
    else target
  match KeyMap.find self.map key with
  | none => results
  | some value =>
    if state.compare then
      if state.negate then
        if value ≠ state.compared then KeyMap.insertOrAssign results key value else results
      else if value = state.compared then KeyMap.insertOrAssign results key value
      else results
    else KeyMap.insertOrAssign results key value

/-- The first statements of `Config::query`: the text that is parsed, which is
the trimmed input, put between brackets unless it starts with a bracket or a
dot, and with `[*]` in front when it starts with a dot. -/
def normalize (lib : Strings) (input : String) : String :=
  let query := lib.trim input
  let query :=
    if !startsWith query "[" && !startsWith query "." then "[" ++ query ++ "]" else query
  if startsWith query "." then "[*]" ++ query else query

/-- `Config::query`. -/
def query (lib : Strings) (self : Config) (input : String) : Config :=
  match parse (normalize lib input).toList {} with
  | none => {}
  | some state =>
    let state :=
      if state.parsingProperty && state.token.length ≠ 0 then
        { state with property := lib.trim state.token, token := "" }
      else state
    let state := { state with compared := lib.trim state.compared }
    let path := lib.join state.paths "."
    let state := self.map.foldl (collectTarget lib path) state
    { map := state.targets.foldl (collectResult self state) [] }

/-- `Config::size`. -/
def size (self : Config) : Nat :=
  self.map.length

/-- `Config::at` (`at` is a reserved word here): `std::map::at` throws
`std::out_of_range` for a key that is not in the map, which is `none`. -/
def atKey (self : Config) (key : String) : Option String :=
  KeyMap.find self.map key

/-- `Config::contains`. -/
def contains (lib : Strings) (self : Config) (key : String) : Bool :=
  if (match KeyMap.find self.map key with
      | some value => decide (value.length > 0)
      | none => false) then true
  else decide ((query lib self key).size > 0)

/-- `Config::get`; `none` when the `at` it calls throws, which ends the
program as the function is `noexcept`. -/
def get (lib : Strings) (self : Config) (key fallback : String) : Option String :=
  if contains lib self key then
    match self.atKey key with
    | none => none
    | some value =>
      if value.length > 0 then some (lib.tmpl value self.map) else some fallback
  else some fallback

/-- `Config::slice`. -/
def slice (lib : Strings) (self : Config) (key : String) : Config :=
  let view := query lib self ("[" ++ key ++ "]")
  let slice : Map :=
    view.map.foldl
      (fun slice tuple =>
        if startsWith tuple.1 (key.push '.') && decide (tuple.2.length > 0) then
          KeyMap.insertOrAssign slice (substr tuple.1 (key.length + 1) tuple.1.length) tuple.2
        else slice)
      []
  { pfx := key, map := slice }

end Config

/-- The parts of a list of characters between the occurrences of `sep`; empty
parts are kept. -/
def splitChars (sep : Char) : List Char → List Char → List (List Char)
  | [], part => [part]
  | ch :: rest, part =>
    if ch = sep then part :: splitChars sep rest [] else splitChars sep rest (part ++ [ch])

/-- The parts joined with `sep` between them. -/
def joinStrings : List String → String → String
  | [], _ => ""
  | [part], _ => part
  | part :: rest, sep => part ++ sep ++ joinStrings rest sep

/-- A concrete set of string helpers with the usual meaning: `trim` strips
blanks at both ends, `split` cuts at a one-character delimiter and keeps
empty parts, `join` puts the delimiter between the parts, and `tmpl` leaves a
value without placeholders as it is. -/
def Strings.sample : Strings :=
  { trim := fun s =>
      String.mk
        (((s.toList.dropWhile (fun ch => ch = ' ')).reverse.dropWhile
          (fun ch => ch = ' ')).reverse),
    split := fun s delimiter =>
      match delimiter.toList with
      | [sep] => (splitChars sep s.toList []).map String.mk
      | _ => [s],
    join := joinStrings,
    tmpl := fun value _ => value }

end SSC

/-! ## Lemmas on `KeyMap` -/

namespace SSC

namespace KeyMap

theorem lookup_insertOrAssign_self {K V : Type} [DecidableEq K] (m : KeyMap K V) (key : K)
    (v : V) : find (insertOrAssign m key v) key = some v := by
  induction m with
  | nil => simp [insertOrAssign, find]
  | cons e rest ih =>
    obtain ⟨k, w⟩ := e
    by_cases hk : k = key
    · simp [insertOrAssign, find, hk]
    · simp [insertOrAssign, find, hk, ih]

theorem lookup_insertOrAssign_ne {K V : Type} [DecidableEq K] (m : KeyMap K V) (key j : K)
    (v : V) (h : j ≠ key) : find (insertOrAssign m key v) j = find m j := by
  induction m with
  | nil =>
    have h1 : ¬ key = j := fun e => h e.symm
    simp [insertOrAssign, find, h1]
  | cons e rest ih =>
    obtain ⟨k, w⟩ := e
    by_cases hk : k = key
    · subst hk
      have h1 : ¬ k = j := fun e => h e.symm
      simp [insertOrAssign, find, h1]
    · by_cases hj : k = j
      · subst hj
        simp [insertOrAssign, find, hk]
      · simp [insertOrAssign, find, hk, hj, ih]

theorem lookup_erase_self {K V : Type} [DecidableEq K] (m : KeyMap K V) (key : K) :
    find (erase m key) key = none := by
  induction m with
  | nil => rfl
  | cons e rest ih =>
    obtain ⟨k, w⟩ := e
    by_cases hk : k = key
    · simpa [erase, List.filter_cons, hk] using ih
    · simp only [erase, List.filter_cons, ne_eq, hk, not_false_eq_true, decide_True, if_true,
        find, if_false]
      exact ih

end KeyMap

/-! ## Lemmas on `StdMap` -/

namespace StdMap

theorem find_insertOrAssign_self {V : Type} (m : StdMap V) (id : Nat) (v : V) :
    find (insertOrAssign m id v) id = some v := by
  induction m with
  | nil => simp [insertOrAssign, find]
  | cons e rest ih =>
    obtain ⟨k, w⟩ := e
    unfold insertOrAssign
    by_cases h1 : id < k
    · simp [h1, find]
    · by_cases h2 : id = k
      · simp [h2, find]
      · have h3 : ¬ k = id := fun h => h2 h.symm
        simp [h1, h2, find, h3, ih]

theorem find_insertOrAssign_ne {V : Type} (m : StdMap V) (id j : Nat) (v : V)
    (h : j ≠ id) : find (insertOrAssign m id v) j = find m j := by
  have h' : ¬ id = j := fun e => h e.symm
  induction m with
  | nil => simp [insertOrAssign, find, h']
  | cons e rest ih =>
    obtain ⟨k, w⟩ := e
    unfold insertOrAssign
    by_cases h1 : id < k
    · simp [h1, find, h']
    · by_cases h2 : id = k
      · subst h2
        simp [find, h']
      · by_cases h3 : k = j
        · subst h3
          simp [h1, h2, find]
        · simp [h1, h2, find, h3, ih]

theorem find_erase_self {V : Type} (m : StdMap V) (id : Nat) :
    find (erase m id) id = none := by
  induction m with
  | nil => simp [erase, find]
  | cons e rest ih =>
    obtain ⟨k, w⟩ := e
    by_cases h : k = id
    · simpa [erase, List.filter_cons, h] using ih
    · have : find (erase rest id) id = none := ih
      simp [erase, List.filter_cons, h, find] at this ⊢
      exact this

theorem find_erase_none {V : Type} (m : StdMap V) (id j : Nat)
    (h : find m j = none) : find (erase m id) j = none := by
  induction m with
  | nil => simp [erase, find]
  | cons e rest ih =>
    obtain ⟨k, w⟩ := e
    by_cases hk : k = j
    · simp [find, hk] at h
    · simp only [find, hk, if_false] at h
      have ih' : find (erase rest id) j = none := ih h
      by_cases hid : k = id
      · simpa [erase, List.filter_cons, hid] using ih'
      · simp [erase, List.filter_cons, hid, find, hk] at ih' ⊢
        exact ih'

theorem mem_of_find {V : Type} (m : StdMap V) (id : Nat) (v : V)
    (h : find m id = some v) : (id, v) ∈ m := by
  induction m with
  | nil => simp [find] at h
  | cons e rest ih =>
    obtain ⟨k, w⟩ := e
    by_cases hk : k = id
    · simp [find, hk] at h
      simp [hk, h]
    · simp only [find, hk, if_false] at h
      exact List.mem_cons_of_mem _ (ih h)

end StdMap

/-! ## Lemmas on the queued-response store -/

namespace Core

theorem removePost_find_self (s : Core) (id : Nat) :
    StdMap.find (removePost s id).posts id = none := by
  unfold removePost
  by_cases h : (StdMap.find s.posts id).isSome
  · simp [h, StdMap.find_erase_self]
  · simp only [h]
    simpa using h

theorem removePost_find_none (s : Core) (id j : Nat)
    (h : StdMap.find s.posts j = none) :
    StdMap.find (removePost s id).posts j = none := by
  unfold removePost
  by_cases hs : (StdMap.find s.posts id).isSome
  · simp [hs, StdMap.find_erase_none _ _ _ h]
  · simp [hs, h]

theorem foldl_removePost_find_none (ids : List Nat) (s : Core) (j : Nat)
    (h : StdMap.find s.posts j = none) :
    StdMap.find (ids.foldl removePost s).posts j = none := by
  induction ids generalizing s with
  | nil => simpa using h
  | cons a rest ih =>
    simp only [List.foldl_cons]
    exact ih _ (removePost_find_none s a j h)

theorem foldl_removePost_find_mem (ids : List Nat) (s : Core) (j : Nat)
    (h : j ∈ ids) : StdMap.find (ids.foldl removePost s).posts j = none := by
  induction ids generalizing s with
  | nil => simp at h
  | cons a rest ih =>
    simp only [List.foldl_cons]
    by_cases ha : a = j
    · subst ha
      exact foldl_removePost_find_none rest _ _ (removePost_find_self s a)
    · have : j ∈ rest := by
        rcases List.mem_cons.mp h with h1 | h1
        · exact absurd h1.symm ha
        · exact h1
      exact ih _ this

/-- A stored post whose `ttl` is below the reading `expirePosts` takes is gone
after the sweep. -/
theorem expirePosts_removes (now : Nat) (s : Core) (id : Nat) (p : Post)
    (hfind : StdMap.find s.posts id = some p) (hlt : p.ttl < now) :
    StdMap.find (expirePosts now s).posts id = none := by
  unfold expirePosts
  apply foldl_removePost_find_mem
  have hmem := StdMap.mem_of_find s.posts id p hfind
  simp only [List.mem_map, List.mem_filter]
  exact ⟨(id, p), ⟨hmem, by simpa using hlt⟩, rfl⟩

theorem putPost_find_self (pf : Platform) (now : Nat) (s : Core) (id : Nat) (p : Post) :
    StdMap.find (putPost pf now s id p).posts id
      = some { p with
          ttl := (now + 32 * 1024 * pf.systemClockTicksPerMillisecond)
            / pf.systemClockTicksPerMillisecond } := by
  simp [putPost, StdMap.find_insertOrAssign_self]

end Core

end SSC

/-! ## Queued-response store: claims -/

namespace SSC

/-- C1 (fails on the code): on a platform whose system clock ticks at least
twice per millisecond, a post stored by `putPost` at clock reading `now` is
erased by every `expirePosts` sweep that runs at a reading `sweep ≥ now`, so
also by a sweep at the very instant of the put or anywhere inside the 32 s
window: `putPost` stores the deadline in milliseconds, `expirePosts` compares
it with the unconverted tick count. -/
theorem expirePosts_after_putPost_drops (pf : Platform) (now sweep : Nat) (s : Core)
    (id : Nat) (p : Post) (hk : 2 ≤ pf.systemClockTicksPerMillisecond)
    (hn : 65537 ≤ now) (hs : now ≤ sweep) :
    Core.hasPost (Core.expirePosts sweep (Core.putPost pf now s id p)) id = false := by
  have hk0 : 0 < pf.systemClockTicksPerMillisecond := by omega
  have hdiv : (now + 32 * 1024 * pf.systemClockTicksPerMillisecond)
      / pf.systemClockTicksPerMillisecond
      = now / pf.systemClockTicksPerMillisecond + 32 * 1024 :=
    Nat.add_mul_div_right _ _ hk0
  have hle : now / pf.systemClockTicksPerMillisecond ≤ now / 2 :=
    Nat.div_le_div_left hk (by decide)
  have hrem := Core.expirePosts_removes sweep (Core.putPost pf now s id p) id _
    (Core.putPost_find_self pf now s id p) (by
      show (now + 32 * 1024 * pf.systemClockTicksPerMillisecond)
        / pf.systemClockTicksPerMillisecond < sweep
      rw [hdiv]
      omega)
  simp [Core.hasPost, hrem]

/-- The failing run of C1: Linux, put and sweep at the same reading
`1700000000000000000` ns. -/
theorem expirePosts_after_putPost_drops_witness :
    Core.hasPost
      (Core.expirePosts 1700000000000000000
        (Core.putPost Platform.linuxDesktop 1700000000000000000 Core.fresh 7 {})) 7
      = false :=
  expirePosts_after_putPost_drops Platform.linuxDesktop 1700000000000000000
    1700000000000000000 Core.fresh 7 {} (by decide) (by decide) (by decide)

/-- C2 as stated fails: a post put on Linux at `1700000000000000000` ns, that
is at millisecond `1700000000000`, does not get the ttl
`1700000000000 + 32000`. -/
theorem putPost_ttl_not_32000 :
    StdMap.find
      (Core.putPost Platform.linuxDesktop 1700000000000000000 Core.fresh 7 {}).posts 7
      ≠ some { ({} : Post) with ttl := 1700000000000 + 32000 } := by
  decide

/-- C2 (amended): `putPost(id, p)` stores `p` under `id` with its ttl set to
the current time in whole milliseconds plus `32 * 1024 = 32768` ms, whatever
ttl `p` carried; a lookup of `id` finds this post and no earlier one, and
every other id is looked up as before. -/
theorem putPost_ttl_32768 (pf : Platform) (now : Nat) (s : Core) (id : Nat) (p : Post)
    (hk : 0 < pf.systemClockTicksPerMillisecond) :
    StdMap.find (Core.putPost pf now s id p).posts id
        = some { p with ttl := now / pf.systemClockTicksPerMillisecond + 32768 }
      ∧ ∀ j, j ≠ id →
          StdMap.find (Core.putPost pf now s id p).posts j = StdMap.find s.posts j := by
  constructor
  · rw [Core.putPost_find_self, Nat.add_mul_div_right _ _ hk]
  · intro j hj
    simp [Core.putPost, StdMap.find_insertOrAssign_ne _ _ _ _ hj]

/-- An instance of C2 (amended): id 7 already holds a post; a put at
`1700000000000000999` ns replaces it with ttl `1700000032768`. -/
theorem putPost_ttl_32768_witness :
    StdMap.find
        (Core.putPost Platform.linuxDesktop 1700000000000000999
          { Core.fresh with posts := [(7, { ttl := 5, headers := "old" })] } 7
          { ttl := 99, headers := "new" }).posts 7
        = some { ttl := 1700000000000000999 / 1000000 + 32768, headers := "new" }
      ∧ ∀ j, j ≠ 7 →
          StdMap.find
            (Core.putPost Platform.linuxDesktop 1700000000000000999
              { Core.fresh with posts := [(7, { ttl := 5, headers := "old" })] } 7
              { ttl := 99, headers := "new" }).posts j
          = StdMap.find
              ({ Core.fresh with posts := [(7, { ttl := 5, headers := "old" })] } : Core).posts j :=
  putPost_ttl_32768 Platform.linuxDesktop 1700000000000000999
    { Core.fresh with posts := [(7, { ttl := 5, headers := "old" })] } 7
    { ttl := 99, headers := "new" } (by decide)

/-- C3: `getPost(id)` returns the post stored under `id`, or the default
`Post` when there is none, and hands back the store it was given: `hasPost`
afterwards answers as a lookup before the call, and a second `getPost`
returns the same post.  The `getPost` of `core.hh` does the same. -/
theorem getPost_reads_without_removing (s : Core) (t : Legacy.Core) (id : Nat) :
    (Core.getPost s id).1 = (StdMap.find s.posts id).getD {}
      ∧ (Core.getPost s id).2 = s
      ∧ Core.hasPost (Core.getPost s id).2 id = (StdMap.find s.posts id).isSome
      ∧ (Core.getPost (Core.getPost s id).2 id).1 = (Core.getPost s id).1
      ∧ (Legacy.Core.getPost t id).1 = (StdMap.find t.posts id).getD {}
      ∧ (Legacy.Core.getPost t id).2 = t := by
  have h2 : (Core.getPost s id).2 = s := by
    unfold Core.getPost
    cases StdMap.find s.posts id <;> rfl
  refine ⟨?_, h2, ?_, ?_, ?_, ?_⟩
  · unfold Core.getPost
    cases StdMap.find s.posts id <;> rfl
  · rw [h2]
    rfl
  · rw [h2]
  · unfold Legacy.Core.getPost
    cases StdMap.find t.posts id <;> rfl
  · unfold Legacy.Core.getPost
    cases StdMap.find t.posts id <;> rfl

/-- C4: with `id` the post's own id when that is not zero and the value drawn
from `rand64()` when it is, the snippet `createPost` returns is
`createJavaScript` applied to the text of `post-data.js` with the decimal
`id` in its id slot: the second line of that text is ``const id = `<id>`;``
and nothing else, and afterwards the store holds the post under that same
`id` (with the id and the ttl `putPost` assigns filled in).  The `createPost`
of `core.hh` likewise stores the post under the drawn id, and its snippet
ends with the request for `ipc://post?id=<id>`. -/
theorem createPost_stores_under_snippet_id (pf : Platform)
    (createJavaScript : String → String → String) (trim : String → String)
    (rand64 now : Nat) (s : Core) (seq params : String) (post : Post)
    (t : Legacy.Core) (old : Legacy.Post) :
    (Core.createPost pf createJavaScript trim rand64 now s seq params post).1
        = createJavaScript "post-data.js"
            (Core.postDataSource (toString (if post.id = 0 then rand64 else post.id)) seq
              post.workerId (trim post.headers) params)
      ∧ (∃ rest,
          Core.postDataSource (toString (if post.id = 0 then rand64 else post.id)) seq
              post.workerId (trim post.headers) params
            = "const globals = await import('socket:internal/globals');              \n"
              ++ "const id = `" ++ toString (if post.id = 0 then rand64 else post.id)
              ++ "`;                                             \n"
              ++ rest)
      ∧ StdMap.find
          (Core.createPost pf createJavaScript trim rand64 now s seq params post).2.posts
          (if post.id = 0 then rand64 else post.id)
        = some { post with
            id := if post.id = 0 then rand64 else post.id
            ttl := (now + 32 * 1024 * pf.systemClockTicksPerMillisecond)
              / pf.systemClockTicksPerMillisecond }
      ∧ (Legacy.Core.createPost rand64 t params old).1
          = Legacy.postRequestScript params (toString rand64)
      ∧ (∃ front,
          Legacy.postRequestScript params (toString rand64)
            = front ++ "xhr.open('GET', 'ipc://post?id=" ++ toString rand64 ++ "');"
              ++ "xhr.send();" ++ "\x7d)();")
      ∧ StdMap.find (Legacy.Core.createPost rand64 t params old).2.posts rand64
        = some old := by
  refine ⟨?_, ?_, ?_, rfl, ⟨_, rfl⟩, ?_⟩
  · by_cases h : post.id = 0
    · simp [Core.createPost, h]
    · simp [Core.createPost, h]
  · apply Exists.intro
    simp only [Core.postDataSource, String.append_assoc]
    rfl
  · by_cases h : post.id = 0
    · simp [Core.createPost, h, Core.putPost_find_self]
    · simp [Core.createPost, h, Core.putPost_find_self]
  · simp [Legacy.Core.createPost, StdMap.find_insertOrAssign_self]

end SSC

/-! ## Lemmas on the reactor and the dispatcher -/

namespace SSC

namespace Core

@[simp] theorem emit_trace (s : Core) (e : Event) : (s.emit e).trace = s.trace ++ [e] := rfl

@[simp] theorem emit_isLoopRunning (s : Core) (e : Event) :
    (s.emit e).isLoopRunning = s.isLoopRunning := rfl

@[simp] theorem emit_isPaused (s : Core) (e : Event) :
    (s.emit e).isPaused = s.isPaused := rfl

@[simp] theorem emit_isShuttingDown (s : Core) (e : Event) :
    (s.emit e).isShuttingDown = s.isShuttingDown := rfl

@[simp] theorem emit_options (s : Core) (e : Event) :
    (s.emit e).options = s.options := rfl

@[simp] theorem emit_queue (s : Core) (e : Event) :
    (s.emit e).eventLoopDispatchQueue = s.eventLoopDispatchQueue := rfl

@[simp] theorem emitIf_trace (s : Core) (b : Bool) (e : Event) :
    (s.emitIf b e).trace = s.trace ++ (if b then [e] else []) := by
  cases b <;> simp [emitIf]

@[simp] theorem emitIf_isLoopRunning (s : Core) (b : Bool) (e : Event) :
    (s.emitIf b e).isLoopRunning = s.isLoopRunning := by
  cases b <;> rfl

@[simp] theorem emitIf_isPaused (s : Core) (b : Bool) (e : Event) :
    (s.emitIf b e).isPaused = s.isPaused := by
  cases b <;> rfl

@[simp] theorem emitIf_isShuttingDown (s : Core) (b : Bool) (e : Event) :
    (s.emitIf b e).isShuttingDown = s.isShuttingDown := by
  cases b <;> rfl

@[simp] theorem emitIf_options (s : Core) (b : Bool) (e : Event) :
    (s.emitIf b e).options = s.options := by
  cases b <;> rfl

@[simp] theorem emitIf_queue (s : Core) (b : Bool) (e : Event) :
    (s.emitIf b e).eventLoopDispatchQueue = s.eventLoopDispatchQueue := by
  cases b <;> rfl

@[simp] theorem initEventLoop_isLoopRunning (pf : Platform) (s : Core) :
    (initEventLoop pf s).isLoopRunning = s.isLoopRunning := by
  simp only [initEventLoop, emit]
  split_ifs <;> rfl

@[simp] theorem initEventLoop_isPaused (pf : Platform) (s : Core) :
    (initEventLoop pf s).isPaused = s.isPaused := by
  simp only [initEventLoop, emit]
  split_ifs <;> rfl

@[simp] theorem initEventLoop_isShuttingDown (pf : Platform) (s : Core) :
    (initEventLoop pf s).isShuttingDown = s.isShuttingDown := by
  simp only [initEventLoop, emit]
  split_ifs <;> rfl

@[simp] theorem initEventLoop_options (pf : Platform) (s : Core) :
    (initEventLoop pf s).options = s.options := by
  simp only [initEventLoop, emit]
  split_ifs <;> rfl

@[simp] theorem initEventLoop_queue (pf : Platform) (s : Core) :
    (initEventLoop pf s).eventLoopDispatchQueue = s.eventLoopDispatchQueue := by
  simp only [initEventLoop, emit]
  split_ifs <;> rfl

theorem runEventLoopFuel_guarded (pf : Platform) (n : Nat) (s : Core)
    (h : (s.isShuttingDown || s.isLoopRunning || s.isPaused) = true) :
    runEventLoopFuel pf (n + 1) s = some s := by
  simp only [runEventLoopFuel, h, if_true]

theorem signalDispatchEventLoopFuel_guarded (pf : Platform) (n : Nat) (s : Core)
    (h : (s.isShuttingDown || s.isLoopRunning || s.isPaused) = true) :
    signalDispatchEventLoopFuel pf (n + 2) s
      = some ((initEventLoop pf s).emit .uvAsyncSend) := by
  have h' : ((initEventLoop pf s).isShuttingDown || (initEventLoop pf s).isLoopRunning
      || (initEventLoop pf s).isPaused) = true := by simpa using h
  simp only [signalDispatchEventLoopFuel, runEventLoopFuel_guarded pf n _ h']

theorem dispatchEventLoopFuel_guarded (pf : Platform) (n : Nat)
    (callback : EventLoopDispatchCallback) (s : Core)
    (h : (s.isShuttingDown || s.isLoopRunning || s.isPaused) = true) :
    dispatchEventLoopFuel pf (n + 3) callback s
      = some ((initEventLoop pf
          { s with eventLoopDispatchQueue := s.eventLoopDispatchQueue ++ [callback] }).emit
            .uvAsyncSend) := by
  simp only [dispatchEventLoopFuel]
  exact signalDispatchEventLoopFuel_guarded pf n _ h

theorem runEventLoopFuel_unguarded (pf : Platform) (n : Nat) (s : Core)
    (h : (s.isShuttingDown || s.isLoopRunning || s.isPaused) = false) :
    runEventLoopFuel pf (n + 4) s
      = some (startPollRoutine pf
          ((initEventLoop pf
            { initEventLoop pf { s with isLoopRunning := true, isPaused := false } with
              eventLoopDispatchQueue :=
                (initEventLoop pf
                  { s with isLoopRunning := true, isPaused := false }).eventLoopDispatchQueue
                  ++ [some .timers] }).emit .uvAsyncSend)) := by
  have hg : ((initEventLoop pf { s with isLoopRunning := true, isPaused := false }).isShuttingDown
      || (initEventLoop pf { s with isLoopRunning := true, isPaused := false }).isLoopRunning
      || (initEventLoop pf { s with isLoopRunning := true, isPaused := false }).isPaused)
      = true := by simp
  simp only [runEventLoopFuel, h, Bool.false_eq_true, if_false,
    dispatchEventLoopFuel_guarded pf n _ _ hg]

/-- Four nested calls are enough for `runEventLoop` to return. -/
theorem runEventLoopFuel_enough (pf : Platform) (n : Nat) (s : Core) :
    runEventLoopFuel pf (n + 4) s = some (runEventLoop pf s) := by
  unfold runEventLoop
  cases h : (s.isShuttingDown || s.isLoopRunning || s.isPaused)
  · rw [runEventLoopFuel_unguarded pf n s h, runEventLoopFuel_unguarded pf 0 s h]
    rfl
  · rw [runEventLoopFuel_guarded pf (n + 3) s h, runEventLoopFuel_guarded pf 3 s h]
    rfl

/-- Five nested calls are enough for `signalDispatchEventLoop` to return. -/
theorem signalDispatchEventLoopFuel_enough (pf : Platform) (n : Nat) (s : Core) :
    signalDispatchEventLoopFuel pf (n + 5) s = some (signalDispatchEventLoop pf s) := by
  unfold signalDispatchEventLoop
  simp only [signalDispatchEventLoopFuel, runEventLoopFuel_enough pf n,
    runEventLoopFuel_enough pf 0, Option.getD_some]

/-- Six nested calls are enough for `dispatchEventLoop` to return. -/
theorem dispatchEventLoopFuel_enough (pf : Platform) (n : Nat)
    (callback : EventLoopDispatchCallback) (s : Core) :
    dispatchEventLoopFuel pf (n + 6) callback s
      = some (dispatchEventLoop pf callback s) := by
  unfold dispatchEventLoop
  simp only [dispatchEventLoopFuel, signalDispatchEventLoopFuel_enough pf n,
    signalDispatchEventLoopFuel_enough pf 0, Option.getD_some]

theorem signalDispatchEventLoop_eq (pf : Platform) (s : Core) :
    signalDispatchEventLoop pf s
      = (runEventLoop pf (initEventLoop pf s)).emit .uvAsyncSend := by
  unfold signalDispatchEventLoop
  simp only [signalDispatchEventLoopFuel, runEventLoopFuel_enough pf 0, Option.getD_some]

theorem dispatchEventLoop_eq (pf : Platform) (callback : EventLoopDispatchCallback)
    (s : Core) :
    dispatchEventLoop pf callback s
      = signalDispatchEventLoop pf
          { s with eventLoopDispatchQueue := s.eventLoopDispatchQueue ++ [callback] } := by
  unfold dispatchEventLoop
  simp only [dispatchEventLoopFuel, signalDispatchEventLoopFuel_enough pf 0,
    Option.getD_some]

theorem runEventLoop_guarded (pf : Platform) (s : Core)
    (h : (s.isShuttingDown || s.isLoopRunning || s.isPaused) = true) :
    runEventLoop pf s = s := by
  unfold runEventLoop
  rw [runEventLoopFuel_guarded pf 3 s h]
  rfl

theorem runEventLoop_unguarded (pf : Platform) (s : Core)
    (h : (s.isShuttingDown || s.isLoopRunning || s.isPaused) = false) :
    runEventLoop pf s
      = startPollRoutine pf
          (dispatchEventLoop pf (some .timers)
            (initEventLoop pf { s with isLoopRunning := true, isPaused := false })) := by
  have hg : ((initEventLoop pf { s with isLoopRunning := true, isPaused := false }).isShuttingDown
      || (initEventLoop pf { s with isLoopRunning := true, isPaused := false }).isLoopRunning
      || (initEventLoop pf { s with isLoopRunning := true, isPaused := false }).isPaused)
      = true := by simp
  unfold runEventLoop dispatchEventLoop
  rw [runEventLoopFuel_unguarded pf 0 s h, dispatchEventLoopFuel_guarded pf 3 _ _ hg]
  rfl

end Core

end SSC

/-! ## Lemmas on the lifecycle -/

namespace SSC

namespace Core

@[simp] theorem startPollRoutine_isLoopRunning (pf : Platform) (s : Core) :
    (startPollRoutine pf s).isLoopRunning = s.isLoopRunning := by
  simp only [startPollRoutine, emit]
  split_ifs <;> rfl

@[simp] theorem startPollRoutine_isPaused (pf : Platform) (s : Core) :
    (startPollRoutine pf s).isPaused = s.isPaused := by
  simp only [startPollRoutine, emit]
  split_ifs <;> rfl

@[simp] theorem startPollRoutine_isShuttingDown (pf : Platform) (s : Core) :
    (startPollRoutine pf s).isShuttingDown = s.isShuttingDown := by
  simp only [startPollRoutine, emit]
  split_ifs <;> rfl

@[simp] theorem startPollRoutine_options (pf : Platform) (s : Core) :
    (startPollRoutine pf s).options = s.options := by
  simp only [startPollRoutine, emit]
  split_ifs <;> rfl

@[simp] theorem startPollRoutine_queue (pf : Platform) (s : Core) :
    (startPollRoutine pf s).eventLoopDispatchQueue = s.eventLoopDispatchQueue := by
  simp only [startPollRoutine, emit]
  split_ifs <;> rfl

@[simp] theorem joinEventLoopThread_isPaused (s : Core) :
    (joinEventLoopThread s).isPaused = s.isPaused := by
  simp only [joinEventLoopThread, emit]
  split_ifs <;> rfl

@[simp] theorem joinEventLoopThread_isLoopRunning (s : Core) :
    (joinEventLoopThread s).isLoopRunning = s.isLoopRunning := by
  simp only [joinEventLoopThread, emit]
  split_ifs <;> rfl

@[simp] theorem joinEventLoopThread_options (s : Core) :
    (joinEventLoopThread s).options = s.options := by
  simp only [joinEventLoopThread, emit]
  split_ifs <;> rfl

/-- The calls `joinEventLoopThread` makes are joins and deletions of the poll
thread. -/
theorem joinEventLoopThread_trace (s : Core) :
    ∃ l, (joinEventLoopThread s).trace = s.trace ++ l
      ∧ ∀ e ∈ l, e = Event.threadJoin ∨ e = Event.threadDelete := by
  simp only [joinEventLoopThread, emit]
  split_ifs
  · exact ⟨[.threadJoin, .threadDelete], by simp, by simp⟩
  · exact ⟨[.threadDelete], by simp, by simp⟩
  · exact ⟨[], by simp, by simp⟩

/-- With the loop marked running, paused or shutting down, `dispatchEventLoop`
queues the callback, initialises the loop if need be and signals it. -/
theorem dispatchEventLoop_guarded (pf : Platform) (callback : EventLoopDispatchCallback)
    (s : Core) (h : (s.isShuttingDown || s.isLoopRunning || s.isPaused) = true) :
    dispatchEventLoop pf callback s
      = (initEventLoop pf
          { s with eventLoopDispatchQueue := s.eventLoopDispatchQueue ++ [callback] }).emit
            .uvAsyncSend := by
  unfold dispatchEventLoop
  rw [dispatchEventLoopFuel_guarded pf 3 callback s h]
  rfl

theorem runEventLoop_isPaused (pf : Platform) (s : Core) (h : s.isPaused = false) :
    (runEventLoop pf s).isPaused = false := by
  cases hg : (s.isShuttingDown || s.isLoopRunning || s.isPaused)
  · rw [runEventLoop_unguarded pf s hg, dispatchEventLoop_guarded _ _ _ (by simp)]
    simp
  · rw [runEventLoop_guarded pf s hg]
    exact h

@[simp] theorem runEventLoop_options (pf : Platform) (s : Core) :
    (runEventLoop pf s).options = s.options := by
  cases hg : (s.isShuttingDown || s.isLoopRunning || s.isPaused)
  · rw [runEventLoop_unguarded pf s hg, dispatchEventLoop_guarded _ _ _ (by simp)]
    simp
  · rw [runEventLoop_guarded pf s hg]

theorem runEventLoop_isLoopRunning (pf : Platform) (s : Core)
    (h : (s.isShuttingDown || s.isLoopRunning || s.isPaused) = false) :
    (runEventLoop pf s).isLoopRunning = true := by
  rw [runEventLoop_unguarded pf s h, dispatchEventLoop_guarded _ _ _ (by simp)]
  simp

theorem pauseEventLoop_isPaused (pf : Platform) (s s1 : Core)
    (h : pauseEventLoop pf s = some s1) : s1.isPaused = s.isPaused := by
  unfold pauseEventLoop at h
  split_ifs at h
  all_goals
    cases h
    split_ifs <;> simp

theorem pauseEventLoop_returns (pf : Platform) (s : Core)
    (h : pf.linux = true ∨ s.eventLoopDispatchQueue = []) :
    ∃ s1, pauseEventLoop pf s = some s1 := by
  unfold pauseEventLoop
  rcases h with h | h <;> simp [h]

theorem pause_of_paused (pf : Platform) (s : Core) (hp : s.isPaused = true) :
    pause pf s = some s := by
  simp [pause, hp]

/-- The normal form of a `pause` that takes effect. -/
theorem pause_of_not_paused (pf : Platform) (s : Core) (hp : s.isPaused = false) :
    pause pf s
      = if pf.android then
          some (((({ s with isPaused := true }.emitIf s.options.features.useUDP
            .udpPauseAllSockets).emitIf s.options.features.useNetworkStatus
            .networkStatusStop).emitIf s.options.features.useConduit
            .conduitStop).emitIf s.options.features.useNotifications .notificationsStop)
        else
          pauseEventLoop pf (((({ s with isPaused := true }.emitIf s.options.features.useUDP
            .udpPauseAllSockets).emitIf s.options.features.useNetworkStatus
            .networkStatusStop).emitIf s.options.features.useConduit
            .conduitStop).emitIf s.options.features.useNotifications .notificationsStop) := by
  unfold pause
  simp only [hp, Bool.false_eq_true, if_false, emitIf_options]
  cases pf.android <;> rfl

/-- The normal form of a `resume` that takes effect. -/
theorem resume_of_paused (pf : Platform) (s : Core) (hp : s.isPaused = true) :
    resume pf s
      = ((((runEventLoop pf { s with isPaused := false }).emitIf s.options.features.useUDP
          .udpResumeAllSockets).emitIf s.options.features.useNetworkStatus
          .networkStatusStart).emitIf s.options.features.useConduit
          .conduitStart).emitIf s.options.features.useNotifications .notificationsStart := by
  unfold resume
  simp only [hp, Bool.not_true, Bool.false_eq_true, if_false, emitIf_options,
    runEventLoop_options]

theorem resume_of_not_paused (pf : Platform) (s : Core) (hp : s.isPaused = false) :
    resume pf s = s := by
  simp [resume, hp]

theorem pause_isPaused (pf : Platform) (s s1 : Core) (h : pause pf s = some s1) :
    s1.isPaused = true := by
  cases hp : s.isPaused
  · rw [pause_of_not_paused pf s hp] at h
    cases ha : pf.android
    · simp only [ha, Bool.false_eq_true, if_false] at h
      have := pauseEventLoop_isPaused pf _ _ h
      simpa using this
    · simp only [ha, if_true, Option.some.injEq] at h
      subst h
      simp
  · rw [pause_of_paused pf s hp] at h
    cases h
    exact hp

theorem resume_isPaused (pf : Platform) (s : Core) : (resume pf s).isPaused = false := by
  cases hp : s.isPaused
  · rw [resume_of_not_paused pf s hp]
    exact hp
  · rw [resume_of_paused pf s hp]
    simpa using runEventLoop_isPaused pf { s with isPaused := false } rfl

end Core

/-! ## Reactor and lifecycle: claims -/

/-- C7: with `isShuttingDown`, `isLoopRunning` or `isPaused` set,
`runEventLoop` returns the `Core` it was given, flags, dispatch queue and
trace of outside calls included; with none of the three set,
`isLoopRunning` is true afterwards. -/
theorem runEventLoop_guard (pf : Platform) (s : Core) :
    ((s.isShuttingDown = true ∨ s.isLoopRunning = true ∨ s.isPaused = true) →
        Core.runEventLoop pf s = s)
      ∧ (s.isShuttingDown = false → s.isLoopRunning = false → s.isPaused = false →
          (Core.runEventLoop pf s).isLoopRunning = true) := by
  constructor
  · intro h
    apply Core.runEventLoop_guarded
    rcases h with h | h | h <;> simp [h]
  · intro h1 h2 h3
    apply Core.runEventLoop_isLoopRunning
    simp [h1, h2, h3]

/-- Instances of C7 on Linux: a paused `Core` is returned as it is, a fresh
one has `isLoopRunning` set. -/
theorem runEventLoop_guard_witness :
    Core.runEventLoop Platform.linuxDesktop { Core.fresh with isPaused := true }
        = { Core.fresh with isPaused := true }
      ∧ (Core.runEventLoop Platform.linuxDesktop Core.fresh).isLoopRunning = true :=
  ⟨(runEventLoop_guard Platform.linuxDesktop { Core.fresh with isPaused := true }).1
      (Or.inr (Or.inr rfl)),
    (runEventLoop_guard Platform.linuxDesktop Core.fresh).2 rfl rfl rfl⟩

/-- C8 (fails on the code): called while the loop is running,
`stopEventLoop` returns at its first test and leaves the `Core` as it was, so
`isLoopRunning` is still true afterwards; the same holds for `stop`, which
calls it. -/
theorem stopEventLoop_running_returns_early (pf : Platform) (s : Core)
    (h : s.isLoopRunning = true) :
    Core.stopEventLoop pf s = s
      ∧ (Core.stopEventLoop pf s).isLoopRunning = true
      ∧ (Core.stop pf s).isLoopRunning = true := by
  have h1 : Core.stopEventLoop pf s = s := by simp [Core.stopEventLoop, h]
  refine ⟨h1, by rw [h1]; exact h, ?_⟩
  unfold Core.stop
  rw [h1]
  simp only [Core.emit]
  split_ifs <;> exact h

/-- The failing run of C8: a fresh `Core` on Linux whose loop was started by
`runEventLoop`. -/
theorem stopEventLoop_running_returns_early_witness :
    Core.stopEventLoop Platform.linuxDesktop
        (Core.runEventLoop Platform.linuxDesktop Core.fresh)
        = Core.runEventLoop Platform.linuxDesktop Core.fresh
      ∧ (Core.stopEventLoop Platform.linuxDesktop
          (Core.runEventLoop Platform.linuxDesktop Core.fresh)).isLoopRunning = true
      ∧ (Core.stop Platform.linuxDesktop
          (Core.runEventLoop Platform.linuxDesktop Core.fresh)).isLoopRunning = true :=
  stopEventLoop_running_returns_early Platform.linuxDesktop
    (Core.runEventLoop Platform.linuxDesktop Core.fresh) (by decide)

/-- C9: from every state, a `pause()` that follows a `pause()` which returned
`s1` returns `s1` again, with the same flags and no further outside call, and
`resume()` after `resume()` returns what the first `resume()` returned.  The
first `pause()` does return on Linux, on Android and whenever the dispatch
queue is empty. -/
theorem pause_resume_idempotent (pf : Platform) (s : Core) :
    (∀ s1, Core.pause pf s = some s1 → Core.pause pf s1 = some s1)
      ∧ Core.resume pf (Core.resume pf s) = Core.resume pf s
      ∧ ((pf.linux = true ∨ pf.android = true ∨ s.eventLoopDispatchQueue = []) →
          ∃ s1, Core.pause pf s = some s1) := by
  refine ⟨?_, ?_, ?_⟩
  · intro s1 h
    exact Core.pause_of_paused pf s1 (Core.pause_isPaused pf s s1 h)
  · exact Core.resume_of_not_paused pf _ (Core.resume_isPaused pf s)
  · intro h
    cases hp : s.isPaused
    · rw [Core.pause_of_not_paused pf s hp]
      cases ha : pf.android
      · simp only [Bool.false_eq_true, if_false]
        apply Core.pauseEventLoop_returns
        rcases h with h | h | h
        · exact Or.inl h
        · simp [ha] at h
        · exact Or.inr (by simpa using h)
      · simp
    · exact ⟨s, Core.pause_of_paused pf s hp⟩

/-- An instance of C9 on macOS: a running `Core` is paused, and pausing the
result changes nothing. -/
theorem pause_resume_idempotent_witness :
    Core.pause Platform.macOS { Core.fresh with isLoopRunning := true }
        = some
            { Core.fresh with
              isPaused := true
              trace := [.udpPauseAllSockets, .networkStatusStop, .conduitStop,
                .notificationsStop, .uvStop] }
      ∧ Core.pause Platform.macOS
          { Core.fresh with
            isPaused := true
            trace := [.udpPauseAllSockets, .networkStatusStop, .conduitStop,
              .notificationsStop, .uvStop] }
        = some
            { Core.fresh with
              isPaused := true
              trace := [.udpPauseAllSockets, .networkStatusStop, .conduitStop,
                .notificationsStop, .uvStop] } :=
  ⟨by decide,
    (pause_resume_idempotent Platform.macOS { Core.fresh with isLoopRunning := true }).1
      _ (by decide)⟩

end SSC

/-! ## Lemmas on traces and the dispatch queue -/

namespace SSC

namespace Core

theorem invoked_append (l1 l2 : List Event) : invoked (l1 ++ l2) = invoked l1 ++ invoked l2 := by
  simp [invoked, List.filterMap_append]

theorem subsystemCalls_append (l1 l2 : List Event) :
    subsystemCalls (l1 ++ l2) = subsystemCalls l1 ++ subsystemCalls l2 := by
  simp [subsystemCalls]

@[simp] theorem initEventLoop_invoked (pf : Platform) (s : Core) :
    invoked (initEventLoop pf s).trace = invoked s.trace := by
  simp only [initEventLoop, emit]
  split_ifs <;> simp [invoked, List.filterMap_append]

@[simp] theorem initEventLoop_subsystemCalls (pf : Platform) (s : Core) :
    subsystemCalls (initEventLoop pf s).trace = subsystemCalls s.trace := by
  simp only [initEventLoop, emit]
  split_ifs <;> simp [subsystemCalls, isSubsystemCall]

@[simp] theorem startPollRoutine_invoked (pf : Platform) (s : Core) :
    invoked (startPollRoutine pf s).trace = invoked s.trace := by
  simp only [startPollRoutine, emit]
  split_ifs <;> simp [invoked, List.filterMap_append]

@[simp] theorem startPollRoutine_subsystemCalls (pf : Platform) (s : Core) :
    subsystemCalls (startPollRoutine pf s).trace = subsystemCalls s.trace := by
  simp only [startPollRoutine, emit]
  split_ifs <;> simp [subsystemCalls, isSubsystemCall]

@[simp] theorem initTimers_invoked (pf : Platform) (s : Core) :
    invoked (initTimers pf s).trace = invoked s.trace := by
  simp only [initTimers, emit]
  split_ifs
  · rfl
  · show invoked ((initEventLoop pf s).trace ++ [.uvTimerInit] ++ [.uvTimerInit]) = _
    rw [invoked_append, invoked_append, initEventLoop_invoked]
    simp [invoked]

@[simp] theorem initTimers_queue (pf : Platform) (s : Core) :
    (initTimers pf s).eventLoopDispatchQueue = s.eventLoopDispatchQueue := by
  simp only [initTimers, emit]
  split_ifs
  · rfl
  · simp

@[simp] theorem startTimers_invoked (s : Core) :
    invoked (startTimers s).trace = invoked s.trace := by
  simp only [startTimers, emit]
  split_ifs <;> simp [invoked, List.filterMap_append]

@[simp] theorem startTimers_queue (s : Core) :
    (startTimers s).eventLoopDispatchQueue = s.eventLoopDispatchQueue := by
  simp only [startTimers, emit]
  split_ifs <;> rfl

/-- `dispatchEventLoop` in one step: queue, initialise, run, signal. -/
theorem dispatchEventLoop_step (pf : Platform) (callback : EventLoopDispatchCallback)
    (s : Core) :
    dispatchEventLoop pf callback s
      = (runEventLoop pf (initEventLoop pf
          { s with eventLoopDispatchQueue := s.eventLoopDispatchQueue ++ [callback] })).emit
            .uvAsyncSend := by
  rw [dispatchEventLoop_eq, signalDispatchEventLoop_eq]

theorem runEventLoop_invoked (pf : Platform) (s : Core) :
    invoked (runEventLoop pf s).trace = invoked s.trace := by
  cases hg : (s.isShuttingDown || s.isLoopRunning || s.isPaused)
  · rw [runEventLoop_unguarded pf s hg, dispatchEventLoop_guarded _ _ _ (by simp)]
    simp only [startPollRoutine_invoked, emit_trace, invoked_append, initEventLoop_invoked]
    simp [invoked]
  · rw [runEventLoop_guarded pf s hg]

theorem runEventLoop_subsystemCalls (pf : Platform) (s : Core) :
    subsystemCalls (runEventLoop pf s).trace = subsystemCalls s.trace := by
  cases hg : (s.isShuttingDown || s.isLoopRunning || s.isPaused)
  · rw [runEventLoop_unguarded pf s hg, dispatchEventLoop_guarded _ _ _ (by simp)]
    simp only [startPollRoutine_subsystemCalls, emit_trace, subsystemCalls_append,
      initEventLoop_subsystemCalls]
    simp [subsystemCalls, isSubsystemCall]
  · rw [runEventLoop_guarded pf s hg]

theorem runEventLoop_queue (pf : Platform) (s : Core) :
    (runEventLoop pf s).eventLoopDispatchQueue
      = s.eventLoopDispatchQueue
        ++ (if (s.isShuttingDown || s.isLoopRunning || s.isPaused) then []
            else [some Callable.timers]) := by
  cases hg : (s.isShuttingDown || s.isLoopRunning || s.isPaused)
  · rw [runEventLoop_unguarded pf s hg, dispatchEventLoop_guarded _ _ _ (by simp)]
    simp
  · rw [runEventLoop_guarded pf s hg]
    simp

theorem runEventLoop_guard_after (pf : Platform) (s : Core) :
    ((runEventLoop pf s).isShuttingDown || (runEventLoop pf s).isLoopRunning
      || (runEventLoop pf s).isPaused) = true := by
  cases hg : (s.isShuttingDown || s.isLoopRunning || s.isPaused)
  · rw [runEventLoop_isLoopRunning pf s hg]
    simp
  · rw [runEventLoop_guarded pf s hg]
    exact hg

theorem dispatchEventLoop_invoked (pf : Platform) (callback : EventLoopDispatchCallback)
    (s : Core) : invoked (dispatchEventLoop pf callback s).trace = invoked s.trace := by
  rw [dispatchEventLoop_step, emit_trace, invoked_append, runEventLoop_invoked,
    initEventLoop_invoked]
  simp [invoked]

theorem dispatchEventLoop_queue (pf : Platform) (callback : EventLoopDispatchCallback)
    (s : Core) :
    (dispatchEventLoop pf callback s).eventLoopDispatchQueue
      = s.eventLoopDispatchQueue ++ callback
        :: (if (s.isShuttingDown || s.isLoopRunning || s.isPaused) then []
            else [some Callable.timers]) := by
  rw [dispatchEventLoop_step, emit_queue, runEventLoop_queue]
  simp

theorem dispatchEventLoop_guard_after (pf : Platform)
    (callback : EventLoopDispatchCallback) (s : Core) :
    ((dispatchEventLoop pf callback s).isShuttingDown
      || (dispatchEventLoop pf callback s).isLoopRunning
      || (dispatchEventLoop pf callback s).isPaused) = true := by
  rw [dispatchEventLoop_step]
  simpa using runEventLoop_guard_after pf _

theorem dispatchAll_invoked (pf : Platform) (callbacks : List EventLoopDispatchCallback)
    (s : Core) : invoked (dispatchAll pf callbacks s).trace = invoked s.trace := by
  induction callbacks generalizing s with
  | nil => rfl
  | cons c rest ih =>
    show invoked (dispatchAll pf rest (dispatchEventLoop pf c s)).trace = _
    rw [ih, dispatchEventLoop_invoked]

theorem dispatchAll_queue_guarded (pf : Platform)
    (callbacks : List EventLoopDispatchCallback) (s : Core)
    (h : (s.isShuttingDown || s.isLoopRunning || s.isPaused) = true) :
    (dispatchAll pf callbacks s).eventLoopDispatchQueue
      = s.eventLoopDispatchQueue ++ callbacks := by
  induction callbacks generalizing s with
  | nil => simp [dispatchAll]
  | cons c rest ih =>
    show (dispatchAll pf rest (dispatchEventLoop pf c s)).eventLoopDispatchQueue = _
    rw [ih _ (dispatchEventLoop_guard_after pf c s), dispatchEventLoop_queue, h]
    simp

/-- The queue after a run of `dispatchEventLoop` calls: the callbacks in call
order, with the timer callable of `runEventLoop` behind the first one when
that first call had to start the loop. -/
theorem dispatchAll_queue (pf : Platform) (callbacks : List EventLoopDispatchCallback)
    (s : Core) :
    (dispatchAll pf callbacks s).eventLoopDispatchQueue
      = s.eventLoopDispatchQueue
        ++ (if (s.isShuttingDown || s.isLoopRunning || s.isPaused) then callbacks
            else
              match callbacks with
              | [] => []
              | c :: rest => c :: some Callable.timers :: rest) := by
  cases hg : (s.isShuttingDown || s.isLoopRunning || s.isPaused)
  · cases callbacks with
    | nil => simp [dispatchAll]
    | cons c rest =>
      show (dispatchAll pf rest (dispatchEventLoop pf c s)).eventLoopDispatchQueue = _
      rw [dispatchAll_queue_guarded pf rest _ (dispatchEventLoop_guard_after pf c s),
        dispatchEventLoop_queue, hg]
      simp
  · rw [dispatchAll_queue_guarded pf callbacks s hg]
    simp

/-- Invoking a callable that dispatches nothing leaves the queue alone and
adds exactly its own invocation to the record. -/
theorem invokeCallable_quiet (pf : Platform) (app : Application) (c : Callable) (s : Core)
    (hc : c = Callable.timers ∨ ∃ t, c = Callable.user t ∧ app t = []) :
    (invokeCallable pf app c s).eventLoopDispatchQueue = s.eventLoopDispatchQueue
      ∧ invoked (invokeCallable pf app c s).trace = invoked s.trace ++ [c] := by
  rcases hc with hc | ⟨t, hc, ht⟩
  · subst hc
    simp only [invokeCallable, startTimers_queue, initTimers_queue, emit_queue,
      startTimers_invoked, initTimers_invoked, emit_trace, invoked_append, true_and]
    simp [invoked]
  · subst hc
    simp only [invokeCallable, ht, List.foldl_nil, emit_queue, emit_trace, invoked_append,
      true_and]
    simp [invoked]

/-- The wake callback on a queue of callables that dispatch nothing: it
returns within one turn per callable plus one, with the queue empty and the
callables invoked in queue order. -/
theorem asyncWake_drain (pf : Platform) (app : Application) (q : List Callable) :
    ∀ s : Core, s.eventLoopDispatchQueue = q.map some →
      (∀ c ∈ q, c = Callable.timers ∨ ∃ t, c = Callable.user t ∧ app t = []) →
      ∃ s2, (∀ fuel, q.length < fuel → asyncWake pf app fuel s = some s2)
        ∧ s2.eventLoopDispatchQueue = []
        ∧ invoked s2.trace = invoked s.trace ++ q := by
  induction q with
  | nil =>
    intro s hq _
    refine ⟨s, ?_, by simpa using hq, by simp⟩
    intro fuel hf
    cases fuel with
    | zero => simp at hf
    | succ n =>
      simp only [List.map_nil] at hq
      simp [asyncWake, hq]
  | cons c rest ih =>
    intro s hq hall
    have hc := hall c (List.mem_cons_self _ _)
    have hquiet := invokeCallable_quiet pf app c
      { s with eventLoopDispatchQueue := rest.map some } hc
    obtain ⟨s2, hrun, hempty, hinv⟩ :=
      ih (invokeCallable pf app c { s with eventLoopDispatchQueue := rest.map some })
        hquiet.1 (fun d hd => hall d (List.mem_cons_of_mem _ hd))
    refine ⟨s2, ?_, hempty, ?_⟩
    · intro fuel hf
      cases fuel with
      | zero => simp at hf
      | succ n =>
        simp only [List.map_cons] at hq
        simp only [asyncWake, hq]
        exact hrun n (by simpa using hf)
    · rw [hinv, hquiet.2]
      simp

/-- The calls `pauseEventLoop` makes when it returns: `uv_stop`, then joins
and deletions of the poll thread; the running flag is cleared. -/
theorem pauseEventLoop_trace (pf : Platform) (s s1 : Core)
    (h : pauseEventLoop pf s = some s1) :
    ∃ l, s1.trace = s.trace ++ Event.uvStop :: l
      ∧ (∀ e ∈ l, e = Event.threadJoin ∨ e = Event.threadDelete)
      ∧ s1.isLoopRunning = false := by
  unfold pauseEventLoop at h
  split_ifs at h
  all_goals cases h
  split_ifs
  · obtain ⟨l, hl, hmem⟩ :=
      joinEventLoopThread_trace ({ s with isLoopRunning := false }.emit .uvStop)
    refine ⟨l, ?_, hmem, by simp⟩
    rw [hl]
    simp
  · exact ⟨[], by simp, by simp, by simp⟩

end Core

/-! ## Dispatcher and lifecycle order: claims -/

/-- C5: let user callables `f1..fn`, none of which dispatches, be passed to
`dispatchEventLoop` in this order on a `Core` whose dispatch queue is empty.
The wake callback then returns (within one turn per queued callable plus
one), leaves the queue empty, and has invoked each callable passed to
`dispatchEventLoop` once, in the order of the calls: `f1..fn`, and, when the
first call had to start the loop, the timer callable that `runEventLoop`
itself passes to `dispatchEventLoop` during that call, right behind `f1`. -/
theorem asyncWake_runs_dispatched_in_order (pf : Platform) (app : Application)
    (s : Core) (fs : List Nat) (hq : s.eventLoopDispatchQueue = [])
    (hfs : ∀ t ∈ fs, app t = []) :
    ∃ s2,
      (∀ fuel,
          (Core.dispatchAll pf (fs.map (fun t => some (Callable.user t)))
            s).eventLoopDispatchQueue.length < fuel →
          Core.asyncWake pf app fuel
            (Core.dispatchAll pf (fs.map (fun t => some (Callable.user t))) s) = some s2)
      ∧ s2.eventLoopDispatchQueue = []
      ∧ Core.invoked s2.trace
        = Core.invoked (Core.dispatchAll pf (fs.map (fun t => some (Callable.user t))) s).trace
          ++ (if (s.isShuttingDown || s.isLoopRunning || s.isPaused) then
                fs.map Callable.user
              else
                match fs with
                | [] => []
                | f :: rest => Callable.user f :: Callable.timers :: rest.map Callable.user) := by
  have hqueue := Core.dispatchAll_queue pf (fs.map (fun t => some (Callable.user t))) s
  rw [hq, List.nil_append] at hqueue
  have hall : ∀ c ∈ fs.map Callable.user,
      c = Callable.timers ∨ ∃ t, c = Callable.user t ∧ app t = [] := by
    intro c hc
    obtain ⟨t, ht, rfl⟩ := List.mem_map.mp hc
    exact Or.inr ⟨t, rfl, hfs t ht⟩
  cases hg : (s.isShuttingDown || s.isLoopRunning || s.isPaused)
  · cases fs with
    | nil =>
      simp only [hg, Bool.false_eq_true, if_false, List.map_nil] at hqueue ⊢
      obtain ⟨s2, h1, h2, h3⟩ := Core.asyncWake_drain pf app [] _ (by simpa using hqueue)
        (by simp)
      exact ⟨s2, fun fuel hf => h1 fuel (by simpa [hqueue] using hf), h2, by simpa using h3⟩
    | cons f rest =>
      simp only [hg, Bool.false_eq_true, if_false, List.map_cons] at hqueue ⊢
      obtain ⟨s2, h1, h2, h3⟩ := Core.asyncWake_drain pf app
        (Callable.user f :: Callable.timers :: rest.map Callable.user) _
        (by simpa using hqueue)
        (by
          intro c hc
          rcases List.mem_cons.mp hc with hc | hc
          · exact hall c (by simp [hc])
          · rcases List.mem_cons.mp hc with hc | hc
            · exact Or.inl hc
            · exact hall c (by simp [hc]))
      exact ⟨s2, fun fuel hf => h1 fuel (by simpa [hqueue] using hf), h2, h3⟩
  · simp only [hg, if_true] at hqueue ⊢
    obtain ⟨s2, h1, h2, h3⟩ := Core.asyncWake_drain pf app (fs.map Callable.user) _
      (by simpa using hqueue) hall
    exact ⟨s2, fun fuel hf => h1 fuel (by simpa [hqueue] using hf), h2, h3⟩

/-- An instance of C5: three callables passed to a fresh `Core` on Linux. -/
theorem asyncWake_runs_dispatched_in_order_witness :
    ∃ s2,
      (∀ fuel,
          (Core.dispatchAll Platform.linuxDesktop
            ([1, 2, 3].map (fun t => some (Callable.user t)))
            Core.fresh).eventLoopDispatchQueue.length < fuel →
          Core.asyncWake Platform.linuxDesktop (fun _ => []) fuel
            (Core.dispatchAll Platform.linuxDesktop
              ([1, 2, 3].map (fun t => some (Callable.user t))) Core.fresh) = some s2)
      ∧ s2.eventLoopDispatchQueue = []
      ∧ Core.invoked s2.trace
        = Core.invoked (Core.dispatchAll Platform.linuxDesktop
            ([1, 2, 3].map (fun t => some (Callable.user t))) Core.fresh).trace
          ++ (if (Core.fresh.isShuttingDown || Core.fresh.isLoopRunning
                || Core.fresh.isPaused) then
                [1, 2, 3].map Callable.user
              else
                match [1, 2, 3] with
                | [] => []
                | f :: rest => Callable.user f :: Callable.timers :: rest.map Callable.user) :=
  asyncWake_runs_dispatched_in_order Platform.linuxDesktop (fun _ => []) Core.fresh
    [1, 2, 3] rfl (fun _ _ => rfl)

/-- C6 as stated fails: on a fresh `Core` on Linux callable 1 is dispatched
and, when invoked, dispatches callable 2; one run of the wake callback
invokes callable 1, the timer callable and callable 2, and leaves the queue
empty. -/
theorem reentrant_dispatch_runs_in_same_wake :
    (Core.asyncWake Platform.linuxDesktop
        (fun t => if t = 1 then [some (Callable.user 2)] else []) 10
        (Core.dispatchEventLoop Platform.linuxDesktop (some (Callable.user 1))
          Core.fresh)).map
      (fun s => (Core.invoked s.trace, s.eventLoopDispatchQueue))
      = some ([Callable.user 1, Callable.timers, Callable.user 2], []) := by
  decide

/-- C6 (amended): when the callable `f` at the head of the queue passes `g` to
`dispatchEventLoop` while the wake callback runs it, `g` is queued behind the
callables already waiting and is invoked during that same run of the wake
callback, after them (and before the timer callable that the dispatch queues
when it has to start the loop); the run leaves the queue empty. -/
theorem asyncWake_runs_reentrant_dispatch (pf : Platform) (app : Application)
    (s : Core) (f g : Nat) (rest : List Nat)
    (hq : s.eventLoopDispatchQueue
      = some (Callable.user f) :: rest.map (fun t => some (Callable.user t)))
    (hf : app f = [some (Callable.user g)]) (hg : app g = [])
    (hrest : ∀ t ∈ rest, app t = []) :
    ∃ s2,
      (∀ fuel, rest.length + 3 < fuel → Core.asyncWake pf app fuel s = some s2)
      ∧ s2.eventLoopDispatchQueue = []
      ∧ Core.invoked s2.trace
        = Core.invoked s.trace ++ Callable.user f
          :: (rest.map Callable.user ++ Callable.user g
            :: (if (s.isShuttingDown || s.isLoopRunning || s.isPaused) then []
                else [Callable.timers])) := by
  have hstep : Core.invokeCallable pf app (Callable.user f)
      { s with eventLoopDispatchQueue := rest.map (fun t => some (Callable.user t)) }
      = Core.dispatchEventLoop pf (some (Callable.user g))
          ({ s with
            eventLoopDispatchQueue := rest.map (fun t => some (Callable.user t)) }.emit
              (.invoke (Callable.user f))) := by
    simp [Core.invokeCallable, hf]
  have main : ∀ extra : List Callable, (∀ c ∈ extra, c = Callable.timers) →
      extra.length ≤ 1 →
      (Core.dispatchEventLoop pf (some (Callable.user g))
          ({ s with
            eventLoopDispatchQueue := rest.map (fun t => some (Callable.user t)) }.emit
              (.invoke (Callable.user f)))).eventLoopDispatchQueue
        = (rest.map Callable.user ++ Callable.user g :: extra).map some →
      ∃ s2,
        (∀ fuel, rest.length + 3 < fuel → Core.asyncWake pf app fuel s = some s2)
        ∧ s2.eventLoopDispatchQueue = []
        ∧ Core.invoked s2.trace
          = Core.invoked s.trace ++ Callable.user f
            :: (rest.map Callable.user ++ Callable.user g :: extra) := by
    intro extra hextra hlen hqueue
    obtain ⟨s2, h1, h2, h3⟩ := Core.asyncWake_drain pf app
      (rest.map Callable.user ++ Callable.user g :: extra)
      (Core.invokeCallable pf app (Callable.user f)
        { s with eventLoopDispatchQueue := rest.map (fun t => some (Callable.user t)) })
      (by rw [hstep]; exact hqueue)
      (by
        intro c hc
        rcases List.mem_append.mp hc with hc | hc
        · obtain ⟨t, ht, rfl⟩ := List.mem_map.mp hc
          exact Or.inr ⟨t, rfl, hrest t ht⟩
        · rcases List.mem_cons.mp hc with hc | hc
          · exact Or.inr ⟨g, hc, hg⟩
          · exact Or.inl (hextra c hc))
    refine ⟨s2, ?_, h2, ?_⟩
    · intro fuel hfuel
      cases fuel with
      | zero => simp at hfuel
      | succ n =>
        simp only [Core.asyncWake, hq]
        apply h1 n
        simp only [List.length_append, List.length_map, List.length_cons]
        omega
    · rw [h3, hstep, Core.dispatchEventLoop_invoked]
      simp [Core.invoked_append, Core.invoked]
  cases hgd : (s.isShuttingDown || s.isLoopRunning || s.isPaused)
  · simp only [Bool.false_eq_true, if_false]
    apply main [Callable.timers] (by simp) (by simp)
    rw [Core.dispatchEventLoop_queue]
    simp [Core.emit, hgd]
  · simp only [if_true]
    apply main [] (by simp) (by simp)
    rw [Core.dispatchEventLoop_queue]
    simp [Core.emit, hgd]

/-- An instance of C6 (amended): the loop is running, callables 1, 5 and 6
wait, and callable 1 dispatches callable 2. -/
theorem asyncWake_runs_reentrant_dispatch_witness :
    ∃ s2,
      (∀ fuel, [5, 6].length + 3 < fuel →
          Core.asyncWake Platform.linuxDesktop
            (fun t => if t = 1 then [some (Callable.user 2)] else []) fuel
            { Core.fresh with
              isLoopRunning := true
              eventLoopDispatchQueue :=
                some (Callable.user 1) :: [5, 6].map (fun t => some (Callable.user t)) }
            = some s2)
      ∧ s2.eventLoopDispatchQueue = []
      ∧ Core.invoked s2.trace
        = Core.invoked
            ({ Core.fresh with
              isLoopRunning := true
              eventLoopDispatchQueue :=
                some (Callable.user 1)
                  :: [5, 6].map (fun t => some (Callable.user t)) } : Core).trace
          ++ Callable.user 1
            :: ([5, 6].map Callable.user ++ Callable.user 2
              :: (if (({ Core.fresh with
                        isLoopRunning := true
                        eventLoopDispatchQueue :=
                          some (Callable.user 1)
                            :: [5, 6].map (fun t => some (Callable.user t)) } :
                        Core).isShuttingDown
                    || ({ Core.fresh with
                        isLoopRunning := true
                        eventLoopDispatchQueue :=
                          some (Callable.user 1)
                            :: [5, 6].map (fun t => some (Callable.user t)) } :
                        Core).isLoopRunning
                    || ({ Core.fresh with
                        isLoopRunning := true
                        eventLoopDispatchQueue :=
                          some (Callable.user 1)
                            :: [5, 6].map (fun t => some (Callable.user t)) } :
                        Core).isPaused) then []
                  else [Callable.timers])) :=
  asyncWake_runs_reentrant_dispatch Platform.linuxDesktop
    (fun t => if t = 1 then [some (Callable.user 2)] else [])
    { Core.fresh with
      isLoopRunning := true
      eventLoopDispatchQueue :=
        some (Callable.user 1) :: [5, 6].map (fun t => some (Callable.user t)) }
    1 2 [5, 6] rfl rfl rfl (by decide)

/-- C10 as stated fails: on Linux, with every feature enabled, `resume()` of
a paused `Core` restarts UDP, network status, conduit and notifications in
this order, not in the reverse one; and on Android `pause()` of a running
`Core` makes the four stops, no call to `uv_stop`, and leaves `isLoopRunning`
set. -/
theorem resume_order_not_reversed :
    Core.subsystemCalls
        (Core.resume Platform.linuxDesktop { Core.fresh with isPaused := true }).trace
      = [.udpResumeAllSockets, .networkStatusStart, .conduitStart, .notificationsStart]
    ∧ Core.pause Platform.androidDevice { Core.fresh with isLoopRunning := true }
      = some
          { Core.fresh with
            isLoopRunning := true
            isPaused := true
            trace := [.udpPauseAllSockets, .networkStatusStop, .conduitStop,
              .notificationsStop] } := by
  decide

/-- C10 (amended): with every feature enabled, a `pause()` of a `Core` that is
not paused calls, in this order, the stops of UDP receive, network-status
polling, the conduit server and notifications and then, except on Android,
pauses the event loop (`uv_stop`, the poll thread joined and deleted where
one is owned; `isLoopRunning` cleared); on Android it makes the four stops
only.  A `resume()` of a paused `Core` first runs `runEventLoop` and then
restarts the subsystems in the same order as `pause()` stopped them: UDP,
network status, conduit, notifications. -/
theorem pause_resume_order (pf : Platform) (s : Core)
    (hf : s.options.features
      = { useUDP := true, useNetworkStatus := true, useConduit := true,
          useNotifications := true }) :
    (s.isPaused = false → ∀ s1, Core.pause pf s = some s1 →
        (pf.android = true →
          s1.trace = s.trace ++ [.udpPauseAllSockets, .networkStatusStop, .conduitStop,
            .notificationsStop])
        ∧ (pf.android = false →
          ∃ l, s1.trace = s.trace ++ [.udpPauseAllSockets, .networkStatusStop,
              .conduitStop, .notificationsStop, .uvStop] ++ l
            ∧ (∀ e ∈ l, e = Event.threadJoin ∨ e = Event.threadDelete)
            ∧ s1.isLoopRunning = false))
      ∧ (s.isPaused = true →
        (Core.resume pf s).trace
          = (Core.runEventLoop pf { s with isPaused := false }).trace
            ++ [.udpResumeAllSockets, .networkStatusStart, .conduitStart,
              .notificationsStart]
        ∧ Core.subsystemCalls (Core.resume pf s).trace
          = Core.subsystemCalls s.trace
            ++ [.udpResumeAllSockets, .networkStatusStart, .conduitStart,
              .notificationsStart]) := by
  constructor
  · intro hp s1 h
    rw [Core.pause_of_not_paused pf s hp] at h
    simp only [hf] at h
    constructor
    · intro ha
      simp only [ha, if_true, Option.some.injEq] at h
      subst h
      simp [Core.emit]
    · intro ha
      simp only [ha, Bool.false_eq_true, if_false] at h
      obtain ⟨l, hl, hmem, hrun⟩ := Core.pauseEventLoop_trace pf _ _ h
      refine ⟨l, ?_, hmem, hrun⟩
      rw [hl]
      simp
  · intro hp
    have htrace : (Core.resume pf s).trace
        = (Core.runEventLoop pf { s with isPaused := false }).trace
          ++ [.udpResumeAllSockets, .networkStatusStart, .conduitStart,
            .notificationsStart] := by
      rw [Core.resume_of_paused pf s hp]
      simp [hf]
    refine ⟨htrace, ?_⟩
    rw [htrace, Core.subsystemCalls_append, Core.runEventLoop_subsystemCalls]
    simp [Core.subsystemCalls, Core.isSubsystemCall]

/-- An instance of C10 (amended) on macOS: a running `Core` is paused, and a
paused one is resumed. -/
theorem pause_resume_order_witness :
    (∀ s1, Core.pause Platform.macOS { Core.fresh with isLoopRunning := true } = some s1 →
        ∃ l, s1.trace
            = ({ Core.fresh with isLoopRunning := true } : Core).trace
              ++ [.udpPauseAllSockets, .networkStatusStop, .conduitStop,
                .notificationsStop, .uvStop] ++ l
          ∧ (∀ e ∈ l, e = Event.threadJoin ∨ e = Event.threadDelete)
          ∧ s1.isLoopRunning = false)
      ∧ Core.pause Platform.macOS { Core.fresh with isLoopRunning := true }
        = some
            { Core.fresh with
              isPaused := true
              trace := [.udpPauseAllSockets, .networkStatusStop, .conduitStop,
                .notificationsStop, .uvStop] }
      ∧ Core.subsystemCalls
          (Core.resume Platform.macOS { Core.fresh with isPaused := true }).trace
        = Core.subsystemCalls ({ Core.fresh with isPaused := true } : Core).trace
          ++ [.udpResumeAllSockets, .networkStatusStart, .conduitStart,
            .notificationsStart] :=
  ⟨fun s1 h =>
      ((pause_resume_order Platform.macOS { Core.fresh with isLoopRunning := true } rfl).1
        rfl s1 h).2 rfl,
    by decide,
    ((pause_resume_order Platform.macOS { Core.fresh with isPaused := true } rfl).2 rfl).2⟩

end SSC

/-! ## Pause and resume, shutdown, sleeping: lemmas and claims -/

namespace SSC

namespace Core

@[simp] theorem joinEventLoopThread_isShuttingDown (s : Core) :
    (joinEventLoopThread s).isShuttingDown = s.isShuttingDown := by
  simp only [joinEventLoopThread, emit]
  split_ifs <;> rfl

@[simp] theorem joinEventLoopThread_subsystemCalls (s : Core) :
    subsystemCalls (joinEventLoopThread s).trace = subsystemCalls s.trace := by
  simp only [joinEventLoopThread, emit]
  split_ifs <;> simp [subsystemCalls, isSubsystemCall]

/-- What a returning `pauseEventLoop` leaves behind: the running flag cleared,
the other lifecycle flags and the options as they were, no subsystem call. -/
theorem pauseEventLoop_frame (pf : Platform) (s s1 : Core)
    (h : pauseEventLoop pf s = some s1) :
    s1.isLoopRunning = false ∧ s1.isPaused = s.isPaused
      ∧ s1.isShuttingDown = s.isShuttingDown ∧ s1.options = s.options
      ∧ subsystemCalls s1.trace = subsystemCalls s.trace := by
  unfold pauseEventLoop at h
  split_ifs at h
  all_goals
    cases h
    split_ifs
    · refine ⟨by simp, by simp, by simp, by simp, ?_⟩
      rw [joinEventLoopThread_subsystemCalls, emit_trace, subsystemCalls_append]
      simp [subsystemCalls, isSubsystemCall]
    · refine ⟨by simp, by simp, by simp, by simp, ?_⟩
      rw [emit_trace, subsystemCalls_append]
      simp [subsystemCalls, isSubsystemCall]

theorem runEventLoop_isShuttingDown (pf : Platform) (s : Core) :
    (runEventLoop pf s).isShuttingDown = s.isShuttingDown := by
  cases hg : (s.isShuttingDown || s.isLoopRunning || s.isPaused)
  · rw [runEventLoop_unguarded pf s hg, dispatchEventLoop_guarded _ _ _ (by simp)]
    simp
  · rw [runEventLoop_guarded pf s hg]

/-- After `runEventLoop` on a `Core` that is neither paused nor shutting down
the loop is marked running, whether it was before or not. -/
theorem runEventLoop_running (pf : Platform) (s : Core) (hp : s.isPaused = false)
    (hs : s.isShuttingDown = false) : (runEventLoop pf s).isLoopRunning = true := by
  cases hr : s.isLoopRunning
  · exact runEventLoop_isLoopRunning pf s (by simp [hp, hs, hr])
  · rw [runEventLoop_guarded pf s (by simp [hr])]
    exact hr

end Core

/-- C11: let `pause()` be called on a `Core` that is not paused and not
shutting down (a running one in particular), and let it return `s1`.  After `resume()` on `s1` the
lifecycle flags are `isLoopRunning` true, `isPaused` false, `isShuttingDown`
false, and the subsystem calls made by the two are the stops of the enabled
subsystems followed by the starts of the same subsystems.  `pause()` does
return on Linux, on Android and whenever the dispatch queue is empty. -/
theorem pause_then_resume_restores (pf : Platform) (s : Core)
    (hp : s.isPaused = false) (hs : s.isShuttingDown = false) :
    (∀ s1, Core.pause pf s = some s1 →
        (Core.resume pf s1).isLoopRunning = true
        ∧ (Core.resume pf s1).isPaused = false
        ∧ (Core.resume pf s1).isShuttingDown = false
        ∧ Core.subsystemCalls (Core.resume pf s1).trace
          = Core.subsystemCalls s.trace
            ++ ((if s.options.features.useUDP then [Event.udpPauseAllSockets] else [])
              ++ (if s.options.features.useNetworkStatus then [Event.networkStatusStop]
                  else [])
              ++ (if s.options.features.useConduit then [Event.conduitStop] else [])
              ++ (if s.options.features.useNotifications then [Event.notificationsStop]
                  else []))
            ++ ((if s.options.features.useUDP then [Event.udpResumeAllSockets] else [])
              ++ (if s.options.features.useNetworkStatus then [Event.networkStatusStart]
                  else [])
              ++ (if s.options.features.useConduit then [Event.conduitStart] else [])
              ++ (if s.options.features.useNotifications then [Event.notificationsStart]
                  else [])))
      ∧ ((pf.linux = true ∨ pf.android = true ∨ s.eventLoopDispatchQueue = []) →
          ∃ s1, Core.pause pf s = some s1) := by
  constructor
  · intro s1 h
    have hpaused := Core.pause_isPaused pf s s1 h
    rw [Core.pause_of_not_paused pf s hp] at h
    have hframe : s1.isShuttingDown = false ∧ s1.options = s.options
        ∧ Core.subsystemCalls s1.trace
          = Core.subsystemCalls s.trace
            ++ ((if s.options.features.useUDP then [Event.udpPauseAllSockets] else [])
              ++ (if s.options.features.useNetworkStatus then [Event.networkStatusStop]
                  else [])
              ++ (if s.options.features.useConduit then [Event.conduitStop] else [])
              ++ (if s.options.features.useNotifications then [Event.notificationsStop]
                  else [])) := by
      cases ha : pf.android
      · simp only [ha, Bool.false_eq_true, if_false] at h
        obtain ⟨_, _, h3, h4, h5⟩ := Core.pauseEventLoop_frame pf _ _ h
        refine ⟨by simpa [hs] using h3, by simpa using h4, ?_⟩
        rw [h5]
        cases s.options.features.useUDP <;> cases s.options.features.useNetworkStatus
          <;> cases s.options.features.useConduit
          <;> cases s.options.features.useNotifications
          <;> simp [Core.subsystemCalls_append, Core.subsystemCalls, Core.isSubsystemCall]
      · simp only [ha, if_true, Option.some.injEq] at h
        subst h
        refine ⟨by simpa using hs, by simp, ?_⟩
        cases s.options.features.useUDP <;> cases s.options.features.useNetworkStatus
          <;> cases s.options.features.useConduit
          <;> cases s.options.features.useNotifications
          <;> simp [Core.subsystemCalls_append, Core.subsystemCalls, Core.isSubsystemCall]
    obtain ⟨hsd, hopt, hcalls⟩ := hframe
    rw [Core.resume_of_paused pf s1 hpaused]
    refine ⟨?_, ?_, ?_, ?_⟩
    · simpa using Core.runEventLoop_running pf { s1 with isPaused := false } rfl hsd
    · simpa using Core.runEventLoop_isPaused pf { s1 with isPaused := false } rfl
    · simpa [Core.runEventLoop_isShuttingDown] using hsd
    · simp only [Core.emitIf_trace, Core.subsystemCalls_append,
        Core.runEventLoop_subsystemCalls, hopt]
      rw [hcalls]
      cases s.options.features.useUDP <;> cases s.options.features.useNetworkStatus
        <;> cases s.options.features.useConduit
        <;> cases s.options.features.useNotifications
        <;> simp [Core.subsystemCalls, Core.isSubsystemCall]
  · intro h
    rw [Core.pause_of_not_paused pf s hp]
    cases ha : pf.android
    · simp only [Bool.false_eq_true, if_false]
      apply Core.pauseEventLoop_returns
      rcases h with h | h | h
      · exact Or.inl h
      · simp [ha] at h
      · exact Or.inr (by simpa using h)
    · simp

/-- An instance of C11 on macOS with every feature enabled: a running `Core`
is paused and resumed. -/
theorem pause_then_resume_restores_witness :
    Core.pause Platform.macOS { Core.fresh with isLoopRunning := true }
        = some
            { Core.fresh with
              isPaused := true
              trace := [.udpPauseAllSockets, .networkStatusStop, .conduitStop,
                .notificationsStop, .uvStop] }
      ∧ (Core.resume Platform.macOS
          { Core.fresh with
            isPaused := true
            trace := [.udpPauseAllSockets, .networkStatusStop, .conduitStop,
              .notificationsStop, .uvStop] }).isLoopRunning = true
      ∧ (Core.resume Platform.macOS
          { Core.fresh with
            isPaused := true
            trace := [.udpPauseAllSockets, .networkStatusStop, .conduitStop,
              .notificationsStop, .uvStop] }).isPaused = false
      ∧ (Core.resume Platform.macOS
          { Core.fresh with
            isPaused := true
            trace := [.udpPauseAllSockets, .networkStatusStop, .conduitStop,
              .notificationsStop, .uvStop] }).isShuttingDown = false :=
  ⟨by decide,
    ((pause_then_resume_restores Platform.macOS { Core.fresh with isLoopRunning := true }
      rfl rfl).1 _ (by decide)).1,
    ((pause_then_resume_restores Platform.macOS { Core.fresh with isLoopRunning := true }
      rfl rfl).1 _ (by decide)).2.1,
    ((pause_then_resume_restores Platform.macOS { Core.fresh with isLoopRunning := true }
      rfl rfl).1 _ (by decide)).2.2.1⟩

/-- C12 as stated fails: `shutdown()` on a paused `Core` on Linux returns the
`Core` as it was; no child-process teardown and no call that stops the loop
is recorded. -/
theorem shutdown_while_paused_does_nothing :
    Core.shutdown Platform.linuxDesktop { Core.fresh with isPaused := true }
      = some { Core.fresh with isPaused := true } := by
  decide

/-- C12 (amended): `shutdown()` called while the `Core` is paused returns at
its first test and changes nothing.  It performs the shutdown only from a
state that is neither paused nor shutting down: it sets `isShuttingDown`,
calls `pause()`, tears down the child-process supervisor (not on iOS), calls
`stopEventLoop()` and clears `isShuttingDown`. -/
theorem shutdown_only_when_not_paused (pf : Platform) (s : Core) :
    (s.isPaused = true → Core.shutdown pf s = some s)
      ∧ (s.isPaused = false → s.isShuttingDown = false →
          ∀ s1, Core.pause pf { s with isShuttingDown := true } = some s1 →
            Core.shutdown pf s
              = some
                  { Core.stopEventLoop pf (s1.emitIf (!pf.ios) .childProcessShutdown) with
                    isShuttingDown := false }) := by
  constructor
  · intro hp
    simp [Core.shutdown, hp]
  · intro hp hs s1 h
    have hg : (s.isShuttingDown || s.isPaused) = false := by simp [hp, hs]
    unfold Core.shutdown
    simp only [hg, Bool.false_eq_true, if_false, h]

/-- Instances of C12 (amended): a paused `Core` on Linux is left alone, and a
`Core` that is not running is shut down on Linux with the teardown and the
loop closed. -/
theorem shutdown_only_when_not_paused_witness :
    Core.shutdown Platform.linuxDesktop { Core.fresh with isPaused := true }
        = some { Core.fresh with isPaused := true }
      ∧ Core.shutdown Platform.linuxDesktop Core.fresh
        = some
            { Core.fresh with
              isPaused := true
              trace := [.udpPauseAllSockets, .networkStatusStop, .conduitStop,
                .notificationsStop, .uvStop, .childProcessShutdown, .uvStop,
                .uvLoopClose] } :=
  ⟨(shutdown_only_when_not_paused Platform.linuxDesktop
      { Core.fresh with isPaused := true }).1 rfl,
    ((shutdown_only_when_not_paused Platform.linuxDesktop Core.fresh).2 rfl rfl
      { Core.fresh with
        isPaused := true
        isShuttingDown := true
        trace := [.udpPauseAllSockets, .networkStatusStop, .conduitStop,
          .notificationsStop, .uvStop] } (by decide)).trans (by decide)⟩

/-- C13 as stated fails: asked for 32 ms while the loop reports a backend
timeout of 1000 ms, `sleepEventLoop` sleeps 1000 ms, which is more than
`min 1000 32`. -/
theorem sleepEventLoop_exceeds_min :
    (Core.sleepEventLoop Platform.linuxDesktop 1000 32 Core.fresh).trace
      = [.uvLoopInit, .uvAsyncInit, .gsourceAttach, .uvUpdateTime, .msleep 1000]
    ∧ ¬ ((1000 : Int) ≤ min 1000 32) := by
  decide

/-- C13 (amended): for every requested duration `ms > 0` and every backend
timeout `t` reported by the loop, `sleepEventLoop(ms)` makes one call to
`msleep`, for the larger of `t` and `ms` milliseconds: never less than `ms`,
and less than or equal to `min t ms` only when `t = ms`. -/
theorem sleepEventLoop_sleeps_max (pf : Platform) (t ms : Int) (s : Core) (hms : 0 < ms) :
    (Core.sleepEventLoop pf t ms s).trace
        = (Core.initEventLoop pf s).trace ++ [.uvUpdateTime, .msleep (max t ms)]
      ∧ ms ≤ max t ms
      ∧ (max t ms ≤ min t ms → t = ms) := by
  refine ⟨?_, le_max_right t ms, ?_⟩
  · have hmax : (if t > ms then t else ms) = max t ms := by
      by_cases h : t > ms
      · simp [h, max_eq_left (le_of_lt h)]
      · simp [h, max_eq_right (not_lt.mp h)]
    simp [Core.sleepEventLoop, Core.getEventLoopTimeout, hms, hmax]
  · intro h
    have h1 : t ≤ max t ms := le_max_left t ms
    have h2 : ms ≤ max t ms := le_max_right t ms
    have h3 : min t ms ≤ t := min_le_left t ms
    have h4 : min t ms ≤ ms := min_le_right t ms
    omega

/-- An instance of C13 (amended): 32 ms requested, backend timeout 5 ms, on a
`Core` whose loop is initialised. -/
theorem sleepEventLoop_sleeps_max_witness :
    (Core.sleepEventLoop Platform.linuxDesktop 5 32
        { Core.fresh with didLoopInit := true }).trace
        = (Core.initEventLoop Platform.linuxDesktop
            { Core.fresh with didLoopInit := true }).trace
          ++ [.uvUpdateTime, .msleep (max 5 32)]
      ∧ (32 : Int) ≤ max 5 32
      ∧ (max (5 : Int) 32 ≤ min 5 32 → (5 : Int) = 32) :=
  sleepEventLoop_sleeps_max Platform.linuxDesktop 5 32
    { Core.fresh with didLoopInit := true } (by decide)

end SSC

/-! ## Housekeeping timers: lemmas and claims -/

namespace SSC

namespace StdMap

theorem find_erase_ne {V : Type} (m : StdMap V) (id j : Nat) (h : j ≠ id) :
    find (erase m id) j = find m j := by
  induction m with
  | nil => simp [erase, find]
  | cons e rest ih =>
    obtain ⟨k, w⟩ := e
    have ih' : find (erase rest id) j = find rest j := ih
    by_cases hk : k = id
    · subst hk
      have hkj : ¬ k = j := fun e => h e.symm
      simpa [erase, List.filter_cons, find, hkj] using ih'
    · by_cases hj : k = j
      · subst hj
        simp [erase, List.filter_cons, hk, find]
      · simp only [erase, List.filter_cons, find, hj, if_false] at ih' ⊢
        simpa [hk, find, hj] using ih'

theorem find_eq_none_of_not_mem {V : Type} (m : StdMap V) (id : Nat)
    (h : id ∉ m.map Prod.fst) : find m id = none := by
  induction m with
  | nil => rfl
  | cons e rest ih =>
    obtain ⟨k, w⟩ := e
    simp only [List.map_cons, List.mem_cons, not_or] at h
    have hk : ¬ k = id := fun e => h.1 e.symm
    simp only [find, hk, if_false]
    exact ih h.2

theorem find_of_mem_nodup {V : Type} (m : StdMap V) (id : Nat) (v : V)
    (hnd : (m.map Prod.fst).Nodup) (h : (id, v) ∈ m) : find m id = some v := by
  induction m with
  | nil => simp at h
  | cons e rest ih =>
    obtain ⟨k, w⟩ := e
    simp only [List.map_cons, List.nodup_cons] at hnd
    rcases List.mem_cons.mp h with h1 | h1
    · cases h1
      simp [find]
    · have hmem : id ∈ rest.map Prod.fst := List.mem_map.mpr ⟨(id, v), h1, rfl⟩
      have hk : ¬ k = id := fun e => hnd.1 (e ▸ hmem)
      simp only [find, hk, if_false]
      exact ih hnd.2 h1

end StdMap

namespace Core

theorem popReleasedBack_concat (init : List SharedPointerBuffer) (a : SharedPointerBuffer) :
    popReleasedBack (init ++ [a])
      = if a.pointer.isNone then popReleasedBack init else init ++ [a] := by
  simp only [popReleasedBack, List.reverse_append, List.reverse_cons, List.reverse_nil,
    List.nil_append, List.singleton_append, List.dropWhile_cons]
  split_ifs <;> simp

theorem popReleasedBack_cons (a : SharedPointerBuffer) (l : List SharedPointerBuffer) :
    popReleasedBack (a :: l)
      = if popReleasedBack l = [] then (if a.pointer.isNone then [] else [a])
        else a :: popReleasedBack l := by
  induction l using List.reverseRecOn with
  | nil =>
    have := popReleasedBack_concat [] a
    simp only [List.nil_append] at this
    rw [this]
    simp [popReleasedBack]
  | append_singleton init b ih =>
    have h1 := popReleasedBack_concat (a :: init) b
    simp only [List.cons_append] at h1
    rw [h1, popReleasedBack_concat init b]
    by_cases hb : b.pointer.isNone = true
    · simp only [hb, if_true]
      exact ih
    · simp [hb]

/-- The two loops of the shared-buffer sweeper together: every entry is
stepped, then released entries are popped from the back. -/
theorem popReleasedBack_sweep (l : List SharedPointerBuffer) :
    popReleasedBack (sweepSharedPointerBuffers l)
      = popReleasedBack
          (l.map (fun entry =>
            if entry.ttl ≤ 8 then ({ pointer := none, ttl := 0 } : SharedPointerBuffer)
            else { entry with ttl := entry.ttl - 8 })) := by
  induction l with
  | nil => rfl
  | cons e rest ih =>
    by_cases he : e.ttl ≤ 8
    · cases rest with
      | nil =>
        simp only [sweepSharedPointerBuffers, he, if_true, List.map_cons, List.map_nil]
        rw [popReleasedBack_cons]
        simp [popReleasedBack]
      | cons r rest' =>
        simp only [sweepSharedPointerBuffers, he, if_true] at ih ⊢
        rw [popReleasedBack_cons, List.map_cons, popReleasedBack_cons, ← ih]
        simp [he]
    · simp only [sweepSharedPointerBuffers, he, if_false, List.map_cons]
      rw [popReleasedBack_cons, popReleasedBack_cons, ih]

theorem filter_popReleasedBack (l : List SharedPointerBuffer) :
    (popReleasedBack l).filter (fun entry => entry.pointer.isSome)
      = l.filter (fun entry => entry.pointer.isSome) := by
  induction l using List.reverseRecOn with
  | nil => rfl
  | append_singleton init a ih =>
    rw [popReleasedBack_concat]
    by_cases ha : a.pointer.isNone = true
    · have : a.pointer.isSome = false := by
        cases hp : a.pointer <;> simp_all
      simp [ha, ih, List.filter_append, this]
    · simp [ha]

end Core

/-- C14 as stated fails: a ledger with an entry of ttl 5 in front of an entry
of ttl 100 keeps, after one sweep, a released entry with ttl 0 in front of
the live one. -/
theorem sweep_keeps_released_entry :
    (Core.releaseStrongReferenceSharedPointerBuffers
        { Core.fresh with
          sharedPointerBuffers :=
            [{ pointer := some 1, ttl := 5 }, { pointer := some 2, ttl := 100 }] }
      ).sharedPointerBuffers
      = [{ pointer := none, ttl := 0 }, { pointer := some 2, ttl := 92 }] := by
  decide

/-- C14 (amended): one run of the shared-buffer sweeper steps every entry in
place (an entry whose ttl is at most 8 is released: pointer null, ttl 0; any
other entry keeps its buffer and has its ttl reduced by exactly 8) and then
pops released entries from the back only.  The entries that still hold a
buffer afterwards are exactly the buffer-holding entries whose ttl was
greater than 8, in their original order, each with its ttl reduced by 8; a
released entry in front of such an entry stays in the ledger with ttl 0. -/
theorem sweep_steps_entries_in_place (s : Core) :
    (Core.releaseStrongReferenceSharedPointerBuffers s).sharedPointerBuffers
        = Core.popReleasedBack
            (s.sharedPointerBuffers.map (fun entry =>
              if entry.ttl ≤ 8 then ({ pointer := none, ttl := 0 } : SharedPointerBuffer)
              else { entry with ttl := entry.ttl - 8 }))
      ∧ (Core.releaseStrongReferenceSharedPointerBuffers s).sharedPointerBuffers.filter
          (fun entry => entry.pointer.isSome)
        = (s.sharedPointerBuffers.filter
            (fun entry => decide (8 < entry.ttl) && entry.pointer.isSome)).map
            (fun entry => { entry with ttl := entry.ttl - 8 }) := by
  have h1 : (Core.releaseStrongReferenceSharedPointerBuffers s).sharedPointerBuffers
      = Core.popReleasedBack
          (s.sharedPointerBuffers.map (fun entry =>
            if entry.ttl ≤ 8 then ({ pointer := none, ttl := 0 } : SharedPointerBuffer)
            else { entry with ttl := entry.ttl - 8 })) := by
    rw [← Core.popReleasedBack_sweep]
    simp only [Core.releaseStrongReferenceSharedPointerBuffers, Core.emit]
    split_ifs <;> rfl
  refine ⟨h1, ?_⟩
  rw [h1, Core.filter_popReleasedBack]
  generalize s.sharedPointerBuffers = l
  induction l with
  | nil => rfl
  | cons e rest ih =>
    by_cases he : e.ttl ≤ 8
    · have hlt : ¬ 8 < e.ttl := by omega
      simp [he, hlt, ih]
    · have hlt : 8 < e.ttl := by omega
      cases hp : e.pointer.isSome
      · simp [he, hlt, hp, ih]
      · simp [he, hlt, hp, ih]

namespace Core

/-- One turn of the descriptor sweep on an id whose table entry is `d`. -/
theorem releaseStrongReferenceDescriptor_spec (s : Core) (id : Nat) (d : Option Descriptor)
    (h : StdMap.find s.fsDescriptors id = some d) :
    (releaseStrongReferenceDescriptor s id).trace
        = s.trace ++ (descriptorCloseRequest (id, d)).toList
      ∧ StdMap.find (releaseStrongReferenceDescriptor s id).fsDescriptors id
        = (some d).filter descriptorKept
      ∧ ∀ j, j ≠ id →
          StdMap.find (releaseStrongReferenceDescriptor s id).fsDescriptors j
            = StdMap.find s.fsDescriptors j := by
  unfold releaseStrongReferenceDescriptor
  rw [h]
  cases d with
  | none =>
    refine ⟨by simp [descriptorCloseRequest], ?_, ?_⟩
    · simp [StdMap.find_erase_self, descriptorKept, Option.filter]
    · intro j hj
      exact StdMap.find_erase_ne _ _ _ hj
  | some desc =>
    simp only [descriptorCloseRequest, descriptorKept, Option.filter]
    by_cases h1 : (desc.retained || !desc.stale) = true
    · rw [if_pos h1, if_pos h1]
      refine ⟨by simp, ?_, fun j _ => rfl⟩
      rw [h]
      have : (desc.retained || !desc.stale || desc.directory || desc.file) = true := by
        simp [h1]
      simp [this]
    · rw [if_neg h1, if_neg h1]
      by_cases h2 : desc.directory = true
      · rw [if_pos h2, if_pos h2]
        refine ⟨by simp, ?_, fun j _ => rfl⟩
        show StdMap.find s.fsDescriptors id = _
        rw [h]
        simp [h2]
      · rw [if_neg h2, if_neg h2]
        by_cases h3 : desc.file = true
        · rw [if_pos h3, if_pos h3]
          refine ⟨by simp, ?_, fun j _ => rfl⟩
          show StdMap.find s.fsDescriptors id = _
          rw [h]
          simp [h3]
        · rw [if_neg h3, if_neg h3]
          simp only [Bool.not_eq_true] at h1 h2 h3
          refine ⟨by simp, ?_, ?_⟩
          · rw [StdMap.find_erase_self]
            have : (desc.retained || !desc.stale || desc.directory || desc.file) = false := by
              simp [h1, h2, h3]
            simp [this]
          · intro j hj
            exact StdMap.find_erase_ne _ _ _ hj

/-- The descriptor sweep over a run of entries that the table still holds under
pairwise different ids. -/
theorem foldl_releaseStrongReferenceDescriptor (entries : List (Nat × Option Descriptor)) :
    ∀ s : Core, (entries.map Prod.fst).Nodup →
      (∀ e ∈ entries, StdMap.find s.fsDescriptors e.1 = some e.2) →
      ((entries.map Prod.fst).foldl releaseStrongReferenceDescriptor s).trace
          = s.trace ++ entries.filterMap descriptorCloseRequest
        ∧ ∀ j,
            StdMap.find
              ((entries.map Prod.fst).foldl releaseStrongReferenceDescriptor s).fsDescriptors j
            = if j ∈ entries.map Prod.fst then
                (StdMap.find s.fsDescriptors j).filter descriptorKept
              else StdMap.find s.fsDescriptors j := by
  induction entries with
  | nil =>
    intro s _ _
    simp
  | cons e rest ih =>
    intro s hnd hall
    obtain ⟨k, d⟩ := e
    simp only [List.map_cons, List.nodup_cons] at hnd
    have hk : StdMap.find s.fsDescriptors k = some d := hall (k, d) (List.mem_cons_self _ _)
    obtain ⟨htrace, hself, hother⟩ := releaseStrongReferenceDescriptor_spec s k d hk
    have hrest : ∀ e ∈ rest,
        StdMap.find (releaseStrongReferenceDescriptor s k).fsDescriptors e.1 = some e.2 := by
      intro e he
      have hne : e.1 ≠ k := by
        intro heq
        exact hnd.1 (heq ▸ List.mem_map.mpr ⟨e, he, rfl⟩)
      rw [hother e.1 hne]
      exact hall e (List.mem_cons_of_mem _ he)
    obtain ⟨ih1, ih2⟩ := ih (releaseStrongReferenceDescriptor s k) hnd.2 hrest
    simp only [List.map_cons, List.foldl_cons]
    constructor
    · rw [ih1, htrace, List.filterMap_cons]
      cases hreq : descriptorCloseRequest (k, d) <;> simp
    · intro j
      rw [ih2 j]
      by_cases hj : j = k
      · subst hj
        simp only [hnd.1, if_false, List.mem_cons, true_or, if_true]
        rw [hself, hk]
      · rw [hother j hj]
        by_cases hm : j ∈ rest.map Prod.fst
        · rw [if_pos hm, if_pos (List.mem_cons_of_mem _ hm)]
        · have hm' : j ∉ k :: rest.map Prod.fst := by
            intro hc
            rcases List.mem_cons.mp hc with hc | hc
            · exact hj hc
            · exact hm hc
          rw [if_neg hm, if_neg hm']

end Core

/-- C15 as stated fails: a stale descriptor that is not retained and is
neither a directory nor a file gets no close request; the sweep erases it
from the table. -/
theorem descriptor_sweep_erases_without_close :
    Core.releaseStrongReferenceDescriptors
        { Core.fresh with
          fsDescriptors :=
            [(1, some { retained := false, stale := true, directory := false, file := false })] }
      = Core.fresh := by
  decide

/-- C15 (amended): one run of the descriptor cleanup sweep over a table with
pairwise different ids requests, in table order, `closedir` for every
descriptor that is non-null, not retained, stale and a directory, and `close`
for every such descriptor that is not a directory but a file, and nothing
else.  Afterwards the table holds what it held, except that null entries and
stale unretained descriptors that are neither a directory nor a file are
erased; every retained or non-stale descriptor is looked up as before. -/
theorem descriptor_sweep_requests_and_erasures (s : Core)
    (hnd : (s.fsDescriptors.map Prod.fst).Nodup) :
    (Core.releaseStrongReferenceDescriptors s).trace
        = s.trace ++ s.fsDescriptors.filterMap Core.descriptorCloseRequest
      ∧ ∀ id,
          StdMap.find (Core.releaseStrongReferenceDescriptors s).fsDescriptors id
            = (StdMap.find s.fsDescriptors id).filter Core.descriptorKept := by
  obtain ⟨h1, h2⟩ := Core.foldl_releaseStrongReferenceDescriptor s.fsDescriptors s hnd
    (fun e he => StdMap.find_of_mem_nodup s.fsDescriptors e.1 e.2 hnd he)
  refine ⟨h1, ?_⟩
  intro id
  have h := h2 id
  by_cases hmem : id ∈ s.fsDescriptors.map Prod.fst
  · simpa [Core.releaseStrongReferenceDescriptors, hmem] using h
  · have hnone := StdMap.find_eq_none_of_not_mem s.fsDescriptors id hmem
    simp only [hmem, if_false] at h
    rw [hnone] at h ⊢
    simpa [Core.releaseStrongReferenceDescriptors, Option.filter] using h

/-- An instance of C15 (amended): a null entry, a stale directory, a retained
file, a stale file and a stale descriptor of neither kind. -/
theorem descriptor_sweep_requests_and_erasures_witness :
    (Core.releaseStrongReferenceDescriptors
        { Core.fresh with
          fsDescriptors :=
            [(1, none),
              (2, some { retained := false, stale := true, directory := true, file := false }),
              (3, some { retained := true, stale := true, directory := false, file := true }),
              (4, some { retained := false, stale := true, directory := false, file := true }),
              (5, some { retained := false, stale := true, directory := false, file := false })] }).trace
        = ({ Core.fresh with
            fsDescriptors :=
              [(1, none),
                (2, some { retained := false, stale := true, directory := true, file := false }),
                (3, some { retained := true, stale := true, directory := false, file := true }),
                (4, some { retained := false, stale := true, directory := false, file := true }),
                (5, some { retained := false, stale := true, directory := false, file := false })] } : Core).trace
          ++ [.fsClosedir 2, .fsClose 4] :=
  (descriptor_sweep_requests_and_erasures
      { Core.fresh with
        fsDescriptors :=
          [(1, none),
            (2, some { retained := false, stale := true, directory := true, file := false }),
            (3, some { retained := true, stale := true, directory := false, file := true }),
            (4, some { retained := false, stale := true, directory := false, file := true }),
            (5, some { retained := false, stale := true, directory := false, file := false })] }
      (by decide)).1

end SSC

/-! ## File operations of `core.hh`: lemmas and claims -/

namespace SSC

namespace Legacy

theorem index_of_find {V : Type} (table : StdMap (Option V)) (id : Nat) (pointer : Option V)
    (h : StdMap.find table id = some pointer) : index table id = (pointer, table) := by
  simp [index, h]

theorem index_of_absent {V : Type} (table : StdMap (Option V)) (id : Nat)
    (h : StdMap.find table id = none ∨ StdMap.find table id = some none) :
    (index table id).1 = none := by
  rcases h with h | h <;> simp [index, h]

/-- `fsClose` on an id whose descriptor is `d`: the descriptor stays in the
table, and a close of its `fd` is requested. -/
theorem fsClose_of_descriptor (lib : Library) (submit result : Int) (g : Globals)
    (seq : String) (id : Nat) (cb : Cb) (d : DescriptorContext)
    (h : StdMap.find g.descriptors id = some (some d)) :
    StdMap.find (Core.fsClose lib submit result g seq id cb).1.descriptors id
        = some (some { d with seq := seq, cb := cb })
      ∧ (Core.fsClose lib submit result g seq id cb).2
        = [.request (.fsClose d.fd),
            .callback ⟨cb, seq,
              if submit < 0 then
                lib.format submitErrTemplate [.str (toString id), .str (lib.strerror submit)]
              else if result < 0 then
                lib.format completionErrTemplate
                  [.str (toString d.id), .str (lib.strerror result)]
              else
                lib.format descriptorDataTemplate
                  [.str (toString d.id), .str (toString d.fd)], {}⟩] := by
  unfold Core.fsClose
  rw [index_of_find _ _ _ h]
  simp only
  split_ifs <;> simp [StdMap.find_insertOrAssign_self]

end Legacy

/-- C16 (fails on the code): let `fsOpen` succeed for `id` with file
descriptor `fd`, and let a first `fsClose(id)` succeed.  Afterwards the
descriptor table still holds the descriptor under `id`, and a later
`fsClose(id)` does not answer with the ENOTOPEN reply: it requests a close of
the same `fd` from the platform again and reports what the platform says. -/
theorem fsClose_twice_closes_again (lib : Legacy.Library) (g : Legacy.Globals)
    (indeterminate submit fd : Int) (seq0 seq1 seq2 path : String) (id : Nat)
    (flags mode : Int) (cb0 cb1 cb2 : Legacy.Cb) (submit2 result2 : Int)
    (hsubmit : 0 ≤ submit) (hfd : 0 ≤ fd) :
    (Legacy.Core.fsClose lib 0 0
        (Legacy.Core.fsOpen lib indeterminate submit fd g seq0 id path flags mode cb0).1
        seq1 id cb1).2
        = [.request (.fsClose fd),
            .callback ⟨cb1, seq1,
              lib.format Legacy.descriptorDataTemplate
                [.str (toString id), .str (toString fd)], {}⟩]
      ∧ StdMap.find
          (Legacy.Core.fsClose lib 0 0
            (Legacy.Core.fsOpen lib indeterminate submit fd g seq0 id path flags mode cb0).1
            seq1 id cb1).1.descriptors id
        = some (some { fd := fd, seq := seq1, cb := cb1, id := id, data := none })
      ∧ (Legacy.Core.fsClose lib submit2 result2
          (Legacy.Core.fsClose lib 0 0
            (Legacy.Core.fsOpen lib indeterminate submit fd g seq0 id path flags mode cb0).1
            seq1 id cb1).1
          seq2 id cb2).2
        = [.request (.fsClose fd),
            .callback ⟨cb2, seq2,
              if submit2 < 0 then
                lib.format Legacy.submitErrTemplate
                  [.str (toString id), .str (lib.strerror submit2)]
              else if result2 < 0 then
                lib.format Legacy.completionErrTemplate
                  [.str (toString id), .str (lib.strerror result2)]
              else
                lib.format Legacy.descriptorDataTemplate
                  [.str (toString id), .str (toString fd)], {}⟩] := by
  have hopen : StdMap.find
      (Legacy.Core.fsOpen lib indeterminate submit fd g seq0 id path flags mode cb0).1.descriptors
      id = some (some { fd := fd, seq := seq0, cb := cb0, id := id, data := none }) := by
    have h1 : ¬ submit < 0 := by omega
    have h2 : ¬ fd < 0 := by omega
    simp [Legacy.Core.fsOpen, h1, h2, StdMap.find_insertOrAssign_self]
  obtain ⟨hfind1, heff1⟩ := Legacy.fsClose_of_descriptor lib 0 0 _ seq1 id cb1 _ hopen
  obtain ⟨_, heff2⟩ := Legacy.fsClose_of_descriptor lib submit2 result2 _ seq2 id cb2 _ hfind1
  refine ⟨?_, hfind1, ?_⟩
  · rw [heff1]
    simp
  · rw [heff2]

/-- The failing run of C16: id 1 is opened as file descriptor 3 and closed;
the second `fsClose(1)`, to which the platform answers with error -9, asks
for descriptor 3 to be closed again and passes that error on. -/
theorem fsClose_twice_closes_again_witness :
    (Legacy.Core.fsClose Legacy.Library.sample 0 (-9)
        (Legacy.Core.fsClose Legacy.Library.sample 0 0
          (Legacy.Core.fsOpen Legacy.Library.sample 0 0 3 Legacy.Globals.empty "1" 1
            "/tmp/x" 66 384 10).1
          "2" 1 11).1
        "3" 1 12).2
      = [.request (.fsClose 3),
          .callback ⟨12, "3",
            if (0 : Int) < 0 then
              Legacy.Library.sample.format Legacy.submitErrTemplate
                [.str (toString 1), .str (Legacy.Library.sample.strerror 0)]
            else if (-9 : Int) < 0 then
              Legacy.Library.sample.format Legacy.completionErrTemplate
                [.str (toString 1), .str (Legacy.Library.sample.strerror (-9))]
            else
              Legacy.Library.sample.format Legacy.descriptorDataTemplate
                [.str (toString 1), .str (toString (3 : Int))], {}⟩] :=
  (fsClose_twice_closes_again Legacy.Library.sample Legacy.Globals.empty 0 0 3 "1" "2" "3"
    "/tmp/x" 1 66 384 10 11 12 0 (-9) (by decide) (by decide)).2.2

/-- For an id that has no descriptor in the table (no entry, or a null one),
`fsClose`, `fsRead` and `fsWrite` each make exactly one call, to the caller's
callback with the caller's `seq` and an empty post, and hand no request to
the platform.  The message is formatted from a template that opens an `err`
object and gives it the code `ENOTOPEN`. -/
theorem Legacy.fs_absent_id_replies_not_open (lib : Legacy.Library) (g : Legacy.Globals)
    (seq data : String) (id : Nat) (cb : Legacy.Cb)
    (submit result len offset : Int) (contents : List Nat)
    (h : StdMap.find g.descriptors id = none ∨ StdMap.find g.descriptors id = some none) :
    (Legacy.Core.fsClose lib submit result g seq id cb).2
        = [.callback ⟨cb, seq,
            lib.format Legacy.fsCloseNotOpenTemplate [.str (toString id)], {}⟩]
      ∧ (Legacy.Core.fsRead lib submit result contents g seq id len offset cb).2
        = [.callback ⟨cb, seq, lib.format Legacy.notOpenTemplate [], {}⟩]
      ∧ (Legacy.Core.fsWrite lib submit result g seq id data offset cb).2
        = [.callback ⟨cb, seq, lib.format Legacy.notOpenTemplate [], {}⟩]
      ∧ "\x7b\n        \"err\": \x7b".toList <+: Legacy.fsCloseNotOpenTemplate.toList
      ∧ "\"code\": \"ENOTOPEN\"".toList <:+: Legacy.fsCloseNotOpenTemplate.toList
      ∧ "\x7b\n        \"err\": \x7b".toList <+: Legacy.notOpenTemplate.toList
      ∧ "\"code\": \"ENOTOPEN\"".toList <:+: Legacy.notOpenTemplate.toList := by
  have hnull := Legacy.index_of_absent g.descriptors id h
  refine ⟨?_, ?_, ?_, by decide, by decide, by decide, by decide⟩
  · unfold Legacy.Core.fsClose
    rw [hnull]
  · unfold Legacy.Core.fsRead
    rw [hnull]
  · unfold Legacy.Core.fsWrite
    rw [hnull]

/-- On an id whose table entry is the descriptor `d`, each of `fsClose`,
`fsRead` and `fsWrite` starts by handing the platform a request on `d.fd`,
and the entry stays in the table. -/
theorem Legacy.fs_requests_of_descriptor (lib : Legacy.Library) (g : Legacy.Globals)
    (seq data : String) (id : Nat) (cb : Legacy.Cb) (submit result len offset : Int)
    (contents : List Nat) (d : Legacy.DescriptorContext)
    (h : StdMap.find g.descriptors id = some (some d)) :
    (Legacy.Core.fsClose lib submit result g seq id cb).2.head?
        = some (.request (.fsClose d.fd))
      ∧ (Legacy.Core.fsRead lib submit result contents g seq id len offset cb).2.head?
        = some (.request (.fsRead d.fd len offset))
      ∧ (Legacy.Core.fsWrite lib submit result g seq id data offset cb).2.head?
        = some (.request (.fsWrite d.fd data offset)) := by
  refine ⟨?_, ?_, ?_⟩
  · unfold Legacy.Core.fsClose
    rw [Legacy.index_of_find _ _ _ h]
    simp only
    split_ifs <;> rfl
  · unfold Legacy.Core.fsRead
    rw [Legacy.index_of_find _ _ _ h]
    simp only
    split_ifs <;> rfl
  · unfold Legacy.Core.fsWrite
    rw [Legacy.index_of_find _ _ _ h]
    simp only
    split_ifs <;> rfl

/-- C17 (fails on the code): an id whose descriptor was closed, or whose open
failed, has no open descriptor, but its entry is still in the descriptor
table.  After a successful `fsOpen` with file descriptor `fd` and a
successful `fsClose`, each of `fsClose`, `fsRead` and `fsWrite` on that id
hands the platform a request on `fd` instead of replying `ENOTOPEN`; after an
`fsOpen` that failed, they hand it a request on the descriptor number the
fresh context happened to hold. -/
theorem fs_closed_id_gets_file_io (lib : Legacy.Library) (g : Legacy.Globals)
    (indeterminate submit fd failure : Int) (seq0 seq1 seq2 path data : String) (id : Nat)
    (flags mode : Int) (cb0 cb1 cb2 : Legacy.Cb) (submit2 result2 len offset : Int)
    (contents : List Nat) (hsubmit : 0 ≤ submit) (hfd : 0 ≤ fd) (hfailure : failure < 0) :
    ((Legacy.Core.fsClose lib submit2 result2
          (Legacy.Core.fsClose lib 0 0
            (Legacy.Core.fsOpen lib indeterminate submit fd g seq0 id path flags mode cb0).1
            seq1 id cb1).1
          seq2 id cb2).2.head? = some (.request (.fsClose fd))
        ∧ (Legacy.Core.fsRead lib submit2 result2 contents
          (Legacy.Core.fsClose lib 0 0
            (Legacy.Core.fsOpen lib indeterminate submit fd g seq0 id path flags mode cb0).1
            seq1 id cb1).1
          seq2 id len offset cb2).2.head? = some (.request (.fsRead fd len offset))
        ∧ (Legacy.Core.fsWrite lib submit2 result2
          (Legacy.Core.fsClose lib 0 0
            (Legacy.Core.fsOpen lib indeterminate submit fd g seq0 id path flags mode cb0).1
            seq1 id cb1).1
          seq2 id data offset cb2).2.head? = some (.request (.fsWrite fd data offset)))
      ∧ ((Legacy.Core.fsClose lib submit2 result2
          (Legacy.Core.fsOpen lib indeterminate submit failure g seq0 id path flags mode
            cb0).1
          seq2 id cb2).2.head? = some (.request (.fsClose indeterminate))
        ∧ (Legacy.Core.fsRead lib submit2 result2 contents
          (Legacy.Core.fsOpen lib indeterminate submit failure g seq0 id path flags mode
            cb0).1
          seq2 id len offset cb2).2.head? = some (.request (.fsRead indeterminate len offset))
        ∧ (Legacy.Core.fsWrite lib submit2 result2
          (Legacy.Core.fsOpen lib indeterminate submit failure g seq0 id path flags mode
            cb0).1
          seq2 id data offset cb2).2.head?
          = some (.request (.fsWrite indeterminate data offset))) := by
  have h1 : ¬ submit < 0 := by omega
  have h2 : ¬ fd < 0 := by omega
  have hopen : StdMap.find
      (Legacy.Core.fsOpen lib indeterminate submit fd g seq0 id path flags mode cb0).1.descriptors
      id = some (some { fd := fd, seq := seq0, cb := cb0, id := id, data := none }) := by
    simp [Legacy.Core.fsOpen, h1, h2, StdMap.find_insertOrAssign_self]
  have hclosed := (Legacy.fsClose_of_descriptor lib 0 0 _ seq1 id cb1 _ hopen).1
  have hfailed : StdMap.find
      (Legacy.Core.fsOpen lib indeterminate submit failure g seq0 id path flags mode
        cb0).1.descriptors
      id = some (some { fd := indeterminate, seq := seq0, cb := cb0, id := id, data := none }) := by
    simp [Legacy.Core.fsOpen, h1, hfailure, StdMap.find_insertOrAssign_self]
  exact ⟨Legacy.fs_requests_of_descriptor lib _ seq2 data id cb2 submit2 result2 len offset
      contents _ hclosed,
    Legacy.fs_requests_of_descriptor lib _ seq2 data id cb2 submit2 result2 len offset
      contents _ hfailed⟩

/-- The failing run of C17: id 1 is opened as file descriptor 3 and closed;
`fsRead(1)` and `fsWrite(1)` afterwards ask the platform to read from and
write to descriptor 3. -/
theorem fs_closed_id_gets_file_io_witness :
    (Legacy.Core.fsRead Legacy.Library.sample 0 (-9) []
        (Legacy.Core.fsClose Legacy.Library.sample 0 0
          (Legacy.Core.fsOpen Legacy.Library.sample 0 0 3 Legacy.Globals.empty "1" 1
            "/tmp/x" 66 384 10).1
          "2" 1 11).1
        "3" 1 5 0 12).2.head? = some (.request (.fsRead 3 5 0))
      ∧ (Legacy.Core.fsWrite Legacy.Library.sample 0 (-9)
        (Legacy.Core.fsClose Legacy.Library.sample 0 0
          (Legacy.Core.fsOpen Legacy.Library.sample 0 0 3 Legacy.Globals.empty "1" 1
            "/tmp/x" 66 384 10).1
          "2" 1 11).1
        "3" 1 "hello" 0 12).2.head? = some (.request (.fsWrite 3 "hello" 0)) :=
  ⟨(fs_closed_id_gets_file_io Legacy.Library.sample Legacy.Globals.empty 0 0 3 (-2) "1" "2"
      "3" "/tmp/x" "hello" 1 66 384 10 11 12 0 (-9) 5 0 [] (by decide) (by decide)
      (by decide)).1.2.1,
    (fs_closed_id_gets_file_io Legacy.Library.sample Legacy.Globals.empty 0 0 3 (-2) "1" "2"
      "3" "/tmp/x" "hello" 1 66 384 10 11 12 0 (-9) 5 0 [] (by decide) (by decide)
      (by decide)).1.2.2⟩

/-- C18 (fails on the code): when the read that `fsRead` issued on an open
descriptor completes with a negative result, the callback is called once
with the message `{}` and an empty post: the error message that was built
from the descriptor id and the platform's text is not passed on. -/
theorem fsRead_failure_reply_is_empty (lib : Legacy.Library) (g : Legacy.Globals)
    (seq : String) (id : Nat) (cb : Legacy.Cb) (submit result len offset : Int)
    (contents : List Nat) (d : Legacy.DescriptorContext)
    (h : StdMap.find g.descriptors id = some (some d)) (hsubmit : 0 ≤ submit)
    (hresult : result < 0) :
    (Legacy.Core.fsRead lib submit result contents g seq id len offset cb).2
      = [.request (.fsRead d.fd len offset), .callback ⟨cb, seq, "\x7b\x7d", {}⟩] := by
  have h1 : ¬ submit < 0 := by omega
  unfold Legacy.Core.fsRead
  rw [Legacy.index_of_find _ _ _ h]
  simp [h1, hresult]

/-- The failing run of C18: descriptor 1 is open as file descriptor 3 and the
platform read fails with error -9. -/
theorem fsRead_failure_reply_is_empty_witness :
    (Legacy.Core.fsRead Legacy.Library.sample 0 (-9) []
        { Legacy.Globals.empty with
          descriptors := [(1, some { fd := 3, seq := "1", cb := 10, id := 1, data := none })] }
        "2" 1 5 0 11).2
      = [.request (.fsRead 3 5 0), .callback ⟨11, "2", "\x7b\x7d", {}⟩] :=
  fsRead_failure_reply_is_empty Legacy.Library.sample
    { Legacy.Globals.empty with
      descriptors := [(1, some { fd := 3, seq := "1", cb := 10, id := 1, data := none })] }
    "2" 1 11 0 (-9) 5 0 [] { fd := 3, seq := "1", cb := 10, id := 1, data := none } rfl
    (by decide) (by decide)

/-! ## Socket operations of `core.hh`: claims -/

set_option maxRecDepth 20000 in
/-- The key under which the unknown-client replies of `sendBufferSize`,
`tcpSend`, `tcpSetKeepAlive`, `tcpReadStart`, `readStop`, `close` and
`shutdown` file the client id, and their message texts. -/
theorem Legacy.unknown_client_templates :
    ("\"clientId\": \"$S\"".toList <:+: Legacy.sendBufferSizeErrTemplate.toList
        ∧ "\"message\": \"Not connected\"".toList
          <:+: Legacy.sendBufferSizeErrTemplate.toList)
      ∧ ("\"clientId\": \"$S\"".toList <:+: Legacy.tcpSendErrTemplate.toList
        ∧ "\"message\": \"Not connected\"".toList <:+: Legacy.tcpSendErrTemplate.toList)
      ∧ ("\"clientId\": \"$S\"".toList <:+: Legacy.noConnectionFoundTemplate.toList
        ∧ "\"message\": \"No connection found with the specified id\"".toList
          <:+: Legacy.noConnectionFoundTemplate.toList)
      ∧ ("\"clientId\": \"$S\"".toList <:+: Legacy.noConnectionTemplate.toList
        ∧ "\"message\": \"No connection with specified id\"".toList
          <:+: Legacy.noConnectionTemplate.toList)
      ∧ ("\"clientId\": \"$S\"".toList <:+: Legacy.shutdownErrTemplate.toList
        ∧ "\"message\": \"No connection with specified id\"".toList
          <:+: Legacy.shutdownErrTemplate.toList) := by
  refine ⟨⟨?_, ?_⟩, ⟨?_, ?_⟩, ⟨?_, ?_⟩, ⟨?_, ?_⟩, ⟨?_, ?_⟩⟩ <;> decide

set_option maxRecDepth 20000 in
/-- The unknown-client reply of `recvBufferSize` opens an `err` object and has
the message text "Not connected". -/
theorem Legacy.recvBufferSize_reply_text :
    "\x7b\n        \"err\": \x7b".toList <+: Legacy.recvBufferSizeErrTemplate.toList
      ∧ "\"message\": \"Not connected\"".toList
        <:+: Legacy.recvBufferSizeErrTemplate.toList := by
  constructor <;> decide

/-- C19 as stated fails: for the unknown client 7, `tcpSetKeepAlive` calls the
callback with the message text "No connection found with the specified id",
not "Not connected". -/
theorem tcpSetKeepAlive_unknown_client_message :
    (Legacy.Core.tcpSetKeepAlive Legacy.Library.sample Legacy.Globals.empty "0" 7 60 1).2
      = [.callback ⟨1, "0",
          "\x7b\n        \"err\": \x7b\n          \"clientId\": \"7\",\n"
            ++ "          \"message\": \"No connection found with the specified id\"\n"
            ++ "        \x7d\n      \x7d", {}⟩] := by
  decide

/-- C19 (amended): for a `clientId` that has no client in the table (no entry,
or a null one), each of `sendBufferSize`, `recvBufferSize`, `tcpSend`,
`tcpSetKeepAlive`, `tcpReadStart`, `readStop`, `close` and `shutdown` makes
exactly one call, to the caller's callback, with an empty post and an `err`
message formatted with that `clientId`, and hands nothing to the platform.
The message text is "Not connected" for `sendBufferSize`, `recvBufferSize`
and `tcpSend` only; it is "No connection found with the specified id" for
`tcpSetKeepAlive` and `tcpReadStart` and "No connection with specified id"
for `readStop`, `close` and `shutdown`.  `tcpSend` reports with the sequence
"-1", the others with the caller's `seq`.  The seven functions other than
`recvBufferSize` file the id under `clientId`; under which key
`recvBufferSize` files it is left open. -/
theorem unknown_client_replies (lib : Legacy.Library) (g : Legacy.Globals)
    (seq message : String) (clientId : Nat) (cb : Legacy.Cb)
    (rSize size status timeout err : Int) (indeterminate : Bool)
    (reads : List (Int × Legacy.Buf))
    (h : StdMap.find g.clients clientId = none
      ∨ StdMap.find g.clients clientId = some none) :
    (Legacy.Core.sendBufferSize lib rSize g seq clientId size cb).2
        = [.callback ⟨cb, seq,
            lib.format Legacy.sendBufferSizeErrTemplate [.str (toString clientId)], {}⟩]
      ∧ (∃ template : String,
          "\x7b\n        \"err\": \x7b".toList <+: template.toList
          ∧ "\"message\": \"Not connected\"".toList <:+: template.toList
          ∧ (Legacy.Core.recvBufferSize lib rSize g seq clientId size cb).2
            = [.callback ⟨cb, seq, lib.format template [.str (toString clientId)], {}⟩])
      ∧ (Legacy.Core.tcpSend lib status g clientId message cb).2
        = [.callback ⟨cb, "-1",
            lib.format Legacy.tcpSendErrTemplate [.str (toString clientId)], {}⟩]
      ∧ (Legacy.Core.tcpSetKeepAlive lib g seq clientId timeout cb).2
        = [.callback ⟨cb, seq,
            lib.format Legacy.noConnectionFoundTemplate [.str (toString clientId)], {}⟩]
      ∧ (Legacy.Core.tcpReadStart lib indeterminate err reads g seq clientId cb).map Prod.snd
        = some [.callback ⟨cb, seq,
            lib.format Legacy.noConnectionFoundTemplate [.str (toString clientId)], {}⟩]
      ∧ (Legacy.Core.readStop lib status g seq clientId cb).2
        = [.callback ⟨cb, seq,
            lib.format Legacy.noConnectionTemplate [.str (toString clientId)], {}⟩]
      ∧ (Legacy.Core.close lib g seq clientId cb).2
        = [.callback ⟨cb, seq,
            lib.format Legacy.noConnectionTemplate [.str (toString clientId)], {}⟩]
      ∧ (Legacy.Core.shutdown lib status g seq clientId cb).2
        = [.callback ⟨cb, seq,
            lib.format Legacy.shutdownErrTemplate [.str (toString clientId)], {}⟩]
      ∧ ("\"clientId\": \"$S\"".toList <:+: Legacy.sendBufferSizeErrTemplate.toList
        ∧ "\"message\": \"Not connected\"".toList
          <:+: Legacy.sendBufferSizeErrTemplate.toList)
      ∧ ("\"clientId\": \"$S\"".toList <:+: Legacy.tcpSendErrTemplate.toList
        ∧ "\"message\": \"Not connected\"".toList <:+: Legacy.tcpSendErrTemplate.toList)
      ∧ ("\"clientId\": \"$S\"".toList <:+: Legacy.noConnectionFoundTemplate.toList
        ∧ "\"message\": \"No connection found with the specified id\"".toList
          <:+: Legacy.noConnectionFoundTemplate.toList)
      ∧ ("\"clientId\": \"$S\"".toList <:+: Legacy.noConnectionTemplate.toList
        ∧ "\"message\": \"No connection with specified id\"".toList
          <:+: Legacy.noConnectionTemplate.toList)
      ∧ ("\"clientId\": \"$S\"".toList <:+: Legacy.shutdownErrTemplate.toList
        ∧ "\"message\": \"No connection with specified id\"".toList
          <:+: Legacy.shutdownErrTemplate.toList) := by
  have hnull := Legacy.index_of_absent g.clients clientId h
  refine ⟨?_, ?_, ?_, ?_, ?_, ?_, ?_, ?_, Legacy.unknown_client_templates⟩
  · unfold Legacy.Core.sendBufferSize
    rw [hnull]
  · refine ⟨Legacy.recvBufferSizeErrTemplate, Legacy.recvBufferSize_reply_text.1,
      Legacy.recvBufferSize_reply_text.2, ?_⟩
    unfold Legacy.Core.recvBufferSize
    rw [hnull]
  · unfold Legacy.Core.tcpSend
    rw [hnull]
  · unfold Legacy.Core.tcpSetKeepAlive
    rw [hnull]
  · unfold Legacy.Core.tcpReadStart
    rw [hnull]
    rfl
  · unfold Legacy.Core.readStop
    rw [hnull]
  · unfold Legacy.Core.close
    rw [hnull]
  · unfold Legacy.Core.shutdown
    rw [hnull]

/-- An instance of C19 (amended): client 7 on empty tables, for `tcpSend` and
`close`. -/
theorem unknown_client_replies_witness :
    (Legacy.Core.tcpSend Legacy.Library.sample 0 Legacy.Globals.empty 7 "hi" 1).2
        = [.callback ⟨1, "-1",
            Legacy.Library.sample.format Legacy.tcpSendErrTemplate [.str (toString 7)], {}⟩]
      ∧ (Legacy.Core.close Legacy.Library.sample Legacy.Globals.empty "4" 7 1).2
        = [.callback ⟨1, "4",
            Legacy.Library.sample.format Legacy.noConnectionTemplate [.str (toString 7)],
            {}⟩] :=
  ⟨(unknown_client_replies Legacy.Library.sample Legacy.Globals.empty "4" "hi" 7 1 0 0 0 0 0
      false [] (Or.inl rfl)).2.2.1,
    (unknown_client_replies Legacy.Library.sample Legacy.Globals.empty "4" "hi" 7 1 0 0 0 0 0
      false [] (Or.inl rfl)).2.2.2.2.2.2.1⟩

/-- C20 (fails on the code): for an inbound chunk or datagram of `nread > 0`
bytes, the post that the read callbacks of `tcpReadStart`, `tcpConnect` and
`udpReadStart` hand to the callback points at the whole receive buffer and
has as its length the size of that buffer (`buf->len` cast to `int`),
whatever `nread` is. -/
theorem read_callbacks_report_buffer_length (lib : Legacy.Library) (indeterminate : Bool)
    (client : Legacy.Client) (server : Legacy.Server) (cb : Legacy.Cb) (nread : Int)
    (buf : Legacy.Buf) (port : Int) (ip : String) (h : 0 < nread) :
    Legacy.Core.tcpReadStartOnRead lib indeterminate client server cb nread buf
        = [.callback ⟨cb, "-1", "\x7b\x7d",
            { body := some buf.base, length := Legacy.toInt32 buf.len,
              headers := lib.format Legacy.tcpReadStartHeadersTemplate
                [.str (toString server.serverId), .str (toString client.clientId),
                  .int (Legacy.toInt32 nread)],
              bodyNeedsFree := indeterminate }⟩]
      ∧ Legacy.Core.tcpConnectOnRead lib indeterminate client cb nread buf
        = [.callback ⟨cb, "-1", "\x7b\x7d",
            { body := some buf.base, length := Legacy.toInt32 buf.len,
              headers := lib.format Legacy.tcpConnectHeadersTemplate
                [.str (toString client.clientId)],
              bodyNeedsFree := indeterminate }⟩]
      ∧ Legacy.Core.udpReadStartOnRecv lib indeterminate server cb nread buf port ip
        = [.callback ⟨cb, "-1", "\x7b\x7d",
            { body := some buf.base, length := Legacy.toInt32 buf.len,
              headers := lib.format Legacy.udpReadStartHeadersTemplate
                [.str (toString server.serverId), .int port, .str ip],
              bodyNeedsFree := indeterminate }⟩] := by
  refine ⟨?_, rfl, ?_⟩
  · simp [Legacy.Core.tcpReadStartOnRead, h]
  · simp [Legacy.Core.udpReadStartOnRecv, h]

/-- The failing run of C20: the datagram `01 02` arrives in a buffer of the
65536 bytes libuv suggests; the post given to the callback of server 2 has
length 65536, not 2. -/
theorem read_callbacks_report_buffer_length_witness :
    Legacy.Core.udpReadStartOnRecv Legacy.Library.sample false { serverId := 2 } 1 2
        { base := 1 :: 2 :: List.replicate 65534 0, len := 65536 } 6006 "127.0.0.1"
        = [.callback ⟨1, "-1", "\x7b\x7d",
            { body := some (1 :: 2 :: List.replicate 65534 0),
              length := Legacy.toInt32 (65536 : Nat),
              headers := Legacy.Library.sample.format Legacy.udpReadStartHeadersTemplate
                [.str (toString 2), .int 6006, .str "127.0.0.1"],
              bodyNeedsFree := false }⟩]
      ∧ Legacy.toInt32 (65536 : Nat) = 65536 :=
  ⟨(read_callbacks_report_buffer_length Legacy.Library.sample false {} { serverId := 2 } 1 2
      { base := 1 :: 2 :: List.replicate 65534 0, len := 65536 } 6006 "127.0.0.1"
      (by decide)).2.2,
    by decide⟩

/-! ## Later claims on `core.hh` -/

/-- C26 (fails on the code): when the write that `fsWrite` issued on an open
descriptor completes with a negative result, the callback is called twice
with the same error message: once inside the failure branch of the
completion callback and once more by the call that follows both branches. -/
theorem fsWrite_failure_calls_back_twice (lib : Legacy.Library) (g : Legacy.Globals)
    (seq data : String) (id : Nat) (cb : Legacy.Cb) (submit result offset : Int)
    (d : Legacy.DescriptorContext)
    (h : StdMap.find g.descriptors id = some (some d)) (hsubmit : 0 ≤ submit)
    (hresult : result < 0) :
    (Legacy.Core.fsWrite lib submit result g seq id data offset cb).2
      = [.request (.fsWrite d.fd data offset),
          .callback ⟨cb, seq,
            lib.format Legacy.completionErrTemplate
              [.str (toString d.id), .str (lib.strerror result)], {}⟩,
          .callback ⟨cb, seq,
            lib.format Legacy.completionErrTemplate
              [.str (toString d.id), .str (lib.strerror result)], {}⟩] := by
  have h1 : ¬ submit < 0 := by omega
  unfold Legacy.Core.fsWrite
  rw [Legacy.index_of_find _ _ _ h]
  simp [h1, hresult]

/-- The failing run of C26: descriptor 1 is open as file descriptor 3 and the
platform write fails with error -28; callback 11 is called twice. -/
theorem fsWrite_failure_calls_back_twice_witness :
    (Legacy.Core.fsWrite Legacy.Library.sample 0 (-28)
        { Legacy.Globals.empty with
          descriptors := [(1, some { fd := 3, seq := "1", cb := 10, id := 1, data := none })] }
        "2" 1 "hello" 0 11).2
      = [.request (.fsWrite 3 "hello" 0),
          .callback ⟨11, "2",
            Legacy.Library.sample.format Legacy.completionErrTemplate
              [.str (toString 1), .str (Legacy.Library.sample.strerror (-28))], {}⟩,
          .callback ⟨11, "2",
            Legacy.Library.sample.format Legacy.completionErrTemplate
              [.str (toString 1), .str (Legacy.Library.sample.strerror (-28))], {}⟩] :=
  fsWrite_failure_calls_back_twice Legacy.Library.sample
    { Legacy.Globals.empty with
      descriptors := [(1, some { fd := 3, seq := "1", cb := 10, id := 1, data := none })] }
    "2" "hello" 1 11 0 (-28) 0 { fd := 3, seq := "1", cb := 10, id := 1, data := none } rfl
    (by decide) (by decide)

/-- C29 (fails on the code): `hasTask` answers with `find(id) == end()`.  For
an id that is not empty it is true exactly when NO task is stored under the
id: false right after `putTask` stored one, true again after `removeTask`
took it out, and true for an id that was never used.  For the empty id it is
false. -/
theorem hasTask_is_inverted (s : Legacy.Core) (id : String) (t : Legacy.Task)
    (h : id ≠ "") :
    (Legacy.Core.hasTask s id = (KeyMap.find s.tasks id).isNone)
      ∧ Legacy.Core.hasTask (Legacy.Core.putTask s id t) id = false
      ∧ Legacy.Core.getTask (Legacy.Core.putTask s id t) id = t
      ∧ Legacy.Core.hasTask (Legacy.Core.removeTask (Legacy.Core.putTask s id t) id) id = true
      ∧ Legacy.Core.hasTask s "" = false := by
  have hl : ¬ id.length = 0 := by
    intro h0
    apply h
    exact String.ext (List.length_eq_zero.mp h0)
  have hput : KeyMap.find (Legacy.Core.putTask s id t).tasks id = some t := by
    simp only [Legacy.Core.putTask]
    exact KeyMap.lookup_insertOrAssign_self _ _ _
  refine ⟨by simp [Legacy.Core.hasTask, hl], ?_, ?_, ?_, by simp [Legacy.Core.hasTask]⟩
  · simp [Legacy.Core.hasTask, hl, hput]
  · simp [Legacy.Core.getTask, hput]
  · simp only [Legacy.Core.removeTask, hput, Option.isNone_some, Bool.false_eq_true, if_false,
      Legacy.Core.hasTask, hl]
    simp [KeyMap.lookup_erase_self]

/-- The failing run of C29: on a `Core` without tasks, `putTask("job", 5)`
then `hasTask("job")` is false, and `hasTask("other")` is true. -/
theorem hasTask_is_inverted_witness :
    Legacy.Core.hasTask (Legacy.Core.putTask { posts := [] } "job" 5) "job" = false
      ∧ Legacy.Core.getTask (Legacy.Core.putTask { posts := [] } "job" 5) "job" = 5
      ∧ Legacy.Core.hasTask (Legacy.Core.putTask { posts := [] } "job" 5) "other" = true :=
  ⟨(hasTask_is_inverted { posts := [] } "job" 5 (by decide)).2.1,
    (hasTask_is_inverted { posts := [] } "job" 5 (by decide)).2.2.1,
    by decide⟩

/-! ## JSON arrays: claims -/

/-- C30 (fails on the code): `Array::has(i)` answers with `size() < i`.  For
every index of a stored element, `i < size()`, it is false although `get(i)`
returns that element; it is true exactly for the indices beyond `size()`,
where `get` returns null. -/
theorem array_has_false_for_stored (a : JSON.Array) (i : Nat) (h : i < a.size) :
    a.has i = false ∧ a.get i = a.data.get ⟨i, h⟩
      ∧ ∀ j, a.has j = true ↔ a.size < j := by
  have h0 : i < a.data.length := h
  refine ⟨?_, ?_, ?_⟩
  · simp only [JSON.Array.has, decide_eq_false_iff_not]
    omega
  · simp [JSON.Array.get, h0]
  · intro j
    simp [JSON.Array.has, JSON.Array.size]

/-- The failing run of C30: the array `["a"]` has an element at index 0,
which `get(0)` returns, and `has(0)` is false; `has(2)` is true. -/
theorem array_has_false_for_stored_witness :
    JSON.Array.has { data := [.string "a"] } 0 = false
      ∧ JSON.Array.get { data := [.string "a"] } 0 = .string "a"
      ∧ JSON.Array.has { data := [.string "a"] } 2 = true :=
  ⟨(array_has_false_for_stored { data := [.string "a"] } 0 (by decide)).1,
    (array_has_false_for_stored { data := [.string "a"] } 0 (by decide)).2.1,
    ((array_has_false_for_stored { data := [.string "a"] } 0 (by decide)).2.2 2).2
      (by decide)⟩


/-- C21 (fails on the code): on success the resolver callback of `dnsLookup`
builds the data value from all 17 bytes of its address array: the text that
`uv_ip4_name` wrote (at most 15 characters) followed by NUL bytes up to
length 17, never the text alone. -/
theorem dnsLookup_data_is_padded (lib : Legacy.Library) (ctxId : Nat) (status : Int)
    (text : String) (g : Legacy.Globals) (seq hostname : String) (cb : Legacy.Cb)
    (hstatus : 0 ≤ status) (htext : text.length ≤ 15) :
    (Legacy.Core.dnsLookup lib ctxId status text g seq hostname cb).2
        = [.request (.getaddrinfo hostname),
            .callback ⟨cb, seq,
              lib.format Legacy.dnsDataTemplate
                [.str (String.mk
                  (text.toList ++ List.replicate (17 - text.length) (Char.ofNat 0)))], {}⟩]
      ∧ (String.mk
          (text.toList ++ List.replicate (17 - text.length) (Char.ofNat 0))).length = 17
      ∧ String.mk (text.toList ++ List.replicate (17 - text.length) (Char.ofNat 0)) ≠ text := by
  have h1 : ¬ status < 0 := by omega
  have hlen : (String.mk
      (text.toList ++ List.replicate (17 - text.length) (Char.ofNat 0))).length = 17 := by
    have : text.toList.length = text.length := rfl
    simp only [String.length_mk, List.length_append, List.length_replicate, this]
    omega
  refine ⟨?_, hlen, ?_⟩
  · unfold Legacy.Core.dnsLookup
    simp [h1]
  · intro he
    rw [he] at hlen
    omega

/-- The failing run of C21: the lookup resolves to 127.0.0.1; the data value
handed to the callback is the 17-character string that starts with
"127.0.0.1" and goes on with eight NUL bytes. -/
theorem dnsLookup_data_is_padded_witness :
    (Legacy.Core.dnsLookup Legacy.Library.sample 5 0 "127.0.0.1" Legacy.Globals.empty "1"
        "localhost" 9).2
        = [.request (.getaddrinfo "localhost"),
            .callback ⟨9, "1",
              Legacy.Library.sample.format Legacy.dnsDataTemplate
                [.str (String.mk ("127.0.0.1".toList
                  ++ List.replicate (17 - "127.0.0.1".length) (Char.ofNat 0)))], {}⟩]
      ∧ String.mk ("127.0.0.1".toList
          ++ List.replicate (17 - "127.0.0.1".length) (Char.ofNat 0))
        = "127.0.0.1\x00\x00\x00\x00\x00\x00\x00\x00"
      ∧ "127.0.0.1\x00\x00\x00\x00\x00\x00\x00\x00".length = 17 :=
  ⟨(dnsLookup_data_is_padded Legacy.Library.sample 5 0 "127.0.0.1" Legacy.Globals.empty "1"
      "localhost" 9 (by decide) (by decide)).1,
    by decide, by decide⟩

/-! ## The platform service: claims -/

/-- The loop over the toplevel windows keeps a reply well formed. -/
theorem Runtime.openExternalWindows_hasSourceAndOneOf (host : Runtime.Host)
    (seq value : String) (json : JSON.ObjectEntries) (list : List (Option Nat))
    (h : Runtime.Reply.hasSourceAndOneOf "platform.openExternal" ⟨seq, json⟩ = true) :
    Runtime.Reply.hasSourceAndOneOf "platform.openExternal"
      ⟨seq, Runtime.openExternalWindows host value json list⟩ = true := by
  induction list with
  | nil => exact h
  | cons entry rest ih =>
    cases entry with
    | none => exact ih
    | some window =>
      simp only [Runtime.openExternalWindows]
      split_ifs
      · rfl
      · cases (host.showURI window value).err with
        | none => exact h
        | some message =>
          simp [Runtime.Reply.hasSourceAndOneOf, KeyMap.find]

/-- C22 (fails on the code): the replies of `Platform::event` and
`Platform::revealFile` always have their `source` and exactly one of `data`
and `err`, and so has the reply of `Platform::openExternal` on every branch
but the Windows one, which passes the callback an empty object: no `source`,
no `data`, no `err`. -/
theorem openExternal_windows_reply_is_empty (target : Runtime.Target) (host : Runtime.Host)
    (self : Runtime.Platform) (seq value event data frameType frameSource : String) :
    (self.event seq event data frameType frameSource).2.hasSourceAndOneOf "platform.event"
        = true
      ∧ (Runtime.Platform.revealFile target host seq value).hasSourceAndOneOf
          "platform.revealFile" = true
      ∧ (Runtime.Platform.openExternal target host seq value).hasSourceAndOneOf
          "platform.openExternal" = (target.apple || target.linux || !target.windows)
      ∧ (target.apple = false → target.linux = false → target.windows = true →
          (Runtime.Platform.openExternal target host seq value).json = []) := by
  refine ⟨rfl, ?_, ?_, ?_⟩
  · unfold Runtime.Platform.revealFile
    simp only []
    split_ifs <;> rfl
  · unfold Runtime.Platform.openExternal
    cases ha : target.apple
    · cases hl : target.linux
      · cases hw : target.windows
        · simp only [Bool.false_eq_true, if_false]
          split_ifs <;> rfl
        · simp only [Bool.false_eq_true, if_false, if_true]
          rfl
      · simp only [Bool.false_eq_true, if_false, if_true]
        have hw := Runtime.openExternalWindows_hasSourceAndOneOf host seq value
          [("source", .string "platform.openExternal"),
            ("err", .object [("message", .string "Failed to open external URL")])]
          host.toplevels rfl
        simpa using hw
    · simp only [if_true]
      split_ifs
      · rfl
      · rfl
      · cases host.workspaceOpenURL value <;> rfl
  · intro ha hl hw
    simp [Runtime.Platform.openExternal, ha, hl, hw]

/-- The failing run of C22: on a Windows build `openExternal` replies with the
empty object, which has neither `source` nor `data` nor `err`. -/
theorem openExternal_windows_reply_is_empty_witness :
    (Runtime.Platform.openExternal { windows := true } Runtime.Host.failing "3"
        "https://example.com").json = []
      ∧ (Runtime.Platform.openExternal { windows := true } Runtime.Host.failing "3"
          "https://example.com").hasSourceAndOneOf "platform.openExternal" = false :=
  ⟨(openExternal_windows_reply_is_empty { windows := true } Runtime.Host.failing {} "3"
      "https://example.com" "" "" "" "").2.2.2 rfl rfl rfl,
    (openExternal_windows_reply_is_empty { windows := true } Runtime.Host.failing {} "3"
      "https://example.com" "" "" "" "").2.2.1⟩


/-! ## The shared-buffer ledger over several sweeps -/

namespace Core

/-- The entries that hold a buffer after one run of the sweeper. -/
theorem sweep_filter_held (s : Core) :
    (releaseStrongReferenceSharedPointerBuffers s).sharedPointerBuffers.filter
        (fun entry => entry.pointer.isSome)
      = (s.sharedPointerBuffers.filter
          (fun entry => decide (8 < entry.ttl) && entry.pointer.isSome)).map
          (fun entry => { entry with ttl := entry.ttl - 8 }) := by
  have h1 : (releaseStrongReferenceSharedPointerBuffers s).sharedPointerBuffers
      = popReleasedBack (sweepSharedPointerBuffers s.sharedPointerBuffers) := by
    simp only [releaseStrongReferenceSharedPointerBuffers, emit]
    split_ifs <;> rfl
  rw [h1, popReleasedBack_sweep, filter_popReleasedBack]
  generalize s.sharedPointerBuffers = l
  induction l with
  | nil => rfl
  | cons e rest ih =>
    by_cases he : e.ttl ≤ 8
    · have hlt : ¬ 8 < e.ttl := by omega
      simp [he, hlt, ih]
    · have hlt : 8 < e.ttl := by omega
      cases hp : e.pointer.isSome
      · simp [he, hlt, hp, ih]
      · simp [he, hlt, hp, ih]

/-- An entry holds the buffer `p` after one run of the sweeper exactly when it
comes from an entry that held `p` with a ttl above 8. -/
theorem mem_sweep_held (s : Core) (p : Nat) (entry : SharedPointerBuffer) :
    (entry ∈ (releaseStrongReferenceSharedPointerBuffers s).sharedPointerBuffers
        ∧ entry.pointer = some p)
      ↔ ∃ e ∈ s.sharedPointerBuffers, e.pointer = some p ∧ 8 < e.ttl
          ∧ entry = { e with ttl := e.ttl - 8 } := by
  have hf := sweep_filter_held s
  have hm : (entry ∈ (releaseStrongReferenceSharedPointerBuffers s).sharedPointerBuffers
        ∧ entry.pointer = some p)
      ↔ (entry ∈ (releaseStrongReferenceSharedPointerBuffers s).sharedPointerBuffers.filter
          (fun entry => entry.pointer.isSome) ∧ entry.pointer = some p) := by
    constructor
    · rintro ⟨h1, h2⟩
      exact ⟨List.mem_filter.mpr ⟨h1, by simp [h2]⟩, h2⟩
    · rintro ⟨h1, h2⟩
      exact ⟨(List.mem_filter.mp h1).1, h2⟩
  rw [hm, hf]
  constructor
  · rintro ⟨h1, h2⟩
    obtain ⟨e, he, rfl⟩ := List.mem_map.mp h1
    have he2 := List.mem_filter.mp he
    have h8 : 8 < e.ttl := by
      have := he2.2
      simp only [Bool.and_eq_true, decide_eq_true_eq] at this
      exact this.1
    exact ⟨e, he2.1, h2, h8, rfl⟩
  · rintro ⟨e, he, hp, h8, rfl⟩
    refine ⟨List.mem_map.mpr ⟨e, List.mem_filter.mpr ⟨he, ?_⟩, rfl⟩, hp⟩
    simp [h8, hp]

/-- Holding `p` with more than `r` left after `k` runs of the sweeper is
holding it with more than `r + 8 * k` left before them. -/
theorem held_after_sweeps (p : Nat) (k : Nat) : ∀ (s : Core) (r : Nat),
    (∃ e ∈ (releaseStrongReferenceSharedPointerBuffers^[k] s).sharedPointerBuffers,
        e.pointer = some p ∧ r < e.ttl)
      ↔ ∃ e ∈ s.sharedPointerBuffers, e.pointer = some p ∧ r + 8 * k < e.ttl := by
  induction k with
  | zero => intro s r; simp
  | succ k ih =>
    intro s r
    rw [Function.iterate_succ_apply']
    constructor
    · rintro ⟨e', hmem, hp, hr⟩
      obtain ⟨e, he, hpe, h8, rfl⟩ := (mem_sweep_held _ p e').mp ⟨hmem, hp⟩
      have hr2 : r + 8 < e.ttl := by
        simp only at hr
        omega
      obtain ⟨e0, he0, hp0, hr0⟩ := (ih s (r + 8)).mp ⟨e, he, hpe, hr2⟩
      exact ⟨e0, he0, hp0, by omega⟩
    · rintro ⟨e0, he0, hp0, hr0⟩
      obtain ⟨e, he, hpe, hr2⟩ := (ih s (r + 8)).mpr ⟨e0, he0, hp0, by omega⟩
      have hm := (mem_sweep_held (releaseStrongReferenceSharedPointerBuffers^[k] s) p
        { e with ttl := e.ttl - 8 }).mpr ⟨e, he, hpe, by omega, rfl⟩
      refine ⟨_, hm.1, hm.2, ?_⟩
      simp only
      omega

/-- After at least one run of the sweeper, `p` is held exactly when an entry
held it before with a ttl above 8 times the number of runs. -/
theorem held_after_sweeps_pos (p : Nat) (k : Nat) (s : Core) (hk : 0 < k) :
    (∃ e ∈ (releaseStrongReferenceSharedPointerBuffers^[k] s).sharedPointerBuffers,
        e.pointer = some p)
      ↔ ∃ e ∈ s.sharedPointerBuffers, e.pointer = some p ∧ 8 * k < e.ttl := by
  obtain ⟨j, rfl⟩ : ∃ j, k = j + 1 := ⟨k - 1, by omega⟩
  rw [Function.iterate_succ_apply']
  constructor
  · rintro ⟨e', hmem, hp⟩
    obtain ⟨e, he, hpe, h8, _⟩ := (mem_sweep_held _ p e').mp ⟨hmem, hp⟩
    obtain ⟨e0, he0, hp0, hr0⟩ := (held_after_sweeps p j s 8).mp ⟨e, he, hpe, h8⟩
    exact ⟨e0, he0, hp0, by omega⟩
  · rintro ⟨e0, he0, hp0, hr0⟩
    obtain ⟨e, he, hpe, hr2⟩ := (held_after_sweeps p j s 8).mpr ⟨e0, he0, hp0, by omega⟩
    have hm := (mem_sweep_held (releaseStrongReferenceSharedPointerBuffers^[j] s) p
      { e with ttl := e.ttl - 8 }).mpr ⟨e, he, hpe, hr2, rfl⟩
    exact ⟨_, hm.1, hm.2⟩

theorem retainSharedPointerBuffer_ledger (s : Core) (p t : Nat) :
    (retainSharedPointerBuffer s (some p) t).sharedPointerBuffers
      = s.sharedPointerBuffers ++ [{ pointer := some p, ttl := t }] := rfl

end Core

/-- C28 as stated fails: a ledger that already holds buffer 1 with ttl 1000
retains it once more with ttl 8; after `ceil(8 / 8) = 1` run of the sweeper an
entry with that pointer is still there. -/
theorem retained_twice_outlives_ttl :
    (Core.releaseStrongReferenceSharedPointerBuffers
        (Core.retainSharedPointerBuffer
          { Core.fresh with sharedPointerBuffers := [{ pointer := some 1, ttl := 1000 }] }
          (some 1) 8)).sharedPointerBuffers
      = [{ pointer := some 1, ttl := 992 }] ∧ (8 + 7) / 8 = 1 := by
  decide

/-- C28 (amended): a buffer retained by `retainSharedPointerBuffer` with ttl
`t > 0` and never explicitly released is still held by the ledger (an entry
with that non-null pointer exists) after `k` sweeper runs for every
`k < ceil(t / 8)`, whatever other entries the ledger contains.  After
`ceil(t / 8)` or more runs it is held exactly when the ledger had another
entry for the same buffer with a ttl above 8 times the number of runs; so it
is no longer held when no other entry refers to the same buffer. -/
theorem retained_buffer_held_for_ttl (s : Core) (p t : Nat) (ht : 0 < t) :
    (∀ k, k < (t + 7) / 8 →
        ∃ e ∈ (Core.releaseStrongReferenceSharedPointerBuffers^[k]
            (Core.retainSharedPointerBuffer s (some p) t)).sharedPointerBuffers,
          e.pointer = some p)
      ∧ (∀ k, (t + 7) / 8 ≤ k →
          ((∃ e ∈ (Core.releaseStrongReferenceSharedPointerBuffers^[k]
              (Core.retainSharedPointerBuffer s (some p) t)).sharedPointerBuffers,
            e.pointer = some p)
          ↔ ∃ e ∈ s.sharedPointerBuffers, e.pointer = some p ∧ 8 * k < e.ttl)) := by
  constructor
  · intro k hk
    have h8 : 8 * k < t := by omega
    rcases Nat.eq_zero_or_pos k with h0 | hpos
    · subst h0
      exact ⟨{ pointer := some p, ttl := t },
        by simp [Core.retainSharedPointerBuffer_ledger], rfl⟩
    · rw [Core.held_after_sweeps_pos p k _ hpos, Core.retainSharedPointerBuffer_ledger]
      exact ⟨{ pointer := some p, ttl := t }, by simp, rfl, h8⟩
  · intro k hk
    have h8 : ¬ 8 * k < t := by omega
    have hpos : 0 < k := by omega
    rw [Core.held_after_sweeps_pos p k _ hpos, Core.retainSharedPointerBuffer_ledger]
    constructor
    · rintro ⟨e, he, hp, hlt⟩
      rcases List.mem_append.mp he with h1 | h1
      · exact ⟨e, h1, hp, hlt⟩
      · simp only [List.mem_singleton] at h1
        subst h1
        exact absurd hlt h8
    · rintro ⟨e, he, hp, hlt⟩
      exact ⟨e, List.mem_append.mpr (Or.inl he), hp, hlt⟩

/-- Instances of C28 (amended): buffer 1 retained with ttl 20 on an empty
ledger is held after 2 sweeper runs and is not held after 3. -/
theorem retained_buffer_held_for_ttl_witness :
    (∃ e ∈ (Core.releaseStrongReferenceSharedPointerBuffers^[2]
          (Core.retainSharedPointerBuffer Core.fresh (some 1) 20)).sharedPointerBuffers,
        e.pointer = some 1)
      ∧ ¬ (∃ e ∈ (Core.releaseStrongReferenceSharedPointerBuffers^[3]
          (Core.retainSharedPointerBuffer Core.fresh (some 1) 20)).sharedPointerBuffers,
        e.pointer = some 1) :=
  ⟨(retained_buffer_held_for_ttl Core.fresh 1 20 (by decide)).1 2 (by decide),
    fun h =>
      absurd (((retained_buffer_held_for_ttl Core.fresh 1 20 (by decide)).2 3
        (by decide)).mp h) (by simp [Core.fresh])⟩


/-! ## Shutdown followed by resume -/

namespace Core

theorem stopEventLoop_isPaused (pf : Platform) (s : Core) :
    (stopEventLoop pf s).isPaused = s.isPaused := by
  unfold stopEventLoop
  cases h : s.isLoopRunning
  · simp only [Bool.false_eq_true, if_false]
    split_ifs <;> simp
  · simp

theorem stopEventLoop_isLoopRunning (pf : Platform) (s : Core) :
    (stopEventLoop pf s).isLoopRunning = s.isLoopRunning := by
  unfold stopEventLoop
  cases h : s.isLoopRunning
  · simp only [Bool.false_eq_true, if_false]
    split_ifs <;> simp
  · simp [h]

/-- What a returning `shutdown` that takes effect is made of. -/
theorem shutdown_of_not_paused (pf : Platform) (s s2 : Core) (hp : s.isPaused = false)
    (hs : s.isShuttingDown = false) (h : shutdown pf s = some s2) :
    ∃ s1, pause pf { s with isShuttingDown := true } = some s1
      ∧ s2 = { stopEventLoop pf (s1.emitIf (!pf.ios) .childProcessShutdown) with
          isShuttingDown := false } := by
  have hg : (s.isShuttingDown || s.isPaused) = false := by simp [hp, hs]
  unfold shutdown at h
  simp only [hg, Bool.false_eq_true, if_false] at h
  cases hpz : pause pf { s with isShuttingDown := true } with
  | none => simp [hpz] at h
  | some s1 =>
    simp only [hpz, Option.some.injEq] at h
    exact ⟨s1, rfl, h.symm⟩

end Core

/-- C27 as stated fails: on macOS `shutdown()` on a running `Core` runs to
completion and leaves `isPaused` set and `isShuttingDown` cleared; the
`resume()` that follows sets `isLoopRunning` back to true and dispatches the
poll routine again. -/
theorem resume_after_shutdown_restarts :
    Core.shutdown Platform.macOS { Core.fresh with isLoopRunning := true, didLoopInit := true }
        = some
            { Core.fresh with
              isPaused := true
              didLoopInit := true
              trace := [.udpPauseAllSockets, .networkStatusStop, .conduitStop,
                .notificationsStop, .uvStop, .childProcessShutdown, .uvStop, .uvLoopClose] }
      ∧ (Core.resume Platform.macOS
            { Core.fresh with
              isPaused := true
              didLoopInit := true
              trace := [.udpPauseAllSockets, .networkStatusStop, .conduitStop,
                .notificationsStop, .uvStop, .childProcessShutdown, .uvStop, .uvLoopClose] }
          ).isLoopRunning = true
      ∧ (Core.resume Platform.macOS
            { Core.fresh with
              isPaused := true
              didLoopInit := true
              trace := [.udpPauseAllSockets, .networkStatusStop, .conduitStop,
                .notificationsStop, .uvStop, .childProcessShutdown, .uvStop, .uvLoopClose] }
          ).trace
        = [.udpPauseAllSockets, .networkStatusStop, .conduitStop, .notificationsStop,
            .uvStop, .childProcessShutdown, .uvStop, .uvLoopClose, .uvAsyncSend,
            .dispatchAsyncPoll, .udpResumeAllSockets, .networkStatusStart, .conduitStart,
            .notificationsStart] := by
  refine ⟨by decide, by decide, by decide⟩

/-- C27 (amended): there is no terminal state.  Once `shutdown()` has run to
completion from a state that is neither paused nor shutting down (the
running state in particular), `isPaused` is set and `isShuttingDown` is
cleared again, so a later `resume()` takes effect: it clears `isPaused` and
leaves `isLoopRunning` true.  Off Android the shutdown has cleared
`isLoopRunning`, and the `resume()` goes through `runEventLoop`, which sets
`isLoopRunning` back to true, queues the timer start-up and starts the poll
routine again. -/
theorem shutdown_then_resume_runs_again (pf : Platform) (s s2 : Core)
    (hp : s.isPaused = false) (hs : s.isShuttingDown = false)
    (h : Core.shutdown pf s = some s2) :
    s2.isPaused = true ∧ s2.isShuttingDown = false
      ∧ (Core.resume pf s2).isPaused = false
      ∧ (Core.resume pf s2).isShuttingDown = false
      ∧ (Core.resume pf s2).isLoopRunning = true
      ∧ (pf.android = false →
          s2.isLoopRunning = false
          ∧ Core.resume pf s2
            = ((((Core.startPollRoutine pf
                (Core.dispatchEventLoop pf (some .timers)
                  (Core.initEventLoop pf
                    { s2 with isLoopRunning := true, isPaused := false }))).emitIf
                s2.options.features.useUDP .udpResumeAllSockets).emitIf
                s2.options.features.useNetworkStatus .networkStatusStart).emitIf
                s2.options.features.useConduit .conduitStart).emitIf
                s2.options.features.useNotifications .notificationsStart) := by
  obtain ⟨s1, hpause, rfl⟩ := Core.shutdown_of_not_paused pf s s2 hp hs h
  have hp1 : s1.isPaused = true := Core.pause_isPaused pf _ s1 hpause
  have hp2 : ({ Core.stopEventLoop pf (s1.emitIf (!pf.ios) .childProcessShutdown) with
      isShuttingDown := false } : Core).isPaused = true := by
    simp [Core.stopEventLoop_isPaused, hp1]
  refine ⟨hp2, rfl, Core.resume_isPaused pf _, ?_, ?_, ?_⟩
  · rw [Core.resume_of_paused pf _ hp2]
    simp [Core.runEventLoop_isShuttingDown]
  · rw [Core.resume_of_paused pf _ hp2]
    simp only [Core.emitIf_isLoopRunning]
    exact Core.runEventLoop_running pf _ rfl rfl
  · intro ha
    have hr1 : s1.isLoopRunning = false := by
      rw [Core.pause_of_not_paused pf { s with isShuttingDown := true } hp] at hpause
      simp only [ha, Bool.false_eq_true, if_false] at hpause
      exact (Core.pauseEventLoop_frame pf _ s1 hpause).1
    have hr2 : ({ Core.stopEventLoop pf (s1.emitIf (!pf.ios) .childProcessShutdown) with
        isShuttingDown := false } : Core).isLoopRunning = false := by
      simp [Core.stopEventLoop_isLoopRunning, hr1]
    refine ⟨hr2, ?_⟩
    rw [Core.resume_of_paused pf _ hp2,
      Core.runEventLoop_unguarded pf _ (by simp [Core.stopEventLoop_isLoopRunning, hr1])]

/-- An instance of C27 (amended): the macOS run of the counterexample. -/
theorem shutdown_then_resume_runs_again_witness :
    (Core.resume Platform.macOS
        { Core.fresh with
          isPaused := true
          didLoopInit := true
          trace := [.udpPauseAllSockets, .networkStatusStop, .conduitStop,
            .notificationsStop, .uvStop, .childProcessShutdown, .uvStop, .uvLoopClose] }
      ).isPaused = false
      ∧ (Core.resume Platform.macOS
          { Core.fresh with
            isPaused := true
            didLoopInit := true
            trace := [.udpPauseAllSockets, .networkStatusStop, .conduitStop,
              .notificationsStop, .uvStop, .childProcessShutdown, .uvStop, .uvLoopClose] }
        ).isLoopRunning = true :=
  ⟨(shutdown_then_resume_runs_again Platform.macOS
      { Core.fresh with isLoopRunning := true, didLoopInit := true } _ rfl rfl
      (by decide)).2.2.1,
    (shutdown_then_resume_runs_again Platform.macOS
      { Core.fresh with isLoopRunning := true, didLoopInit := true } _ rfl rfl
      (by decide)).2.2.2.2.1⟩


/-! ## Configuration: lemmas -/

namespace KeyMap

theorem find_isSome_of_mem {K V : Type} [DecidableEq K] (m : KeyMap K V) (k : K) (v : V)
    (h : (k, v) ∈ m) : (find m k).isSome = true := by
  induction m with
  | nil => cases h
  | cons e rest ih =>
    obtain ⟨j, w⟩ := e
    by_cases hj : j = k
    · simp [find, hj]
    · simp only [find, hj, if_false]
      rcases List.mem_cons.mp h with h1 | h1
      · cases h1
        exact absurd rfl hj
      · exact ih h1

theorem entry_of_find {K V : Type} [DecidableEq K] (m : KeyMap K V) (k : K) (v : V)
    (h : find m k = some v) : (k, v) ∈ m := by
  induction m with
  | nil => cases h
  | cons e rest ih =>
    obtain ⟨j, w⟩ := e
    by_cases hj : j = k
    · subst hj
      simp only [find, if_true, Option.some.injEq] at h
      subst h
      exact List.mem_cons_self _ _
    · simp only [find, hj, if_false] at h
      exact List.mem_cons_of_mem _ (ih h)

theorem lookup_eq_none_of_not_mem {K V : Type} [DecidableEq K] (m : KeyMap K V) (k : K)
    (h : k ∉ m.map Prod.fst) : find m k = none := by
  cases hf : find m k with
  | none => rfl
  | some v =>
    exact absurd (List.mem_map.mpr ⟨(k, v), entry_of_find m k v hf, rfl⟩) h

theorem lookup_of_mem_nodup {K V : Type} [DecidableEq K] (m : KeyMap K V) (k : K) (v : V)
    (hnd : (m.map Prod.fst).Nodup) (h : (k, v) ∈ m) : find m k = some v := by
  induction m with
  | nil => cases h
  | cons e rest ih =>
    obtain ⟨j, w⟩ := e
    simp only [List.map_cons, List.nodup_cons] at hnd
    rcases List.mem_cons.mp h with h1 | h1
    · cases h1
      simp [find]
    · have hmem : k ∈ rest.map Prod.fst := List.mem_map.mpr ⟨(k, v), h1, rfl⟩
      have hj : ¬ j = k := fun e => hnd.1 (e ▸ hmem)
      simp only [find, hj, if_false]
      exact ih hnd.2 h1

theorem keys_insertOrAssign {K V : Type} [DecidableEq K] (m : KeyMap K V) (k : K) (v : V) :
    (insertOrAssign m k v).map Prod.fst
      = if k ∈ m.map Prod.fst then m.map Prod.fst else m.map Prod.fst ++ [k] := by
  induction m with
  | nil => simp [insertOrAssign]
  | cons e rest ih =>
    obtain ⟨j, w⟩ := e
    by_cases hj : j = k
    · subst hj
      simp [insertOrAssign]
    · have hkj : ¬ k = j := fun e => hj e.symm
      simp only [insertOrAssign, hj, if_false, List.map_cons, ih, List.mem_cons, hkj, false_or]
      split_ifs <;> simp

theorem nodup_insertOrAssign {K V : Type} [DecidableEq K] (m : KeyMap K V) (k : K) (v : V)
    (h : (m.map Prod.fst).Nodup) : ((insertOrAssign m k v).map Prod.fst).Nodup := by
  rw [keys_insertOrAssign]
  split_ifs with hk
  · exact h
  · exact List.Nodup.append h (List.nodup_singleton k) (by
      intro a ha hb
      rw [List.mem_singleton] at hb
      exact hk (hb ▸ ha))

theorem eq_nil_iff_find {K V : Type} [DecidableEq K] (m : KeyMap K V) :
    m = [] ↔ ∀ k, find m k = none := by
  constructor
  · rintro rfl k
    rfl
  · intro h
    cases m with
    | nil => rfl
    | cons e rest =>
      obtain ⟨j, w⟩ := e
      have := h j
      simp [find] at this

end KeyMap


namespace Config

theorem string_eq_empty_of_length (s : String) (h : s.length = 0) : s = "" := by
  apply String.ext
  exact List.length_eq_zero.mp h

/-- Inside a namespace the characters other than the brackets go to the
token. -/
theorem parse_namespace (chars rest : List Char) (h1 : '[' ∉ chars) (h2 : ']' ∉ chars) :
    ∀ state : State, state.parsingNamespace = true →
      parse (chars ++ rest) state
        = parse rest { state with token := String.mk (state.token.data ++ chars) } := by
  induction chars with
  | nil =>
    intro state _
    simp
  | cons ch chars ih =>
    intro state hn
    have hc1 : ¬ ch = '[' := fun e => h1 (e ▸ List.mem_cons_self _ _)
    have hc2 : ¬ ch = ']' := fun e => h2 (e ▸ List.mem_cons_self _ _)
    have ht1 : '[' ∉ chars := fun hm => h1 (List.mem_cons_of_mem _ hm)
    have ht2 : ']' ∉ chars := fun hm => h2 (List.mem_cons_of_mem _ hm)
    rw [List.cons_append, parse]
    simp only [hc1, hc2, hn, if_false, if_true]
    refine (ih ht1 ht2 _ rfl).trans ?_
    simp [String.push]

/-- The character loop on a key without brackets put between brackets: the
key is the one path (`*` for the empty key), and nothing else is set. -/
theorem parse_bracketed (key : String) (h1 : '[' ∉ key.toList) (h2 : ']' ∉ key.toList) :
    parse ("[" ++ key ++ "]").toList {}
      = some { paths := [if key.length = 0 then "*" else key] } := by
  have hl : ("[" ++ key ++ "]").toList = '[' :: (key.toList ++ [']']) := by
    simp [String.toList]
  rw [hl, parse]
  simp only [if_true, Bool.false_eq_true, if_false]
  rw [parse_namespace key.toList [']'] h1 h2 _ rfl]
  have hk : (String.mk (("" : String).data ++ key.toList)) = key := by
    simp [String.toList]
  simp only [hk, parse]
  by_cases h0 : key.length = 0
  · have := string_eq_empty_of_length key h0
    subst this
    simp
  · simp [h0]

end Config


namespace Config

theorem startsWith_bracketed (key : String) :
    startsWith ("[" ++ key ++ "]") "[" = true ∧ startsWith ("[" ++ key ++ "]") "." = false := by
  constructor <;> simp [startsWith, String.toList, List.isPrefixOf]

theorem startsWith_bracket_of_not_mem (key : String) (h : '[' ∉ key.toList) :
    startsWith key "[" = false := by
  unfold startsWith
  cases hk : key.toList with
  | nil => simp [String.toList, List.isPrefixOf]
  | cons c t =>
    have hc : ¬ c = '[' := fun e => h (by rw [hk, e]; exact List.mem_cons_self _ _)
    have hc2 : ¬ '[' = c := fun e => hc e.symm
    simp [String.toList, List.isPrefixOf, hc2]

/-- A text that trimming leaves alone and that is already between brackets is
parsed as it is. -/
theorem normalize_bracketed (lib : Strings) (key : String)
    (hT : lib.trim ("[" ++ key ++ "]") = "[" ++ key ++ "]") :
    normalize lib ("[" ++ key ++ "]") = "[" ++ key ++ "]" := by
  unfold normalize
  simp [hT, (startsWith_bracketed key).1, (startsWith_bracketed key).2]

/-- A key that trimming leaves alone and that starts with neither a bracket
nor a dot is put between brackets. -/
theorem normalize_plain (lib : Strings) (key : String) (hT : lib.trim key = key)
    (h1 : '[' ∉ key.toList) (hd : startsWith key "." = false) :
    normalize lib key = "[" ++ key ++ "]" := by
  unfold normalize
  simp [hT, startsWith_bracket_of_not_mem key h1, hd, (startsWith_bracketed key).2]

theorem matched_of_compare_false (lib : Strings) (path : String) (state : State)
    (target : String) (h : state.compare = false) :
    matched lib path state target = matched lib path {} target := by
  simp [matched, h]

/-- The second loop of `Config::query` without property and comparison: the
targets are the keys of the entries that match. -/
theorem foldl_collectTarget (lib : Strings) (path : String) (m : Map) :
    ∀ state : State, state.property = "" → state.compare = false →
      m.foldl (collectTarget lib path) state
        = { state with
            targets := state.targets
              ++ (m.filter (fun e => matched lib path {} e.1)).map Prod.fst } := by
  induction m with
  | nil =>
    intro state _ _
    simp
  | cons e rest ih =>
    intro state hprop hc
    rw [List.foldl_cons]
    by_cases hm : matched lib path {} e.1 = true
    · have hstep : collectTarget lib path state e
          = { state with targets := state.targets ++ [e.1] } := by
        simp [collectTarget, matched_of_compare_false lib path state e.1 hc, hm, hprop, hc]
      rw [hstep, ih { state with targets := state.targets ++ [e.1] } hprop hc]
      simp [List.filter_cons, hm]
    · have hstep : collectTarget lib path state e = state := by
        simp [collectTarget, matched_of_compare_false lib path state e.1 hc, hm]
      rw [hstep, ih _ hprop hc]
      simp [List.filter_cons, hm]

/-- The third loop of `Config::query` without property and comparison: a
target that is a key of the map is stored with the value the map has for it. -/
theorem find_foldl_collectResult (self : Config) (state : State)
    (hprop : state.property = "") (hc : state.compare = false) (targets : List String)
    (t : String) :
    ∀ results : Map,
      KeyMap.find (targets.foldl (collectResult self state) results) t
        = if t ∈ targets ∧ (KeyMap.find self.map t).isSome = true then KeyMap.find self.map t
          else KeyMap.find results t := by
  induction targets with
  | nil =>
    intro results
    simp
  | cons target rest ih =>
    intro results
    rw [List.foldl_cons, ih]
    by_cases hin : t ∈ rest ∧ (KeyMap.find self.map t).isSome = true
    · have hin2 : t ∈ target :: rest ∧ (KeyMap.find self.map t).isSome = true :=
        ⟨List.mem_cons_of_mem _ hin.1, hin.2⟩
      rw [if_pos hin, if_pos hin2]
    · rw [if_neg hin]
      cases hf : KeyMap.find self.map target with
      | none =>
        have hstep : collectResult self state results target = results := by
          simp [collectResult, hprop, hc, hf]
        rw [hstep]
        have hout : ¬ (t ∈ target :: rest ∧ (KeyMap.find self.map t).isSome = true) := by
          rintro ⟨hmem, hs⟩
          rcases List.mem_cons.mp hmem with h1 | h1
          · rw [h1, hf] at hs
            cases hs
          · exact hin ⟨h1, hs⟩
        rw [if_neg hout]
      | some value =>
        have hstep : collectResult self state results target
            = KeyMap.insertOrAssign results target value := by
          simp [collectResult, hprop, hc, hf]
        rw [hstep]
        by_cases ht : t = target
        · subst ht
          rw [KeyMap.lookup_insertOrAssign_self, if_pos ⟨List.mem_cons_self _ _, by simp [hf]⟩, hf]
        · rw [KeyMap.lookup_insertOrAssign_ne _ _ _ _ ht]
          have hout : ¬ (t ∈ target :: rest ∧ (KeyMap.find self.map t).isSome = true) := by
            rintro ⟨hmem, hs⟩
            rcases List.mem_cons.mp hmem with h1 | h1
            · exact ht h1
            · exact hin ⟨h1, hs⟩
          rw [if_neg hout]

theorem nodup_foldl_collectResult (self : Config) (state : State) (targets : List String) :
    ∀ results : Map, (results.map Prod.fst).Nodup →
      ((targets.foldl (collectResult self state) results).map Prod.fst).Nodup := by
  induction targets with
  | nil =>
    intro results h
    exact h
  | cons target rest ih =>
    intro results h
    rw [List.foldl_cons]
    apply ih
    unfold collectResult
    simp only
    split
    · exact h
    · split_ifs <;> first | exact h | exact KeyMap.nodup_insertOrAssign _ _ _ h

end Config


namespace Config

/-- The result of `Config::query` for a text that is parsed as a key without
brackets between brackets: it has, with the value the map has for it, every
key of the map that matches the key as a path (every key when the key is
empty or `*`), and no other key. -/
theorem query_of_normalize (lib : Strings) (self : Config) (input key : String)
    (h1 : '[' ∉ key.toList) (h2 : ']' ∉ key.toList) (hJ : ∀ p, lib.join [p] "." = p)
    (hn : normalize lib input = "[" ++ key ++ "]") :
    (∀ t, KeyMap.find (query lib self input).map t
        = if (KeyMap.find self.map t).isSome = true
            ∧ matched lib (if key.length = 0 then "*" else key) {} t = true
          then KeyMap.find self.map t else none)
      ∧ ((query lib self input).map.map Prod.fst).Nodup := by
  have hq : query lib self input
      = { map :=
          ((self.map.filter
            (fun e => matched lib (if key.length = 0 then "*" else key) {} e.1)).map
              Prod.fst).foldl
            (collectResult self
              { paths := [if key.length = 0 then "*" else key]
                compared := lib.trim ""
                targets :=
                  (self.map.filter
                    (fun e => matched lib (if key.length = 0 then "*" else key) {} e.1)).map
                    Prod.fst }) [] } := by
    unfold query
    rw [hn, parse_bracketed key h1 h2]
    simp only [Bool.false_and, Bool.false_eq_true, if_false, hJ]
    rw [foldl_collectTarget lib _ self.map _ rfl rfl]
    simp
  rw [hq]
  constructor
  · intro t
    rw [find_foldl_collectResult self _ rfl rfl]
    simp only [KeyMap.find]
    by_cases hs : (KeyMap.find self.map t).isSome = true
    · by_cases hm : matched lib (if key.length = 0 then "*" else key) {} t = true
      · obtain ⟨v, hv⟩ := Option.isSome_iff_exists.mp hs
        have hmem : t ∈ (self.map.filter
            (fun e => matched lib (if key.length = 0 then "*" else key) {} e.1)).map
            Prod.fst :=
          List.mem_map.mpr
            ⟨(t, v), List.mem_filter.mpr ⟨KeyMap.entry_of_find _ _ _ hv, hm⟩, rfl⟩
        rw [if_pos ⟨hmem, hs⟩, if_pos ⟨hs, hm⟩]
      · have hout : ¬ (t ∈ (self.map.filter
            (fun e => matched lib (if key.length = 0 then "*" else key) {} e.1)).map
            Prod.fst ∧ (KeyMap.find self.map t).isSome = true) := by
          rintro ⟨hmem, _⟩
          obtain ⟨e, he, rfl⟩ := List.mem_map.mp hmem
          exact hm (List.mem_filter.mp he).2
        rw [if_neg hout, if_neg (fun h => hm h.2)]
    · rw [if_neg (fun h => hs h.2), if_neg (fun h => hs h.1)]
  · exact nodup_foldl_collectResult self _ _ [] List.nodup_nil

end Config


namespace Config

/-- What matching a key means when the key does not start with a dot. -/
theorem matched_plain (lib : Strings) (key target : String)
    (hd : startsWith key "." = false) :
    matched lib (if key.length = 0 then "*" else key) {} target = true
      ↔ key = "" ∨ key = "*" ∨ startsWith (sectionOf lib target) key = true := by
  by_cases h0 : key.length = 0
  · have hk := string_eq_empty_of_length key h0
    subst hk
    have hs : startsWith "*" "." = false := by decide
    simp [matched, hs]
  · have hne : key ≠ "" := by
      intro e
      subst e
      exact h0 rfl
    simp only [h0, if_false, matched, hd, Bool.false_eq_true]
    by_cases hstar : key = "*"
    · simp [hstar]
    · simp [hstar, hne]

/-- When `query(key)` has a result for a key that is parsed between brackets:
when an entry of the map matches the key. -/
theorem query_size_pos_iff (lib : Strings) (self : Config) (input key : String)
    (h1 : '[' ∉ key.toList) (h2 : ']' ∉ key.toList) (hJ : ∀ p, lib.join [p] "." = p)
    (hn : normalize lib input = "[" ++ key ++ "]") :
    (query lib self input).size > 0
      ↔ ∃ e ∈ self.map, matched lib (if key.length = 0 then "*" else key) {} e.1 = true := by
  have hq := (query_of_normalize lib self input key h1 h2 hJ hn).1
  have hpos : (query lib self input).size > 0 ↔ (query lib self input).map ≠ [] := by
    unfold size
    exact List.length_pos
  rw [hpos, Ne, KeyMap.eq_nil_iff_find]
  constructor
  · intro h
    by_contra hno
    apply h
    intro t
    rw [hq t]
    by_cases hs : (KeyMap.find self.map t).isSome = true
    · obtain ⟨v, hv⟩ := Option.isSome_iff_exists.mp hs
      have hm : ¬ matched lib (if key.length = 0 then "*" else key) {} t = true :=
        fun hm => hno ⟨(t, v), KeyMap.entry_of_find _ _ _ hv, hm⟩
      rw [if_neg (fun h => hm h.2)]
    · rw [if_neg (fun h => hs h.1)]
  · rintro ⟨e, he, hm⟩ h
    have hs : (KeyMap.find self.map e.1).isSome = true :=
      KeyMap.find_isSome_of_mem self.map e.1 e.2 he
    have := h e.1
    rw [hq e.1, if_pos ⟨hs, hm⟩] at this
    rw [this] at hs
    cases hs

end Config

/-! ## Configuration: claims -/

/-- C23 (fails on the code): let the key have no bracket, not start with a
dot and be left alone by `trim`.  When the map has no entry for the key but
has an entry whose section starts with the key (or the key is empty or `*`
and the map has any entry), `contains(key)` is true through `query(key)` and
`get` calls `at(key)`, which throws: `get` does not return the fallback. -/
theorem get_of_section_prefix_throws (lib : Strings) (self : Config) (key fallback : String)
    (e : String × String) (h1 : '[' ∉ key.toList) (h2 : ']' ∉ key.toList)
    (hJ : ∀ p, lib.join [p] "." = p) (hT : lib.trim key = key)
    (hd : startsWith key "." = false) (hnone : KeyMap.find self.map key = none)
    (he : e ∈ self.map)
    (hsec : key = "" ∨ key = "*" ∨ startsWith (Config.sectionOf lib e.1) key = true) :
    Config.contains lib self key = true ∧ Config.get lib self key fallback = none := by
  have hn := Config.normalize_plain lib key hT h1 hd
  have hpos : (Config.query lib self key).size > 0 :=
    (Config.query_size_pos_iff lib self key key h1 h2 hJ hn).mpr
      ⟨e, he, (Config.matched_plain lib key e.1 hd).mpr hsec⟩
  have hc : Config.contains lib self key = true := by
    simp [Config.contains, hnone, hpos]
  refine ⟨hc, ?_⟩
  simp [Config.get, hc, Config.atKey, hnone]

/-- The failing run of C23: the configuration has the one entry
`build.script`; `get("build", "")` does not return. -/
theorem get_of_section_prefix_throws_witness :
    Config.contains Strings.sample { map := [("build.script", "make")] } "build" = true
      ∧ Config.get Strings.sample { map := [("build.script", "make")] } "build" "" = none :=
  get_of_section_prefix_throws Strings.sample { map := [("build.script", "make")] } "build" ""
    ("build.script", "make") (by decide) (by decide) (fun _ => rfl) (by decide) (by decide)
    (by decide) (by decide) (Or.inr (Or.inr (by decide)))

/-- When `Config::contains(key)` is true: when the map has an entry for `key`
whose value is not empty or `query(key)` has a result.  For a key that has
no bracket, does not start with a dot and is left alone by `trim`, the latter
is: the map has an entry whose section (its name without the last part)
starts with `key`, or it has any entry and `key` is empty or `*`. -/
theorem Config.contains_iff (lib : Strings) (self : Config) (key : String)
    (h1 : '[' ∉ key.toList) (h2 : ']' ∉ key.toList) (hJ : ∀ p, lib.join [p] "." = p)
    (hT : lib.trim key = key) (hd : startsWith key "." = false) :
    (Config.contains lib self key = true
        ↔ (∃ v, KeyMap.find self.map key = some v ∧ v ≠ "")
          ∨ (Config.query lib self key).size > 0)
      ∧ ((Config.query lib self key).size > 0
        ↔ ∃ e ∈ self.map,
            key = "" ∨ key = "*" ∨ startsWith (Config.sectionOf lib e.1) key = true) := by
  have hn := Config.normalize_plain lib key hT h1 hd
  constructor
  · unfold Config.contains
    cases hf : KeyMap.find self.map key with
    | none => simp
    | some v =>
      have hv : v.length > 0 ↔ v ≠ "" := by
        constructor
        · intro h e
          subst e
          exact absurd h (by decide)
        · intro h
          rcases Nat.eq_zero_or_pos v.length with h0 | h0
          · exact absurd (Config.string_eq_empty_of_length v h0) h
          · exact h0
      by_cases hl : v.length > 0
      · simp [hl, hv.mp hl]
      · have hne : v = "" := by
          by_contra hx
          exact hl (hv.mpr hx)
        simp [hne]
  · rw [Config.query_size_pos_iff lib self key key h1 h2 hJ hn]
    constructor
    · rintro ⟨e, he, hm⟩
      exact ⟨e, he, (Config.matched_plain lib key e.1 hd).mp hm⟩
    · rintro ⟨e, he, hm⟩
      exact ⟨e, he, (Config.matched_plain lib key e.1 hd).mpr hm⟩

/-- C24 (fails on the code): let the key have no bracket, not start with a
dot and be left alone by `trim`.  When the map has no non-empty value for
the key but has an entry whose section starts with the key (or the key is
empty or `*` and the map has any entry), `contains(key)` is true all the
same, through `query(key)`. -/
theorem contains_true_without_entry (lib : Strings) (self : Config) (key : String)
    (e : String × String) (h1 : '[' ∉ key.toList) (h2 : ']' ∉ key.toList)
    (hJ : ∀ p, lib.join [p] "." = p) (hT : lib.trim key = key)
    (hd : startsWith key "." = false)
    (hnone : ∀ v, KeyMap.find self.map key = some v → v = "") (he : e ∈ self.map)
    (hsec : key = "" ∨ key = "*" ∨ startsWith (Config.sectionOf lib e.1) key = true) :
    Config.contains lib self key = true
      ∧ ¬ ∃ v, KeyMap.find self.map key = some v ∧ v ≠ "" := by
  obtain ⟨hc, hq⟩ := Config.contains_iff lib self key h1 h2 hJ hT hd
  refine ⟨hc.mpr (Or.inr (hq.mpr ⟨e, he, hsec⟩)), ?_⟩
  rintro ⟨v, hv, hne⟩
  exact hne (hnone v hv)

/-- The failing run of C24: the configuration has the one entry `build.script`
and no entry `build`, and `contains("build")` is true. -/
theorem contains_true_without_entry_witness :
    Config.contains Strings.sample { map := [("build.script", "make")] } "build" = true
      ∧ KeyMap.find ([("build.script", "make")] : Map) "build" = none :=
  ⟨(contains_true_without_entry Strings.sample { map := [("build.script", "make")] } "build"
      ("build.script", "make") (by decide) (by decide) (fun _ => rfl) (by decide)
      (by decide) (by decide) (by decide) (Or.inr (Or.inr (by decide)))).1,
    by decide⟩

namespace Config

theorem toList_section_key (key k : String) :
    (key ++ "." ++ k).toList = key.toList ++ '.' :: k.toList := by
  simp [String.toList]

theorem startsWith_section_key (key k : String) :
    startsWith (key ++ "." ++ k) (key.push '.') = true := by
  unfold startsWith
  rw [List.isPrefixOf_iff_prefix, toList_section_key]
  exact ⟨k.toList, by simp [String.toList, String.push]⟩

theorem substr_section_key (key k : String) :
    substr (key ++ "." ++ k) (key.length + 1) (key ++ "." ++ k).length = k := by
  unfold substr
  have hd : (key ++ "." ++ k).toList.drop (key.length + 1) = k.toList := by
    rw [toList_section_key]
    have : key.toList ++ '.' :: k.toList = (key.toList ++ ['.']) ++ k.toList := by simp
    rw [this]
    apply List.drop_left'
    show (key.data ++ ['.']).length = key.data.length + 1
    simp
  rw [hd]
  have hl : k.toList.length ≤ (key ++ "." ++ k).length := by
    show k.data.length ≤ (key ++ "." ++ k).data.length
    simp only [String.data_append, List.length_append]
    omega
  rw [List.take_of_length_le hl]
  rfl

/-- A name that starts with the key and a dot is the key, a dot and what
`substr` takes after them. -/
theorem eq_of_startsWith_push (key t : String) (h : startsWith t (key.push '.') = true) :
    t = key ++ "." ++ substr t (key.length + 1) t.length := by
  unfold startsWith at h
  rw [List.isPrefixOf_iff_prefix] at h
  obtain ⟨r, hr⟩ := h
  have ht : t = key ++ "." ++ String.mk r := by
    apply String.ext
    show t.toList = _
    rw [← hr]
    simp [String.toList, String.push]
  have hs := substr_section_key key (String.mk r)
  rw [← ht] at hs
  rw [hs]
  exact ht

/-- The loop of `Config::slice` over a view with distinct keys: the slice has
for `k` the non-empty value the view has for the key, a dot and `k`. -/
theorem find_foldl_slice (key k : String) (view : Map) :
    (view.map Prod.fst).Nodup → ∀ slice : Map,
      KeyMap.find
          (view.foldl
            (fun slice tuple =>
              if startsWith tuple.1 (key.push '.') && decide (tuple.2.length > 0) then
                KeyMap.insertOrAssign slice (substr tuple.1 (key.length + 1) tuple.1.length)
                  tuple.2
              else slice)
            slice) k
        = match KeyMap.find view (key ++ "." ++ k) with
          | some v => if v.length > 0 then some v else KeyMap.find slice k
          | none => KeyMap.find slice k := by
  induction view with
  | nil =>
    intro _ slice
    rfl
  | cons e rest ih =>
    obtain ⟨t, v⟩ := e
    intro hnd slice
    simp only [List.map_cons, List.nodup_cons] at hnd
    rw [List.foldl_cons, ih hnd.2]
    by_cases ht : t = key ++ "." ++ k
    · subst ht
      have hrest : KeyMap.find rest (key ++ "." ++ k) = none :=
        KeyMap.lookup_eq_none_of_not_mem rest _ hnd.1
      simp only [hrest, KeyMap.find, if_true, startsWith_section_key, Bool.true_and,
        substr_section_key]
      by_cases hv : v.length > 0
      · simp [hv, KeyMap.lookup_insertOrAssign_self]
      · simp [hv]
    · have hstep : KeyMap.find
          (if startsWith t (key.push '.') && decide (v.length > 0) then
            KeyMap.insertOrAssign slice (substr t (key.length + 1) t.length) v
          else slice) k = KeyMap.find slice k := by
        by_cases hc : (startsWith t (key.push '.') && decide (v.length > 0)) = true
        · rw [if_pos hc]
          have hsw : startsWith t (key.push '.') = true := by
            simp only [Bool.and_eq_true] at hc
            exact hc.1
          have hk : k ≠ substr t (key.length + 1) t.length := by
            intro hk
            apply ht
            rw [hk]
            exact eq_of_startsWith_push key t hsw
          exact KeyMap.lookup_insertOrAssign_ne _ _ _ _ hk
        · rw [if_neg hc]
      simp only [hstep, KeyMap.find, ht, if_false]

theorem nodup_foldl_slice (key : String) (view : Map) :
    ∀ slice : Map, (slice.map Prod.fst).Nodup →
      ((view.foldl
          (fun slice tuple =>
            if startsWith tuple.1 (key.push '.') && decide (tuple.2.length > 0) then
              KeyMap.insertOrAssign slice (substr tuple.1 (key.length + 1) tuple.1.length)
                tuple.2
            else slice)
          slice).map Prod.fst).Nodup := by
  induction view with
  | nil =>
    intro slice h
    exact h
  | cons e rest ih =>
    intro slice h
    rw [List.foldl_cons]
    apply ih
    split_ifs
    · exact KeyMap.nodup_insertOrAssign _ _ _ h
    · exact h

/-- A name whose section starts with the key matches the key as a path. -/
theorem matched_of_section (lib : Strings) (key target : String)
    (h : startsWith (sectionOf lib target) key = true) :
    matched lib (if key.length = 0 then "*" else key) {} target = true := by
  by_cases h0 : key.length = 0
  · have hs : startsWith "*" "." = false := by decide
    simp [h0, matched, hs]
  · simp only [h0, if_false, matched, Bool.false_eq_true]
    by_cases hd : startsWith key "." = true
    · simp only [hd, if_true, containsText, decide_eq_true_eq]
      unfold startsWith at h
      rw [List.isPrefixOf_iff_prefix] at h
      exact h.isInfix
    · simp [hd, h]

end Config

/-- C25: for a key with no bracket, `slice(key)` has the prefix `key` and its
entries are exactly the pairs `(k, v)` for which the configuration maps
`key + "." + k` to `v` and `v` is not empty.  The helpers that are not among
the sources are taken with their usual meaning as far as it is used: `trim`
leaves the key between its brackets alone, `join` of one part is that part,
and the section that `split` and `join` give for an entry named `key.k`
starts with `key`. -/
theorem slice_holds_section_entries (lib : Strings) (self : Config) (key : String)
    (h1 : '[' ∉ key.toList) (h2 : ']' ∉ key.toList) (hJ : ∀ p, lib.join [p] "." = p)
    (hT : lib.trim ("[" ++ key ++ "]") = "[" ++ key ++ "]")
    (hS : ∀ e ∈ self.map, startsWith e.1 (key.push '.') = true →
      startsWith (Config.sectionOf lib e.1) key = true) :
    (Config.slice lib self key).pfx = key
      ∧ ∀ k v, (k, v) ∈ (Config.slice lib self key).map
          ↔ (KeyMap.find self.map (key ++ "." ++ k) = some v ∧ v ≠ "") := by
  refine ⟨rfl, ?_⟩
  intro k v
  have hn := Config.normalize_bracketed lib key hT
  obtain ⟨hq, hnd⟩ := Config.query_of_normalize lib self ("[" ++ key ++ "]") key h1 h2 hJ hn
  have hslice : ((Config.slice lib self key).map.map Prod.fst).Nodup :=
    Config.nodup_foldl_slice key _ [] List.nodup_nil
  have hfind : KeyMap.find (Config.slice lib self key).map k
      = match KeyMap.find self.map (key ++ "." ++ k) with
        | some v => if v.length > 0 then some v else none
        | none => none := by
    have hf := Config.find_foldl_slice key k _ hnd []
    simp only [Config.slice]
    rw [hf, hq]
    cases hm : KeyMap.find self.map (key ++ "." ++ k) with
    | none => simp [KeyMap.find]
    | some w =>
      have hmatch := Config.matched_of_section lib key (key ++ "." ++ k)
        (hS (key ++ "." ++ k, w) (KeyMap.entry_of_find _ _ _ hm)
          (Config.startsWith_section_key key k))
      simp [hmatch, KeyMap.find]
  have hmem : (k, v) ∈ (Config.slice lib self key).map
      ↔ KeyMap.find (Config.slice lib self key).map k = some v :=
    ⟨KeyMap.lookup_of_mem_nodup _ k v hslice, KeyMap.entry_of_find _ k v⟩
  rw [hmem, hfind]
  cases hm : KeyMap.find self.map (key ++ "." ++ k) with
  | none => simp
  | some w =>
    by_cases hw : w.length > 0
    · have hne : w ≠ "" := by
        intro e
        subst e
        exact absurd hw (by decide)
      simp only [hw, if_true, Option.some.injEq]
      constructor
      · rintro rfl
        exact ⟨rfl, hne⟩
      · rintro ⟨rfl, _⟩
        rfl
    · have he : w = "" := Config.string_eq_empty_of_length w (by omega)
      subst he
      simp only [hw, if_false]
      constructor
      · intro h
        cases h
      · rintro ⟨h, hv⟩
        simp only [Option.some.injEq] at h
        exact absurd h.symm hv

/-- An instance of C25: the slice `build` of a configuration with the entries
`build.script`, `build.name` (empty), `build.env.mode` and `meta.title`. -/
theorem slice_holds_section_entries_witness :
    Config.slice Strings.sample
        { map := [("build.script", "make"), ("build.name", ""), ("build.env.mode", "fast"),
            ("meta.title", "app")] }
        "build"
        = { pfx := "build", map := [("script", "make"), ("env.mode", "fast")] }
      ∧ (("script", "make") ∈ (Config.slice Strings.sample
            { map := [("build.script", "make"), ("build.name", ""),
                ("build.env.mode", "fast"), ("meta.title", "app")] }
            "build").map
        ↔ (KeyMap.find
              ([("build.script", "make"), ("build.name", ""), ("build.env.mode", "fast"),
                ("meta.title", "app")] : Map)
              ("build" ++ "." ++ "script") = some "make"
            ∧ "make" ≠ "")) :=
  ⟨by decide,
    (slice_holds_section_entries Strings.sample
      { map := [("build.script", "make"), ("build.name", ""), ("build.env.mode", "fast"),
          ("meta.title", "app")] }
      "build" (by decide) (by decide) (fun _ => rfl) (by decide) (by decide)).2
      "script" "make"⟩

end SSC
